import Mathlib

/-!
Build roots of `pkg/manifest/build.go`

A shallow embedding of the package-based build root (`BuildrootFromPackages`):
its constructor `NewBuild`, the requirement aggregation `getPackageSetChain`,
the two-phase lifecycle `serializeStart` / `serialize` / `serializeEnd`, and the
label derivation `getSELinuxLabels`; of the container-based build root
(`BuildrootFromContainer`) with its constructors `NewBuildFromContainer` and
`NewBootstrap`, its lifecycle, its labels and its pipeline; and of
`addDependent` for both. The conflict rule of the distro ID parser, whose code
is only known through its test, is modelled in the namespace `distroidparser`.

Conventions of the embedding

* A Go slice is a `List`; the `nil` slice and the empty slice are both `[]`
  (the code only ever asks for `len`).
* A Go `panic` is `Except.error` carrying the panic message; a method with a
  pointer receiver that mutates its receiver returns the new receiver.
  The Go methods `serialize` return an `osbuild.Pipeline` and no `error`, so a
  call either returns a pipeline or panics.
* The methods whose effect on the receiver is itself in question
  (`getPackageSetChain`, `serialize`) are also embedded as state-passing
  programs over the receiver (`Method`), one statement of the body after the
  other, so that what a call leaves of the receiver is computed from the body.
* A Go `map[string]string` is a finite-support function `String → Option String`.
* Interface values (`runner.Runner`, dependent `Pipeline`s) are records of the
  methods the build root calls on them; they are never nil and their methods
  are total and free of effects.
-/

namespace manifest

/-! ## Data of the collaborating packages -/

/-- Go `rpmmd.RepoConfig`, with the fields that identify a repository. -/
structure RepoConfig where
  Id : String
  Name : String
  BaseURLs : List String
  PackageSets : List String
  deriving DecidableEq, Repr

/-- Go `rpmmd.PackageSpec`: one package as decided by the dependency resolver. -/
structure PackageSpec where
  Name : String
  Epoch : Nat
  Version : String
  Release : String
  Arch : String
  Checksum : String
  CheckGPG : Bool
  deriving DecidableEq, Repr

/-- Go `rpmmd.PackageSet`: an unresolved request for packages. -/
structure PackageSet where
  Include : List String
  Exclude : List String
  Repositories : List RepoConfig
  InstallWeakDeps : Bool
  deriving DecidableEq, Repr

/-- Go `container.Spec`: one resolved container image. -/
structure ContainerSpec where
  Source : String
  Digest : String
  ImageID : String
  LocalName : String
  deriving DecidableEq, Repr

/-- Go `container.SourceSpec`: an unresolved reference to a container image. -/
structure ContainerSourceSpec where
  Source : String
  Name : String
  Local : Bool
  deriving DecidableEq, Repr

/-- The depsolve result carried by `Inputs.Depsolved`: the resolved packages and
the repositories the resolver reports back. -/
structure DepsolveResult where
  Packages : List PackageSpec
  Repos : List RepoConfig
  deriving DecidableEq, Repr

/-- Go `manifest.Inputs`: what the external resolvers hand to `serializeStart`. -/
structure Inputs where
  Depsolved : DepsolveResult
  Containers : List ContainerSpec
  deriving DecidableEq, Repr

/-- Go `manifest.Distro`, an unsigned integer enumeration. -/
abbrev Distro := Nat

/-- The two methods of the Go interface `runner.Runner` that the build root
calls: `String()` and `GetBuildPackages()`. -/
structure Runner where
  runnerString : String
  GetBuildPackages : List String
  deriving DecidableEq, Repr

/-- A dependent pipeline, as far as the build root uses it: its name and its
method `getBuildPackages(Distro)`. A value of this type is a pipeline as its
constructor hands it to `addDependent`; a pipeline that another Manifest
already owns is outside the embedding. -/
structure Pipeline where
  Name : String
  getBuildPackages : Distro → List String

/-- Go `fsnode.Directory`, reduced to its path. -/
structure Directory where
  path : String
  deriving DecidableEq, Repr

/-! ## Go maps with string keys and string values -/

/-- A Go `map[string]string`. -/
abbrev Labels := String → Option String

/-- The result of `make(map[string]string)`. -/
def Labels.empty : Labels := fun _ => none

/-- The assignment `m[k] = v`. -/
def Labels.set (m : Labels) (k v : String) : Labels :=
  fun q => if q = k then some v else m q

/-! ## The low-level pipeline description (package `osbuild`) -/

/-- Go `osbuild.SELinuxStageOptions`. -/
structure SELinuxStageOptions where
  FileContexts : String
  ExcludePaths : List String
  Labels : Labels

/-- Go `osbuild.ContainerDeployOptions`. -/
structure ContainerDeployOptions where
  Exclude : List String
  RemoveSignatures : Bool
  deriving DecidableEq, Repr

/-- One of the stages that `osbuild.GenDirectoryNodesStages` generates for a
list of directories: its stage type and the paths it handles. -/
structure DirectoryNodesStage where
  stageType : String
  paths : List String
  deriving DecidableEq, Repr

/-- Go `osbuild.CopyStagePath`. -/
structure CopyStagePath where
  From : String
  To : String
  deriving DecidableEq, Repr

/-- The stages the build roots emit, each recorded with the arguments of its
constructor call:
`rpm repos specs` is
`NewRPMStage(NewRPMStageOptions(repos), NewRpmStageSourceFilesInputs(specs))`,
`selinux o` is `NewSELinuxStage(o)`,
`containerDeploy spec o` is the stage of
`NewContainerDeployStage(NewContainersInputForSingleSource(spec), o)`,
`directory d` is one stage out of `GenDirectoryNodesStages`,
`copy paths inputName pipeline` is
`NewCopyStageSimple(&CopyStageOptions{Paths: paths},
NewPipelineTreeInputs(inputName, pipeline))`. -/
inductive Stage where
  | rpm (repos : List RepoConfig) (specs : List PackageSpec)
  | selinux (options : SELinuxStageOptions)
  | containerDeploy (image : ContainerSpec) (options : ContainerDeployOptions)
  | directory (stage : DirectoryNodesStage)
  | copy (paths : List CopyStagePath) (inputName : String) (pipeline : String)

/-- Whether a stage is a SELinux stage. -/
def Stage.isSELinux : Stage → Bool
  | .selinux _ => true
  | _ => false

/-- Whether a stage is a file-copy stage. -/
def Stage.isCopy : Stage → Bool
  | .copy _ _ _ => true
  | _ => false

/-- The path pairs a file-copy stage copies; no pair for any other stage. -/
def Stage.copyPaths : Stage → List CopyStagePath
  | .copy paths _ _ => paths
  | _ => []

/-- Go `osbuild.NewContainerDeployStage`, which returns a stage or an error.
Which arguments it rejects is decided in package `osbuild`; that decision is
the parameter `deployError` (the error, if any). -/
def NewContainerDeployStage (deployError : ContainerSpec → ContainerDeployOptions → Option String)
    (image : ContainerSpec) (options : ContainerDeployOptions) : Except String Stage :=
  match deployError image options with
  | some err => .error err
  | none => .ok (Stage.containerDeploy image options)

/-- Modelled from the spec: the decision of `osbuild.NewContainerDeployStage`,
which is declared in package `osbuild`, on the input that
`NewContainersInputForSingleSource` makes of one resolved image. Spec §4.3 lets
`serialize()` of the container-based root fail only when resolution has not
happened or more than one resolved spec is present, and §8 (6) has it succeed
with exactly one resolved spec: the stage for a single image is always
constructed, whatever the fields of the image are. -/
def singleSourceDeployError : ContainerSpec → ContainerDeployOptions → Option String :=
  fun _ _ => none

/-- Go `osbuild.Pipeline`. -/
structure OsbuildPipeline where
  Name : String
  Build : String
  Runner : String
  Stages : List Stage

/-- Go `(*osbuild.Pipeline).AddStage`: the stage goes to the end of the list. -/
def OsbuildPipeline.AddStage (pl : OsbuildPipeline) (s : Stage) : OsbuildPipeline :=
  { pl with Stages := pl.Stages ++ [s] }

/-! ## Manifest and the common pipeline base -/

/-- Modelled from the spec: the struct `Base` embedded in every pipeline is
declared in another file of the package, not in `build.go`. Spec §3 gives a
build root a name and an optional upstream build it is bootstrapped from, and
(§4.1) a back-reference to the owning Manifest, absent until the pipeline is
registered. The upstream build is recorded by name, the Manifest by its handle. -/
structure Base where
  name : String
  build : Option String
  manifest : Option Nat
  deriving DecidableEq, Repr

/-- Modelled from the spec: `NewBase(name, build)` is declared in another file of
the package; it records the name and the upstream build, and the new
pipeline is not yet owned by a Manifest. -/
def NewBase (name : String) (build : Option String) : Base :=
  { name := name, build := build, manifest := none }

/-- Modelled from the spec: the type `Manifest` is declared in another file of
the package. Spec §2: the Manifest owns all pipelines in registration
order. `handle` stands for the identity of the Go object. -/
structure Manifest where
  handle : Nat
  pipelines : List String
  deriving DecidableEq, Repr

/-- Modelled from the spec: `(*Manifest).addPipeline` is declared in another file
of the package. Spec §6: constructors register the new root into the given
Manifest; §3: a name is unique within its owning Manifest, and every registered
pipeline is in the Manifest's collection. Registering a name the Manifest
already has is a fatal failure that leaves the pipeline and the Manifest as
they were; otherwise the name joins the collection and the pipeline receives
the back-reference. The result is the pipeline after the call, next to the
outcome: the panic, or the Manifest after the registration. The wording of the
panic message is not taken from the sources. -/
def Manifest.addPipeline (m : Manifest) (b : Base) : Base × Except String Manifest :=
  if b.name ∈ m.pipelines then
    (b, .error "duplicate pipeline name in manifest")
  else
    ({ b with manifest := some m.handle },
      .ok { m with pipelines := m.pipelines ++ [b.name] })

/-! ## Methods with a pointer receiver -/

/-- A Go method with a pointer receiver of type `σ`, as a program: it reads the
fields of the receiver (`get`), assigns to them (`set`, `modify`), and returns a
value or panics (`throw`). Running it on a receiver gives the panic, or the
returned value next to the receiver after the call. -/
abbrev Method (σ α : Type) : Type := StateT σ (Except String) α

/-- Two consecutive calls of the same method on the same receiver, nothing in
between; the result is the pair of the two returned values. -/
def twice {σ α : Type} (m : Method σ α) : Method σ (α × α) := do
  let first ← m
  let second ← m
  return (first, second)

/-! ## `BuildrootFromPackages` -/

/-- Go `BuildrootFromPackages`. -/
structure BuildrootFromPackages extends Base where
  runner : Runner
  dependents : List Pipeline
  repos : List RepoConfig
  packageSpecs : List PackageSpec
  containerBuildable : Bool
  disableSelinux : Bool
  selinuxPolicy : String

/-- Go `BuildOptions`; the field defaults are the Go zero values, so that
`{}` is `&BuildOptions{}`. `BootstrapPipeline` names the bootstrap build. -/
structure BuildOptions where
  ContainerBuildable : Bool := false
  DisableSELinux : Bool := false
  SELinuxPolicy : String := ""
  BootstrapPipeline : Option String := none
  PipelineName : String := ""
  CopyFilesFrom : List (String × List String) := []
  EnsureDirs : List Directory := []
  deriving DecidableEq, Repr

/-- Go `policyOrDefault`. -/
def policyOrDefault (selinuxPolicy : String) : String :=
  if selinuxPolicy ≠ "" then selinuxPolicy else "targeted"

/-- Go `NewBuild`. `opts = none` is the nil pointer. The helper `filterRepos`
is declared in another file of the package and is taken as a parameter. The
result is the new pipeline as `m.addPipeline` leaves it, next to the outcome of
the registration: the Manifest with the pipeline registered, in which case the
pipeline is what `NewBuild` returns, or the panic of `addPipeline`, in which
case nothing is returned to the caller. -/
def NewBuild (filterRepos : List RepoConfig → String → List RepoConfig)
    (m : Manifest) (runner : Runner) (repos : List RepoConfig)
    (opts : Option BuildOptions) : BuildrootFromPackages × Except String Manifest :=
  let opts : BuildOptions := match opts with
    | none => {}
    | some o => o
  let name := if opts.PipelineName ≠ "" then opts.PipelineName else "build"
  let pipeline : BuildrootFromPackages :=
    { toBase := NewBase name opts.BootstrapPipeline
      runner := runner
      dependents := []
      repos := filterRepos repos name
      packageSpecs := []
      containerBuildable := opts.ContainerBuildable
      disableSelinux := opts.DisableSELinux
      selinuxPolicy := policyOrDefault opts.SELinuxPolicy }
  let r := m.addPipeline pipeline.toBase
  ({ pipeline with toBase := r.1 }, r.2)

namespace BuildrootFromPackages

/-- Go `(*BuildrootFromPackages).getPackageSetChain`. The `for` loop over the
dependents is the left fold. -/
def getPackageSetChain (p : BuildrootFromPackages) (distro : Distro) : List PackageSet :=
  let policyPackage := "selinux-policy-" ++ p.selinuxPolicy
  let packages := [policyPackage, "coreutils", "xz"]
  let packages := packages ++ p.runner.GetBuildPackages
  let packages := p.dependents.foldl
    (fun acc pipeline => acc ++ pipeline.getBuildPackages distro) packages
  [{ Include := packages, Exclude := [], Repositories := p.repos, InstallWeakDeps := true }]

/-- Go `(*BuildrootFromPackages).getPackageSpecs`. -/
def getPackageSpecs (p : BuildrootFromPackages) : List PackageSpec :=
  p.packageSpecs

/-- Go `(*BuildrootFromPackages).serializeStart`. -/
def serializeStart (p : BuildrootFromPackages) (inputs : Inputs) :
    Except String BuildrootFromPackages :=
  if p.packageSpecs.length > 0 then
    .error "double call to serializeStart()"
  else
    .ok { p with
      packageSpecs := inputs.Depsolved.Packages
      repos := p.repos ++ inputs.Depsolved.Repos }

/-- Go `(*BuildrootFromPackages).serializeEnd`. -/
def serializeEnd (p : BuildrootFromPackages) : Except String BuildrootFromPackages :=
  if p.packageSpecs.length = 0 then
    .error "serializeEnd() call when serialization not in progress"
  else
    .ok { p with packageSpecs := [] }

/-- The label every entry of the table carries. -/
def installExecLabel : String := "system_u:object_r:install_exec_t:s0"

/-- Go `(*BuildrootFromPackages).getSELinuxLabels`: one pass over the resolved
packages, switching on the package name. -/
def getSELinuxLabels (p : BuildrootFromPackages) : Labels :=
  p.getPackageSpecs.foldl
    (fun labels pkg =>
      if pkg.Name = "coreutils" then
        let labels := labels.set "/usr/bin/cp" installExecLabel
        if p.containerBuildable then
          (labels.set "/usr/bin/mount" installExecLabel).set "/usr/bin/umount" installExecLabel
        else labels
      else if pkg.Name = "tar" then
        labels.set "/usr/bin/tar" installExecLabel
      else labels)
    Labels.empty

/-- Go `(*BuildrootFromPackages).serialize`. `baseSerialize` is the method
`Base.serialize`, which is declared in another file of the package and is taken
as a parameter. The receiver is not modified, so only the pipeline is returned. -/
def serialize (baseSerialize : Base → OsbuildPipeline) (p : BuildrootFromPackages) :
    Except String OsbuildPipeline :=
  if p.packageSpecs.length = 0 then
    .error "serialization not started"
  else
    let pipeline := baseSerialize p.toBase
    let pipeline := { pipeline with Runner := p.runner.runnerString }
    let pipeline := pipeline.AddStage (Stage.rpm p.repos p.packageSpecs)
    let pipeline :=
      if ¬ p.disableSelinux then
        pipeline.AddStage (Stage.selinux
          { FileContexts := "etc/selinux/" ++ p.selinuxPolicy ++ "/contexts/files/file_contexts"
            ExcludePaths := []
            Labels := p.getSELinuxLabels })
      else pipeline
    .ok pipeline

/-- Go `(*BuildrootFromPackages).getPackageSetChain` as a program over its
pointer receiver, one statement of the body after the other; every `p.field`
of the body is a read of the receiver at that statement. The `for` loop over
the dependents is the left fold. -/
def getPackageSetChainM (distro : Distro) :
    Method BuildrootFromPackages (List PackageSet) := do
  let policyPackage := "selinux-policy-" ++ (← get).selinuxPolicy
  let mut packages := [policyPackage, "coreutils", "xz"]
  packages := packages ++ (← get).runner.GetBuildPackages
  packages := (← get).dependents.foldl
    (fun acc pipeline => acc ++ pipeline.getBuildPackages distro) packages
  return [{ Include := packages, Exclude := [], Repositories := (← get).repos,
            InstallWeakDeps := true }]

/-- Go `(*BuildrootFromPackages).serialize` as a program over its pointer
receiver, one statement of the body after the other. `baseSerialize` is the
method `Base.serialize`, as for `serialize`. -/
def serializeM (baseSerialize : Base → OsbuildPipeline) :
    Method BuildrootFromPackages OsbuildPipeline := do
  if (← get).packageSpecs.length = 0 then
    throw "serialization not started"
  let mut pipeline := baseSerialize (← get).toBase
  pipeline := { pipeline with Runner := (← get).runner.runnerString }
  pipeline := pipeline.AddStage (Stage.rpm (← get).repos (← get).packageSpecs)
  if ¬ (← get).disableSelinux then
    pipeline := pipeline.AddStage (Stage.selinux
      { FileContexts :=
          "etc/selinux/" ++ (← get).selinuxPolicy ++ "/contexts/files/file_contexts"
        ExcludePaths := []
        Labels := (← get).getSELinuxLabels })
  return pipeline

end BuildrootFromPackages

/-! ## `BuildrootFromContainer` -/

/-- Go `BuildrootFromContainer`. The Go map `copyFilesFrom` is the list of its
entries in the order in which `range` visits them; the Go runtime is free to
visit the entries of one map in any order. -/
structure BuildrootFromContainer extends Base where
  runner : Runner
  dependents : List Pipeline
  containers : List ContainerSourceSpec
  containerSpecs : List ContainerSpec
  containerBuildable : Bool
  disableSelinux : Bool
  selinuxPolicy : String
  copyFilesFrom : List (String × List String)
  ensureDirs : List Directory

namespace BuildrootFromContainer

/-- Go `(*BuildrootFromContainer).getContainerSources`. -/
def getContainerSources (p : BuildrootFromContainer) : List ContainerSourceSpec :=
  p.containers

/-- Go `(*BuildrootFromContainer).getContainerSpecs`. -/
def getContainerSpecs (p : BuildrootFromContainer) : List ContainerSpec :=
  p.containerSpecs

/-- Go `(*BuildrootFromContainer).serializeStart`. -/
def serializeStart (p : BuildrootFromContainer) (inputs : Inputs) :
    Except String BuildrootFromContainer :=
  if p.containerSpecs.length > 0 then
    .error "double call to serializeStart()"
  else
    .ok { p with containerSpecs := inputs.Containers }

/-- Go `(*BuildrootFromContainer).serializeEnd`. -/
def serializeEnd (p : BuildrootFromContainer) : Except String BuildrootFromContainer :=
  if p.containerSpecs.length = 0 then
    .error "serializeEnd() call when serialization not in progress"
  else
    .ok { p with containerSpecs := [] }

/-- Go `(*BuildrootFromContainer).getSELinuxLabels`; the nil map is the empty
table. -/
def getSELinuxLabels (p : BuildrootFromContainer) : Labels :=
  if p.disableSelinux then
    Labels.empty
  else
    let labels := Labels.empty.set "/usr/bin/ostree" "system_u:object_r:install_exec_t:s0"
    if p.containerBuildable then
      (labels.set "/usr/bin/mount" "system_u:object_r:install_exec_t:s0").set
        "/usr/bin/umount" "system_u:object_r:install_exec_t:s0"
    else labels

/-- The rendering of the spec list by the verb `%v`, over the fields of
`ContainerSpec`: structs in braces, elements separated by blanks. -/
def formatSpecs (specs : List ContainerSpec) : String :=
  "[" ++ " ".intercalate (specs.map fun c =>
    "\x7b" ++ c.Source ++ " " ++ c.Digest ++ " " ++ c.ImageID ++ " " ++ c.LocalName ++ "\x7d") ++ "]"

/-- The copy stage that the body of the loop over `copyFilesFrom` builds for
one entry of the map: one path pair per path of the entry. -/
def copyStage (copyFilesFrom : String) (copyFiles : List String) : Stage :=
  let inputName := "copy-tree"
  let paths := copyFiles.foldl
    (fun paths copyPath => paths ++
      [{ From := "input://" ++ inputName ++ copyPath, To := "tree://" ++ copyPath }])
    []
  Stage.copy paths inputName copyFilesFrom

/-- Go `(*BuildrootFromContainer).serialize`. `baseSerialize` is the method
`Base.serialize`, `deployError` the decision of `NewContainerDeployStage`, and
`genDirectoryNodesStages` the function `osbuild.GenDirectoryNodesStages`; all
three are declared outside `build.go` and taken as parameters. The receiver is
not modified, so only the pipeline is returned. -/
def serialize (baseSerialize : Base → OsbuildPipeline)
    (deployError : ContainerSpec → ContainerDeployOptions → Option String)
    (genDirectoryNodesStages : List Directory → List DirectoryNodesStage)
    (p : BuildrootFromContainer) : Except String OsbuildPipeline :=
  if p.containerSpecs.length = 0 then
    .error "serialization not started"
  else
    match p.containerSpecs with
    | [spec] =>
      let pipeline := baseSerialize p.toBase
      let pipeline := { pipeline with Runner := p.runner.runnerString }
      match NewContainerDeployStage deployError spec { Exclude := [], RemoveSignatures := true } with
      | .error err => .error err
      | .ok stage =>
        let pipeline := pipeline.AddStage stage
        let pipeline := (genDirectoryNodesStages p.ensureDirs).foldl
          (fun pipeline stage => pipeline.AddStage (Stage.directory stage)) pipeline
        let pipeline := p.copyFilesFrom.foldl
          (fun pipeline entry => pipeline.AddStage (copyStage entry.1 entry.2)) pipeline
        let pipeline :=
          if ¬ p.disableSelinux then
            pipeline.AddStage (Stage.selinux
              { FileContexts :=
                  "etc/selinux/" ++ p.selinuxPolicy ++ "/contexts/files/file_contexts"
                ExcludePaths := ["/sysroot"]
                Labels := p.getSELinuxLabels })
          else pipeline
        .ok pipeline
    | specs =>
      .error ("BuildrootFromContainer expectes exactly one container input, got: " ++
        formatSpecs specs)

/-- Go `(*BuildrootFromContainer).serialize` as a program over its pointer
receiver, one statement of the body after the other, with the parameters of
`serialize`. The two loops that add stages are left folds. -/
def serializeM (baseSerialize : Base → OsbuildPipeline)
    (deployError : ContainerSpec → ContainerDeployOptions → Option String)
    (genDirectoryNodesStages : List Directory → List DirectoryNodesStage) :
    Method BuildrootFromContainer OsbuildPipeline := do
  if (← get).containerSpecs.length = 0 then
    throw "serialization not started"
  if (← get).containerSpecs.length ≠ 1 then
    throw ("BuildrootFromContainer expectes exactly one container input, got: " ++
      formatSpecs (← get).containerSpecs)
  let mut pipeline := baseSerialize (← get).toBase
  pipeline := { pipeline with Runner := (← get).runner.runnerString }
  match (← get).containerSpecs[0]? with
  | none => throw "index out of range [0] with length 0"
  | some image =>
    match NewContainerDeployStage deployError image
      { Exclude := [], RemoveSignatures := true } with
    | .error err => throw err
    | .ok stage =>
      pipeline := pipeline.AddStage stage
      pipeline := (genDirectoryNodesStages (← get).ensureDirs).foldl
        (fun pipeline stage => pipeline.AddStage (Stage.directory stage)) pipeline
      pipeline := (← get).copyFilesFrom.foldl
        (fun pipeline entry => pipeline.AddStage (copyStage entry.1 entry.2)) pipeline
      if ¬ (← get).disableSelinux then
        pipeline := pipeline.AddStage (Stage.selinux
          { FileContexts :=
              "etc/selinux/" ++ (← get).selinuxPolicy ++ "/contexts/files/file_contexts"
            ExcludePaths := ["/sysroot"]
            Labels := (← get).getSELinuxLabels })
      return pipeline

end BuildrootFromContainer

/-- Go `NewBuildFromContainer`. `opts = none` is the nil pointer. The result is
the new pipeline next to the outcome of its registration, as for `NewBuild`. -/
def NewBuildFromContainer (m : Manifest) (runner : Runner)
    (containerSources : List ContainerSourceSpec) (opts : Option BuildOptions) :
    BuildrootFromContainer × Except String Manifest :=
  let opts : BuildOptions := match opts with
    | none => {}
    | some o => o
  let name := if opts.PipelineName ≠ "" then opts.PipelineName else "build"
  let pipeline : BuildrootFromContainer :=
    { toBase := NewBase name opts.BootstrapPipeline
      runner := runner
      dependents := []
      containers := containerSources
      containerSpecs := []
      containerBuildable := opts.ContainerBuildable
      disableSelinux := opts.DisableSELinux
      selinuxPolicy := policyOrDefault opts.SELinuxPolicy
      copyFilesFrom := opts.CopyFilesFrom
      ensureDirs := opts.EnsureDirs }
  let r := m.addPipeline pipeline.toBase
  ({ pipeline with toBase := r.1 }, r.2)

/-- Go `NewBootstrap`. The runner `&runner.Linux{}` is a value of package
`runner` and is taken as the parameter `linux`. The fields the struct literal
leaves out have their zero values. The result is the new pipeline next to the
outcome of its registration, as for `NewBuild`. -/
def NewBootstrap (linux : Runner) (m : Manifest)
    (containerSources : List ContainerSourceSpec) :
    BuildrootFromContainer × Except String Manifest :=
  let name := "bootstrap-buildroot"
  let pipeline : BuildrootFromContainer :=
    { toBase := NewBase name none
      runner := linux
      dependents := []
      containers := containerSources
      containerSpecs := []
      containerBuildable := true
      disableSelinux := true
      selinuxPolicy := ""
      copyFilesFrom := []
      ensureDirs := [] }
  let r := m.addPipeline pipeline.toBase
  ({ pipeline with toBase := r.1 }, r.2)

/-- Go `(*BuildrootFromPackages).addDependent`. The first statement changes the
receiver in place, before the Manifest is looked at, so the receiver after the
call is returned in every case, next to the outcome: the panic of the nil
check, or the outcome of `man.addPipeline(dep)`, which is a panic as well when
the Manifest already has the name of `dep`. `man` is the Manifest object that
`p.Manifest()` points to when it is not nil. The dependent is registered under
its name, with this root as its build. -/
def BuildrootFromPackages.addDependent (p : BuildrootFromPackages) (man : Manifest)
    (dep : Pipeline) : BuildrootFromPackages × Except String Manifest :=
  let p := { p with dependents := p.dependents ++ [dep] }
  match p.manifest with
  | none => (p, .error "cannot add build dependent without a manifest")
  | some _ => (p, (man.addPipeline (NewBase dep.Name (some p.name))).2)

/-- Go `(*BuildrootFromContainer).addDependent`, with the same conventions as
for the package-based root. -/
def BuildrootFromContainer.addDependent (p : BuildrootFromContainer) (man : Manifest)
    (dep : Pipeline) : BuildrootFromContainer × Except String Manifest :=
  let p := { p with dependents := p.dependents ++ [dep] }
  match p.manifest with
  | none => (p, .error "cannot add build dependent without a manifest")
  | some _ => (p, (man.addPipeline (NewBase dep.Name (some p.name))).2)

/-- Go interface `Build`, with its two implementations in `build.go`. -/
inductive Build where
  | packages (p : BuildrootFromPackages)
  | container (p : BuildrootFromContainer)

/-- The dependents list of a build root of either variant. -/
def Build.dependents : Build → List Pipeline
  | .packages p => p.dependents
  | .container p => p.dependents

/-- Go `Build.addDependent`: the call goes to the method of the variant. -/
def Build.addDependent (b : Build) (man : Manifest) (dep : Pipeline) :
    Build × Except String Manifest :=
  match b with
  | .packages p => (Build.packages (p.addDependent man dep).1, (p.addDependent man dep).2)
  | .container p => (Build.container (p.addDependent man dep).1, (p.addDependent man dep).2)

/-- The names of all pipelines recorded as dependents by the build roots of a
list, root after root, each list in its order. -/
def dependentNames : List Build → List String
  | [] => []
  | b :: rest => b.dependents.map Pipeline.Name ++ dependentNames rest

/-- One call `addDependent(dep)` on the build root at position `i` of the build
roots of one Manifest `man`. The result is the build roots after the call, next
to the outcome of the call. A position past the end of the list names no build
root: no method is called, and the outcome is an error. -/
def addDependentAt : List Build → Nat → Manifest → Pipeline →
    List Build × Except String Manifest
  | [], _, _, _ => ([], .error "no build root at this position")
  | b :: rest, 0, man, dep => ((b.addDependent man dep).1 :: rest, (b.addDependent man dep).2)
  | b :: rest, i + 1, man, dep =>
    (b :: (addDependentAt rest i man dep).1, (addDependentAt rest i man dep).2)

/-- A sequence of `addDependent` calls on the build roots of one Manifest, each
call given by the position of the root and the pipeline passed; the sequence
stops at the first fatal failure, with the build roots as that call left them. -/
def addDependentCalls (roots : List Build) (man : Manifest) :
    List (Nat × Pipeline) → List Build × Except String Manifest
  | [] => (roots, .ok man)
  | c :: cs =>
    match addDependentAt roots c.1 man c.2 with
    | (roots1, .error e) => (roots1, .error e)
    | (roots1, .ok man1) => addDependentCalls roots1 man1 cs

/-- Go `(*BuildrootFromPackages).serializeStart` as a step that also shows the
receiver at a panic. The guard is the first statement of the body, so at the
panic no field has been assigned. -/
def BuildrootFromPackages.serializeStartStep (p : BuildrootFromPackages) (inputs : Inputs) :
    BuildrootFromPackages × Except String Unit :=
  if p.packageSpecs.length > 0 then
    (p, .error "double call to serializeStart()")
  else
    ({ p with
        packageSpecs := inputs.Depsolved.Packages
        repos := p.repos ++ inputs.Depsolved.Repos }, .ok ())

/-- Go `(*BuildrootFromPackages).serializeEnd` as a step that also shows the
receiver at a panic. -/
def BuildrootFromPackages.serializeEndStep (p : BuildrootFromPackages) :
    BuildrootFromPackages × Except String Unit :=
  if p.packageSpecs.length = 0 then
    (p, .error "serializeEnd() call when serialization not in progress")
  else
    ({ p with packageSpecs := [] }, .ok ())

/-- Go `(*BuildrootFromContainer).serializeStart` as a step that also shows the
receiver at a panic. -/
def BuildrootFromContainer.serializeStartStep (p : BuildrootFromContainer) (inputs : Inputs) :
    BuildrootFromContainer × Except String Unit :=
  if p.containerSpecs.length > 0 then
    (p, .error "double call to serializeStart()")
  else
    ({ p with containerSpecs := inputs.Containers }, .ok ())

/-- Go `(*BuildrootFromContainer).serializeEnd` as a step that also shows the
receiver at a panic. -/
def BuildrootFromContainer.serializeEndStep (p : BuildrootFromContainer) :
    BuildrootFromContainer × Except String Unit :=
  if p.containerSpecs.length = 0 then
    (p, .error "serializeEnd() call when serialization not in progress")
  else
    ({ p with containerSpecs := [] }, .ok ())

/-! ## Sequences of lifecycle calls -/

/-- One call of the two-phase protocol. -/
inductive LifecycleCall where
  | serializeStart (inputs : Inputs)
  | serialize
  | serializeEnd

/-- Perform one lifecycle call on a package-based build root; the result is
the root after the call. For `serialize` that is the receiver as the body of
the method leaves it; the returned pipeline is dropped. -/
def BuildrootFromPackages.call (baseSerialize : Base → OsbuildPipeline)
    (p : BuildrootFromPackages) : LifecycleCall → Except String BuildrootFromPackages
  | .serializeStart inputs => p.serializeStart inputs
  | .serialize =>
    match (BuildrootFromPackages.serializeM baseSerialize).run p with
    | .error e => .error e
    | .ok (_, q) => .ok q
  | .serializeEnd => p.serializeEnd

/-- Perform a sequence of lifecycle calls, stopping at the first fatal failure;
the result is `ok` exactly when every call of the sequence succeeded. -/
def BuildrootFromPackages.callAll (baseSerialize : Base → OsbuildPipeline)
    (p : BuildrootFromPackages) : List LifecycleCall → Except String BuildrootFromPackages
  | [] => .ok p
  | c :: cs =>
    match p.call baseSerialize c with
    | .error e => .error e
    | .ok q => BuildrootFromPackages.callAll baseSerialize q cs

/-- Whether a call sequence ends inside a start..end window, as the spec words
it: the last `serializeStart` has not been followed by a `serializeEnd`.
`w` is the answer before the first call. -/
def insideWindow (w : Bool) : List LifecycleCall → Bool
  | [] => w
  | .serializeStart _ :: cs => insideWindow true cs
  | .serialize :: cs => insideWindow w cs
  | .serializeEnd :: cs => insideWindow false cs

/-- Whether a call sequence ends inside a start..end window whose
`serializeStart` carried a non-empty resolved package list. -/
def insideCarryingWindow (w : Bool) : List LifecycleCall → Bool
  | [] => w
  | .serializeStart inputs :: cs =>
    insideCarryingWindow (decide (inputs.Depsolved.Packages.length > 0)) cs
  | .serialize :: cs => insideCarryingWindow w cs
  | .serializeEnd :: cs => insideCarryingWindow false cs

/-- The repositories that the `serializeStart` calls of a sequence carry, in
call order. -/
def discoveredRepos : List LifecycleCall → List RepoConfig
  | [] => []
  | .serializeStart inputs :: cs => inputs.Depsolved.Repos ++ discoveredRepos cs
  | .serialize :: cs => discoveredRepos cs
  | .serializeEnd :: cs => discoveredRepos cs

/-- The calls of `k` full resolution cycles, one per element of the list:
`serializeStart(inputs)` and then `serializeEnd()`. -/
def cycleCalls : List Inputs → List LifecycleCall
  | [] => []
  | inputs :: rest =>
    LifecycleCall.serializeStart inputs :: LifecycleCall.serializeEnd :: cycleCalls rest

/-- Perform one lifecycle call on a container-based build root; the result is
the root after the call. For `serialize` that is the receiver as the body of
the method leaves it; the returned pipeline is dropped. -/
def BuildrootFromContainer.call (baseSerialize : Base → OsbuildPipeline)
    (deployError : ContainerSpec → ContainerDeployOptions → Option String)
    (genDirectoryNodesStages : List Directory → List DirectoryNodesStage)
    (p : BuildrootFromContainer) : LifecycleCall → Except String BuildrootFromContainer
  | .serializeStart inputs => p.serializeStart inputs
  | .serialize =>
    match (BuildrootFromContainer.serializeM baseSerialize deployError
      genDirectoryNodesStages).run p with
    | .error e => .error e
    | .ok (_, q) => .ok q
  | .serializeEnd => p.serializeEnd

/-- Perform a sequence of lifecycle calls on a container-based build root,
stopping at the first fatal failure. -/
def BuildrootFromContainer.callAll (baseSerialize : Base → OsbuildPipeline)
    (deployError : ContainerSpec → ContainerDeployOptions → Option String)
    (genDirectoryNodesStages : List Directory → List DirectoryNodesStage)
    (p : BuildrootFromContainer) : List LifecycleCall → Except String BuildrootFromContainer
  | [] => .ok p
  | c :: cs =>
    match p.call baseSerialize deployError genDirectoryNodesStages c with
    | .error e => .error e
    | .ok q =>
      BuildrootFromContainer.callAll baseSerialize deployError genDirectoryNodesStages q cs

/-! ## Concrete values used to evaluate the definitions -/

/-- A `filterRepos` that keeps every repository. -/
def keepAllRepos : List RepoConfig → String → List RepoConfig :=
  fun repos _ => repos

/-- A `Base.serialize` that names the pipeline and its upstream build and
starts with no stage. -/
def sampleBaseSerialize : Base → OsbuildPipeline :=
  fun b =>
    { Name := b.name
      Build := match b.build with
        | none => ""
        | some n => "name:" ++ n
      Runner := ""
      Stages := [] }

/-- A runner without build packages of its own. -/
def sampleRunner : Runner :=
  { runnerString := "org.osbuild.linux", GetBuildPackages := [] }

/-- An empty Manifest. -/
def sampleManifest : Manifest :=
  { handle := 0, pipelines := [] }

/-- The build root `NewBuild(m, runner, nil, nil)`. -/
def sampleRoot : BuildrootFromPackages :=
  (NewBuild keepAllRepos sampleManifest sampleRunner [] none).1

/-- A package spec with the given name. -/
def samplePackage (name : String) : PackageSpec :=
  { Name := name, Epoch := 0, Version := "1", Release := "1", Arch := "x86_64",
    Checksum := "sha256:" ++ name, CheckGPG := false }

/-- Resolver inputs with no package, no repository and no container. -/
def emptyInputs : Inputs :=
  { Depsolved := { Packages := [], Repos := [] }, Containers := [] }

/-- Resolver inputs with the packages `coreutils`, `xz` and
`selinux-policy-targeted` and one repository. -/
def sampleInputs : Inputs :=
  { Depsolved :=
      { Packages := [samplePackage "coreutils", samplePackage "xz",
          samplePackage "selinux-policy-targeted"]
        Repos := [{ Id := "baseos", Name := "baseos", BaseURLs := [], PackageSets := [] }] }
    Containers := [] }

/-- The expected x86_64 list of `TestImageType_BuildPackages` /
`TestRhel9_ImageType_BuildPackages`. -/
def x8664BuildPackages : List String :=
  ["dnf", "dosfstools", "e2fsprogs", "grub2-efi-x64", "grub2-pc", "policycoreutils",
    "shim-x64", "systemd", "tar", "qemu-img", "xz"]

/-- The expected aarch64 list of the same two tests. -/
def aarch64BuildPackages : List String :=
  ["dnf", "dosfstools", "e2fsprogs", "policycoreutils", "qemu-img", "systemd", "tar", "xz"]

/-- A "build" root whose runner asks for nothing and whose single dependent
asks for the x86_64 list of the tests without its `xz`, so that together with
the `xz` of the build root itself every listed package is requested once. -/
def x8664Root : BuildrootFromPackages :=
  { sampleRoot with
    dependents := [{ Name := "os", getBuildPackages := fun _ => x8664BuildPackages.erase "xz" }] }

/-- A build root with policy `mls`, a runner asking for `glibc`, and two
dependents that both ask for `tar`. -/
def duplicatesRoot : BuildrootFromPackages :=
  { sampleRoot with
    selinuxPolicy := "mls"
    runner := { runnerString := "org.osbuild.rhel90", GetBuildPackages := ["glibc"] }
    dependents :=
      [{ Name := "os", getBuildPackages := fun _ => ["tar", "rpm"] },
       { Name := "archive", getBuildPackages := fun _ => ["tar"] }] }

/-- The fresh root after `serializeStart(sampleInputs)`. -/
def resolvedRoot : BuildrootFromPackages :=
  { sampleRoot with
    packageSpecs := sampleInputs.Depsolved.Packages
    repos := sampleRoot.repos ++ sampleInputs.Depsolved.Repos }

/-- A build root whose resolved packages are `coreutils` and `tar` and that is
container-buildable. -/
def coreutilsTarRoot : BuildrootFromPackages :=
  { sampleRoot with
    packageSpecs := [samplePackage "coreutils", samplePackage "tar"]
    containerBuildable := true }

/-- A resolved container image. -/
def sampleSpec : ContainerSpec :=
  { Source := "registry.example.org/buildroot", Digest := "sha256:aa", ImageID := "sha256:bb",
    LocalName := "buildroot" }

/-- A resolved container image whose digest is missing. -/
def undigestedSpec : ContainerSpec :=
  { Source := "registry.example.org/buildroot", Digest := "", ImageID := "sha256:bb",
    LocalName := "buildroot" }

/-- Resolver inputs with the single container `sampleSpec`. -/
def containerInputs : Inputs :=
  { Depsolved := { Packages := [], Repos := [] }, Containers := [sampleSpec] }

/-- A `NewContainerDeployStage` that accepts every argument. -/
def acceptDeploy : ContainerSpec → ContainerDeployOptions → Option String :=
  fun _ _ => none

/-- A `GenDirectoryNodesStages` that makes one `mkdir` stage for all the
directories, and no stage when there is none. -/
def sampleGenDirs : List Directory → List DirectoryNodesStage :=
  fun dirs =>
    if dirs.length = 0 then []
    else [{ stageType := "org.osbuild.mkdir", paths := dirs.map fun d => d.path }]

/-- A container-based build root named `build`, unresolved, with SELinux
enabled, one directory to ensure and files to copy from two pipelines. -/
def sampleContainerRoot : BuildrootFromContainer :=
  { name := "build"
    build := none
    manifest := some 0
    runner := sampleRunner
    dependents := []
    containers :=
      [{ Source := "registry.example.org/buildroot", Name := "buildroot", Local := false }]
    containerSpecs := []
    containerBuildable := true
    disableSelinux := false
    selinuxPolicy := "targeted"
    copyFilesFrom := [("os", ["/etc/a", "/etc/b"]), ("tools", ["/usr/bin/t"])]
    ensureDirs := [{ path := "/var/tmp" }] }

/-- The root `sampleContainerRoot` after `serializeStart(containerInputs)`. -/
def resolvedContainerRoot : BuildrootFromContainer :=
  { sampleContainerRoot with containerSpecs := [sampleSpec] }

/-- The root `sampleContainerRoot` holding the single resolved image
`undigestedSpec`. -/
def undigestedRoot : BuildrootFromContainer :=
  { sampleContainerRoot with containerSpecs := [undigestedSpec] }

/-- The Manifest after `NewBuild` has registered `sampleRoot` in it. -/
def registeredManifest : Manifest :=
  { handle := 0, pipelines := ["build"] }

/-- The root `sampleRoot` without an owning Manifest. -/
def detachedRoot : BuildrootFromPackages :=
  { sampleRoot with manifest := none }

/-- The root `sampleContainerRoot` without an owning Manifest. -/
def detachedContainerRoot : BuildrootFromContainer :=
  { sampleContainerRoot with manifest := none }

/-- A dependent pipeline named `os` that asks for `rpm`. -/
def osPipeline : Pipeline :=
  { Name := "os", getBuildPackages := fun _ => ["rpm"] }

/-- A dependent pipeline named `image` that asks for `qemu-img`. -/
def imagePipeline : Pipeline :=
  { Name := "image", getBuildPackages := fun _ => ["qemu-img"] }

/-- A second package-based root of the same Manifest, named `build2`. -/
def secondRoot : BuildrootFromPackages :=
  (NewBuild keepAllRepos registeredManifest sampleRunner []
    (some { PipelineName := "build2" })).1

/-- One container source. -/
def sampleSource : ContainerSourceSpec :=
  { Source := "registry.example.org/buildroot", Name := "buildroot", Local := false }

/-- Resolver inputs with a package and the repository `appstream`. -/
def secondInputs : Inputs :=
  { Depsolved :=
      { Packages := [samplePackage "tar"]
        Repos := [{ Id := "appstream", Name := "appstream", BaseURLs := [], PackageSets := [] }] }
    Containers := [] }

/-- Resolver inputs with a package and no repository. -/
def packagesOnlyInputs : Inputs :=
  { Depsolved := { Packages := [samplePackage "coreutils"], Repos := [] }, Containers := [] }

/-- The Manifest after `NewBuild` has registered `secondRoot` in it as well. -/
def twoRootsManifest : Manifest :=
  { handle := 0, pipelines := ["build", "build2"] }

/-- The bootstrap root `NewBootstrap(m, sources)` of the Manifest that already
has `sampleRoot`. -/
def sampleBootstrapRoot : BuildrootFromContainer :=
  (NewBootstrap sampleRunner registeredManifest [sampleSource]).1

/-- The Manifest after `NewBootstrap` has registered `sampleBootstrapRoot` in it
as well. -/
def bootstrapManifest : Manifest :=
  { handle := 0, pipelines := ["build", "bootstrap-buildroot"] }

/-- The Manifest `registeredManifest` after the pipeline `os` has been
registered in it. -/
def osManifest : Manifest :=
  { handle := 0, pipelines := ["build", "os"] }

/-- A second pipeline object named `os`, with other build packages than
`osPipeline`. -/
def otherOsPipeline : Pipeline :=
  { Name := "os", getBuildPackages := fun _ => ["tar"] }

/-- A root that is container-buildable like `coreutilsTarRoot`, but with
SELinux disabled and another policy, whose resolved list names `tar` and
`coreutils` in another order, with a repeat and with another version. -/
def shuffledRoot : BuildrootFromPackages :=
  { sampleRoot with
    packageSpecs :=
      [samplePackage "tar", { samplePackage "coreutils" with Version := "9.1", Epoch := 1 },
        samplePackage "tar"]
    containerBuildable := true
    disableSelinux := true
    selinuxPolicy := "mls" }

/-- The root `resolvedContainerRoot` with the two entries of its copy map
visited in the other order: the same Go map, another order of `range`. -/
def swappedContainerRoot : BuildrootFromContainer :=
  { resolvedContainerRoot with
    copyFilesFrom := [("tools", ["/usr/bin/t"]), ("os", ["/etc/a", "/etc/b"])] }

/-- The names of the source pipelines of the copy stages of a stage list, in
the order of the stages. -/
def copySources : List Stage → List String
  | [] => []
  | Stage.copy _ _ pipeline :: rest => pipeline :: copySources rest
  | _ :: rest => copySources rest

end manifest

/-! ## The distro ID parser (package `distroidparser`) -/

namespace distroidparser

/-- Go `distro.ID` with the fields the parser tests compare; a minor version of
`-1` stands for none. -/
structure ID where
  Name : String
  MajorVersion : Int
  MinorVersion : Int
  deriving DecidableEq, Repr

/-- Modelled from the spec: the parsing rules of package `distroidparser` are
declared outside its test file. Spec §1: the version-ID parsing resolves a
human string into a structured distro identity. A rule either matches a
string, giving an identity, or does not match it. -/
abbrev ParserFunc := String → Option ID

/-- Modelled from the spec: the type `Parser` is declared outside the test
file; the test builds one from a list of rules. -/
structure Parser where
  parsers : List ParserFunc

/-- Modelled from the spec: `New(rules...)` is declared outside the test file;
it builds the parser that holds the given rules. -/
def New (parsers : List ParserFunc) : Parser :=
  { parsers := parsers }

/-- Modelled from the spec: `(*Parser).Parse` is declared outside the test
file. Spec §1: the parsing "may report a conflict when two matching rules fire
for the same string", and `TestParserDoubleMatch` requires the conflict to be a
panic. The rules are tried in order; the result is the panic when a second
rule matches, and otherwise the identity of the only matching rule, if any. -/
def Parser.Parse (p : Parser) (idStr : String) : Except String (Option ID) :=
  p.parsers.foldl
    (fun acc rule =>
      match acc with
      | .error e => .error e
      | .ok found =>
        match rule idStr with
        | none => .ok found
        | some id =>
          match found with
          | none => .ok (some id)
          | some _ => .error "distro ID was matched by multiple parsers")
    (.ok none)

/-- A rule that matches `rhel-90` as RHEL 9.0, the identity the default parser
test expects for that string, and matches nothing else. -/
def rhel90Rule : ParserFunc :=
  fun idStr =>
    if idStr = "rhel-90" then some { Name := "rhel", MajorVersion := 9, MinorVersion := 0 }
    else none

end distroidparser

namespace manifest

/-! ## Facts about single lifecycle calls -/

theorem Manifest.addPipeline_of_new (m : Manifest) (b : Base) (h : b.name ∉ m.pipelines) :
    m.addPipeline b =
      ({ b with manifest := some m.handle },
        .ok { m with pipelines := m.pipelines ++ [b.name] }) := by
  simp [Manifest.addPipeline, h]

theorem Manifest.addPipeline_of_registered (m : Manifest) (b : Base)
    (h : b.name ∈ m.pipelines) :
    m.addPipeline b = (b, .error "duplicate pipeline name in manifest") := by
  simp [Manifest.addPipeline, h]

theorem Manifest.addPipeline_name (m : Manifest) (b : Base) :
    (m.addPipeline b).1.name = b.name := by
  by_cases h : b.name ∈ m.pipelines
  · rw [Manifest.addPipeline_of_registered m b h]
  · rw [Manifest.addPipeline_of_new m b h]

theorem Manifest.addPipeline_build (m : Manifest) (b : Base) :
    (m.addPipeline b).1.build = b.build := by
  by_cases h : b.name ∈ m.pipelines
  · rw [Manifest.addPipeline_of_registered m b h]
  · rw [Manifest.addPipeline_of_new m b h]

theorem NewBuild_name (fr : List RepoConfig → String → List RepoConfig) (m : Manifest)
    (runner : Runner) (repos : List RepoConfig) (opts : Option BuildOptions) :
    (NewBuild fr m runner repos opts).1.name =
      (match opts with
        | none => "build"
        | some o => if o.PipelineName = "" then "build" else o.PipelineName) := by
  show (m.addPipeline _).1.name = _
  rw [Manifest.addPipeline_name]
  cases opts with
  | none => rfl
  | some o => by_cases ho : o.PipelineName = "" <;> simp [NewBase, ho]

theorem NewBuildFromContainer_name (m : Manifest) (runner : Runner)
    (sources : List ContainerSourceSpec) (opts : Option BuildOptions) :
    (NewBuildFromContainer m runner sources opts).1.name =
      (match opts with
        | none => "build"
        | some o => if o.PipelineName = "" then "build" else o.PipelineName) := by
  show (m.addPipeline _).1.name = _
  rw [Manifest.addPipeline_name]
  cases opts with
  | none => rfl
  | some o => by_cases ho : o.PipelineName = "" <;> simp [NewBase, ho]

theorem NewBuild_repos (fr : List RepoConfig → String → List RepoConfig) (m : Manifest)
    (runner : Runner) (repos : List RepoConfig) (opts : Option BuildOptions) :
    (NewBuild fr m runner repos opts).1.repos =
      fr repos (NewBuild fr m runner repos opts).1.name := by
  rw [NewBuild_name]
  cases opts with
  | none => rfl
  | some o => by_cases ho : o.PipelineName = "" <;> simp [NewBuild, ho]

namespace BuildrootFromPackages

theorem serializeStart_of_empty (p : BuildrootFromPackages) (inputs : Inputs)
    (h : p.packageSpecs = []) :
    p.serializeStart inputs = .ok { p with
      packageSpecs := inputs.Depsolved.Packages
      repos := p.repos ++ inputs.Depsolved.Repos } := by
  simp [serializeStart, h]

theorem serializeStart_of_nonempty (p : BuildrootFromPackages) (inputs : Inputs)
    (h : p.packageSpecs ≠ []) :
    p.serializeStart inputs = .error "double call to serializeStart()" := by
  have hpos : p.packageSpecs.length > 0 := List.length_pos.mpr h
  simp [serializeStart, hpos]

theorem serializeStart_ok_inv {p q : BuildrootFromPackages} {inputs : Inputs}
    (h : p.serializeStart inputs = .ok q) :
    p.packageSpecs = [] ∧ q = { p with
      packageSpecs := inputs.Depsolved.Packages
      repos := p.repos ++ inputs.Depsolved.Repos } := by
  by_cases he : p.packageSpecs = []
  · rw [serializeStart_of_empty p inputs he] at h
    exact ⟨he, (Except.ok.inj h).symm⟩
  · rw [serializeStart_of_nonempty p inputs he] at h
    cases h

theorem serializeEnd_of_empty (p : BuildrootFromPackages) (h : p.packageSpecs = []) :
    p.serializeEnd = .error "serializeEnd() call when serialization not in progress" := by
  simp [serializeEnd, h]

theorem serializeEnd_of_nonempty (p : BuildrootFromPackages) (h : p.packageSpecs ≠ []) :
    p.serializeEnd = .ok { p with packageSpecs := [] } := by
  simp [serializeEnd, h]

theorem serialize_of_empty (bs : Base → OsbuildPipeline) (p : BuildrootFromPackages)
    (h : p.packageSpecs = []) :
    p.serialize bs = .error "serialization not started" := by
  simp [serialize, h]

theorem serialize_of_nonempty (bs : Base → OsbuildPipeline) (p : BuildrootFromPackages)
    (h : p.packageSpecs ≠ []) :
    ∃ pl, p.serialize bs = .ok pl := by
  simp [serialize, h]

theorem NewBuild_packageSpecs (fr : List RepoConfig → String → List RepoConfig)
    (m : Manifest) (r : Runner) (repos : List RepoConfig) (opts : Option BuildOptions) :
    (NewBuild fr m r repos opts).1.packageSpecs = [] := by
  simp [NewBuild]

end BuildrootFromPackages

/-! ## Sequences of calls -/

namespace BuildrootFromPackages

/-- Running the body of `serialize()` on a receiver: the outcome is that of
`serialize`, and at a return the receiver is as it was before the call. -/
theorem serializeM_run (bs : Base → OsbuildPipeline) (p : BuildrootFromPackages) :
    (serializeM bs).run p =
      match p.serialize bs with
      | .ok pl => .ok (pl, p)
      | .error e => .error e := by
  by_cases h : p.packageSpecs.length = 0
  · simp [serializeM, serialize, h, StateT.run, bind, StateT.bind, get, getThe,
      MonadStateOf.get, StateT.get, pure, StateT.pure, Except.pure, Except.bind, throw,
      throwThe, MonadExceptOf.throw, liftM, monadLift, MonadLift.monadLift, StateT.lift]
  · cases hd : p.disableSelinux <;>
    simp [serializeM, serialize, h, hd, StateT.run, bind, StateT.bind, get, getThe,
      MonadStateOf.get, StateT.get, pure, StateT.pure, Except.pure, Except.bind, throw,
      throwThe, MonadExceptOf.throw]

/-- Running the body of `getPackageSetChain` on a receiver: it returns the
chain of `getPackageSetChain`, and the receiver is as it was before the call. -/
theorem getPackageSetChainM_run (p : BuildrootFromPackages) (distro : Distro) :
    (getPackageSetChainM distro).run p = .ok (p.getPackageSetChain distro, p) := by
  simp [getPackageSetChainM, getPackageSetChain, StateT.run, bind, StateT.bind, get, getThe,
    MonadStateOf.get, StateT.get, pure, StateT.pure, Except.pure, Except.bind]

theorem call_serialize_eq (bs : Base → OsbuildPipeline) (p : BuildrootFromPackages) :
    p.call bs .serialize =
      match p.serialize bs with
      | .error e => .error e
      | .ok _ => .ok p := by
  rw [call, serializeM_run]
  cases p.serialize bs <;> rfl

theorem call_serialize_inv {bs : Base → OsbuildPipeline} {p q : BuildrootFromPackages}
    (h : p.call bs .serialize = .ok q) : p.packageSpecs ≠ [] ∧ q = p := by
  rw [call_serialize_eq] at h
  by_cases he : p.packageSpecs = []
  · simp [serialize_of_empty bs p he] at h
  · obtain ⟨pl, hpl⟩ := serialize_of_nonempty bs p he
    simp [hpl] at h
    exact ⟨he, h.symm⟩

theorem serializeEnd_ok_inv {p q : BuildrootFromPackages} (h : p.serializeEnd = .ok q) :
    p.packageSpecs ≠ [] ∧ q = { p with packageSpecs := [] } := by
  by_cases he : p.packageSpecs = []
  · rw [serializeEnd_of_empty p he] at h
    cases h
  · rw [serializeEnd_of_nonempty p he] at h
    exact ⟨he, (Except.ok.inj h).symm⟩

theorem callAll_cons_inv {bs : Base → OsbuildPipeline} {p r : BuildrootFromPackages}
    {c : LifecycleCall} {cs : List LifecycleCall}
    (h : p.callAll bs (c :: cs) = .ok r) :
    ∃ q, p.call bs c = .ok q ∧ q.callAll bs cs = .ok r := by
  unfold callAll at h
  cases hc : p.call bs c with
  | error e => simp [hc] at h
  | ok q => exact ⟨q, rfl, by simpa [hc] using h⟩

/-- While no `serializeEnd` is called, a root holding resolved packages keeps
holding them through every successful call. -/
theorem callAll_keeps_specs (bs : Base → OsbuildPipeline) (cs : List LifecycleCall) :
    ∀ (p r : BuildrootFromPackages), p.packageSpecs ≠ [] →
      LifecycleCall.serializeEnd ∉ cs → p.callAll bs cs = .ok r → r.packageSpecs ≠ [] := by
  induction cs with
  | nil =>
    intro p r hp _ h
    have : p = r := by simpa [callAll] using h
    exact this ▸ hp
  | cons c cs ih =>
    intro p r hp hno h
    obtain ⟨q, hq, hr⟩ := callAll_cons_inv h
    have hno2 : LifecycleCall.serializeEnd ∉ cs := fun hm => hno (List.mem_cons_of_mem _ hm)
    cases c with
    | serializeStart inputs =>
      rw [call, serializeStart_of_nonempty p inputs hp] at hq
      cases hq
    | serialize =>
      obtain ⟨_, rfl⟩ := call_serialize_inv hq
      exact ih q r hp hno2 hr
    | serializeEnd =>
      exact absurd (List.mem_cons_self _ _) hno

/-- The resolved list is non-empty exactly inside a window whose start carried
packages; stated for any starting root and the matching starting answer. -/
theorem callAll_window (bs : Base → OsbuildPipeline) (cs : List LifecycleCall) :
    ∀ (p r : BuildrootFromPackages) (w : Bool), (p.packageSpecs ≠ [] ↔ w = true) →
      p.callAll bs cs = .ok r →
      (r.packageSpecs ≠ [] ↔ insideCarryingWindow w cs = true) := by
  induction cs with
  | nil =>
    intro p r w hw h
    have : p = r := by simpa [callAll] using h
    subst this
    simpa [insideCarryingWindow] using hw
  | cons c cs ih =>
    intro p r w hw h
    obtain ⟨q, hq, hr⟩ := callAll_cons_inv h
    cases c with
    | serializeStart inputs =>
      obtain ⟨_, rfl⟩ := serializeStart_ok_inv hq
      simp only [insideCarryingWindow]
      refine ih _ r _ ?_ hr
      simp [List.length_pos]
    | serialize =>
      obtain ⟨_, rfl⟩ := call_serialize_inv hq
      simp only [insideCarryingWindow]
      exact ih q r w hw hr
    | serializeEnd =>
      obtain ⟨_, rfl⟩ := serializeEnd_ok_inv hq
      simp only [insideCarryingWindow]
      refine ih _ r false ?_ hr
      simp

end BuildrootFromPackages

/-- The two readings of "inside a window" agree on every call sequence in which
each `serializeStart` carries at least one resolved package. -/
theorem insideCarryingWindow_eq_insideWindow (cs : List LifecycleCall) :
    ∀ w : Bool,
      (∀ inputs, LifecycleCall.serializeStart inputs ∈ cs → inputs.Depsolved.Packages ≠ []) →
      insideCarryingWindow w cs = insideWindow w cs := by
  induction cs with
  | nil => intro w _; rfl
  | cons c cs ih =>
    intro w hall
    have hrest : ∀ inputs, LifecycleCall.serializeStart inputs ∈ cs →
        inputs.Depsolved.Packages ≠ [] :=
      fun inputs hm => hall inputs (List.mem_cons_of_mem _ hm)
    cases c with
    | serializeStart inputs =>
      have hne : inputs.Depsolved.Packages ≠ [] := hall inputs (List.mem_cons_self _ _)
      have hpos : inputs.Depsolved.Packages.length > 0 := List.length_pos.mpr hne
      simp only [insideCarryingWindow, insideWindow, hpos, decide_True]
      exact ih true hrest
    | serialize =>
      simp only [insideCarryingWindow, insideWindow]
      exact ih w hrest
    | serializeEnd =>
      simp only [insideCarryingWindow, insideWindow]
      exact ih false hrest

/-! ## The two-phase protocol -/

/-- C1 (as stated, refuted): on the fresh root `sampleRoot`, `serializeStart`
with inputs that carry no package succeeds, and a second `serializeStart` with
no `serializeEnd` in between succeeds as well. -/
theorem serializeStart_twice_after_empty_inputs :
    ∃ p1 p2 : BuildrootFromPackages,
      sampleRoot.serializeStart emptyInputs = .ok p1 ∧
      p1.serializeStart sampleInputs = .ok p2 :=
  ⟨_, _, rfl, rfl⟩

/-- C1 (amended): if `serializeStart(i1)` succeeds with a non-empty resolved
package list in `i1` and the calls made afterwards contain no `serializeEnd`
and all succeed, then `serializeStart(i2)` fails fatally with the message
"double call to serializeStart()". -/
theorem serializeStart_double_call (bs : Base → OsbuildPipeline)
    (p p1 q : BuildrootFromPackages) (i1 i2 : Inputs) (cs : List LifecycleCall)
    (hstart : p.serializeStart i1 = .ok p1)
    (hcarry : i1.Depsolved.Packages ≠ [])
    (hnoEnd : LifecycleCall.serializeEnd ∉ cs)
    (hcalls : p1.callAll bs cs = .ok q) :
    q.serializeStart i2 = .error "double call to serializeStart()" := by
  obtain ⟨_, rfl⟩ := BuildrootFromPackages.serializeStart_ok_inv hstart
  exact BuildrootFromPackages.serializeStart_of_nonempty q i2
    (BuildrootFromPackages.callAll_keeps_specs bs cs _ q hcarry hnoEnd hcalls)

/-- C1 (amended), evaluated: after `serializeStart(sampleInputs)` on the fresh
root and one `serialize`, a second `serializeStart` fails with "double call". -/
theorem serializeStart_double_call_witness :
    ∃ p1 : BuildrootFromPackages,
      sampleRoot.serializeStart sampleInputs = .ok p1 ∧
      sampleInputs.Depsolved.Packages ≠ [] ∧
      LifecycleCall.serializeEnd ∉ [LifecycleCall.serialize] ∧
      p1.callAll sampleBaseSerialize [LifecycleCall.serialize] = .ok p1 ∧
      p1.serializeStart emptyInputs = .error "double call to serializeStart()" :=
  ⟨_, rfl, by simp [sampleInputs], by simp, rfl,
    serializeStart_double_call sampleBaseSerialize sampleRoot _ _ sampleInputs emptyInputs
      [LifecycleCall.serialize] rfl (by simp [sampleInputs]) (by simp) rfl⟩

/-- C2 (as stated, refuted): after the single successful call
`serializeStart(emptyInputs)` on the fresh root, the sequence is inside a
start..end window, yet the resolved package list is empty. -/
theorem inside_window_with_empty_resolved_list :
    ∃ r : BuildrootFromPackages,
      sampleRoot.callAll sampleBaseSerialize [LifecycleCall.serializeStart emptyInputs] = .ok r ∧
      insideWindow false [LifecycleCall.serializeStart emptyInputs] = true ∧
      r.packageSpecs = [] :=
  ⟨_, rfl, rfl, rfl⟩

/-- C2 (amended): for every sequence of successful serializeStart / serialize /
serializeEnd calls applied to a root freshly built by `NewBuild`, the resolved
package list is non-empty if and only if the last `serializeStart` carried a
non-empty resolved package list and has not yet been followed by a
`serializeEnd`. -/
theorem resolved_nonempty_iff_inside_carrying_window
    (fr : List RepoConfig → String → List RepoConfig) (bs : Base → OsbuildPipeline)
    (m : Manifest) (runner : Runner) (repos : List RepoConfig) (opts : Option BuildOptions)
    (cs : List LifecycleCall) (r : BuildrootFromPackages)
    (h : (NewBuild fr m runner repos opts).1.callAll bs cs = .ok r) :
    r.packageSpecs ≠ [] ↔ insideCarryingWindow false cs = true :=
  BuildrootFromPackages.callAll_window bs cs _ r false
    (by simp [BuildrootFromPackages.NewBuild_packageSpecs]) h

/-- C2 (amended), evaluated on the fresh root with the calls
`serializeStart(sampleInputs)`, `serialize`. -/
theorem resolved_nonempty_iff_inside_carrying_window_witness :
    ∃ r : BuildrootFromPackages,
      (NewBuild keepAllRepos sampleManifest sampleRunner [] none).1.callAll sampleBaseSerialize
        [LifecycleCall.serializeStart sampleInputs, LifecycleCall.serialize] = .ok r ∧
      (r.packageSpecs ≠ [] ↔
        insideCarryingWindow false
          [LifecycleCall.serializeStart sampleInputs, LifecycleCall.serialize] = true) :=
  ⟨_, rfl, resolved_nonempty_iff_inside_carrying_window keepAllRepos sampleBaseSerialize
    sampleManifest sampleRunner [] none
    [LifecycleCall.serializeStart sampleInputs, LifecycleCall.serialize] _ rfl⟩

/-- C3: `serialize()` fails, with the message "serialization not started" and
no other, exactly when the resolved package list is empty; it returns a
pipeline exactly when the list is non-empty; and it fails on every root
freshly built by `NewBuild`. -/
theorem serialize_fails_iff_unresolved (bs : Base → OsbuildPipeline)
    (p : BuildrootFromPackages) :
    ((∃ e, p.serialize bs = .error e) ↔ p.packageSpecs = []) ∧
    (p.serialize bs = .error "serialization not started" ↔ p.packageSpecs = []) ∧
    ((∃ pl, p.serialize bs = .ok pl) ↔ p.packageSpecs ≠ []) ∧
    (∀ (fr : List RepoConfig → String → List RepoConfig) (m : Manifest) (runner : Runner)
        (repos : List RepoConfig) (opts : Option BuildOptions),
      (NewBuild fr m runner repos opts).1.serialize bs = .error "serialization not started") := by
  refine ⟨?_, ?_, ?_, ?_⟩
  · constructor
    · rintro ⟨e, he⟩
      by_contra hne
      obtain ⟨pl, hpl⟩ := BuildrootFromPackages.serialize_of_nonempty bs p hne
      rw [hpl] at he
      cases he
    · intro h
      exact ⟨_, BuildrootFromPackages.serialize_of_empty bs p h⟩
  · constructor
    · intro he
      by_contra hne
      obtain ⟨pl, hpl⟩ := BuildrootFromPackages.serialize_of_nonempty bs p hne
      rw [hpl] at he
      cases he
    · exact BuildrootFromPackages.serialize_of_empty bs p
  · constructor
    · rintro ⟨pl, hpl⟩ hempty
      rw [BuildrootFromPackages.serialize_of_empty bs p hempty] at hpl
      cases hpl
    · exact BuildrootFromPackages.serialize_of_nonempty bs p
  · intro fr m runner repos opts
    exact BuildrootFromPackages.serialize_of_empty bs _
      (BuildrootFromPackages.NewBuild_packageSpecs fr m runner repos opts)

/-- C4: `serializeEnd()` fails, with the message "serializeEnd() call when
serialization not in progress" and no other, exactly when the resolved package
list is empty, so in particular on every root freshly built by `NewBuild`; when
it succeeds the resolved package list of the resulting root is empty. -/
theorem serializeEnd_fails_iff_unresolved (p : BuildrootFromPackages) :
    ((∃ e, p.serializeEnd = .error e) ↔ p.packageSpecs = []) ∧
    (p.serializeEnd = .error "serializeEnd() call when serialization not in progress" ↔
      p.packageSpecs = []) ∧
    (∀ q, p.serializeEnd = .ok q → q.packageSpecs = []) ∧
    (∀ (fr : List RepoConfig → String → List RepoConfig) (m : Manifest) (runner : Runner)
        (repos : List RepoConfig) (opts : Option BuildOptions),
      (NewBuild fr m runner repos opts).1.serializeEnd =
        .error "serializeEnd() call when serialization not in progress") := by
  refine ⟨?_, ?_, ?_, ?_⟩
  · constructor
    · rintro ⟨e, he⟩
      by_contra hne
      rw [BuildrootFromPackages.serializeEnd_of_nonempty p hne] at he
      cases he
    · intro h
      exact ⟨_, BuildrootFromPackages.serializeEnd_of_empty p h⟩
  · constructor
    · intro he
      by_contra hne
      rw [BuildrootFromPackages.serializeEnd_of_nonempty p hne] at he
      cases he
    · exact BuildrootFromPackages.serializeEnd_of_empty p
  · intro q hq
    obtain ⟨_, rfl⟩ := BuildrootFromPackages.serializeEnd_ok_inv hq
    rfl
  · intro fr m runner repos opts
    exact BuildrootFromPackages.serializeEnd_of_empty _
      (BuildrootFromPackages.NewBuild_packageSpecs fr m runner repos opts)

/-- C5: when `serializeStart(inputs)` succeeds, the resolved package list
afterwards is `inputs.Depsolved.Packages` and the repository list afterwards is
the previous repository list followed by `inputs.Depsolved.Repos`. -/
theorem serializeStart_stores_inputs (p q : BuildrootFromPackages) (inputs : Inputs)
    (h : p.serializeStart inputs = .ok q) :
    q.packageSpecs = inputs.Depsolved.Packages ∧
    q.repos = p.repos ++ inputs.Depsolved.Repos := by
  obtain ⟨_, rfl⟩ := BuildrootFromPackages.serializeStart_ok_inv h
  exact ⟨rfl, rfl⟩

/-- C5, evaluated on the fresh root with `sampleInputs`. -/
theorem serializeStart_stores_inputs_witness :
    ∃ q : BuildrootFromPackages,
      sampleRoot.serializeStart sampleInputs = .ok q ∧
      q.packageSpecs = sampleInputs.Depsolved.Packages ∧
      q.repos = sampleRoot.repos ++ sampleInputs.Depsolved.Repos :=
  ⟨_, rfl, serializeStart_stores_inputs sampleRoot _ sampleInputs rfl⟩

/-- C6: after a successful `serializeStart`, `serialize` and `serializeEnd` in
that order, a further `serialize()` fails fatally with "serialization not
started". -/
theorem serialize_after_cycle_fails (bs : Base → OsbuildPipeline)
    (p p1 p2 : BuildrootFromPackages) (inputs : Inputs) (pl : OsbuildPipeline)
    (hstart : p.serializeStart inputs = .ok p1)
    (hser : p1.serialize bs = .ok pl)
    (hend : p1.serializeEnd = .ok p2) :
    p2.serialize bs = .error "serialization not started" := by
  have _hcycle := And.intro hstart hser
  obtain ⟨_, rfl⟩ := BuildrootFromPackages.serializeEnd_ok_inv hend
  exact BuildrootFromPackages.serialize_of_empty bs _ rfl

/-- C6, evaluated on the fresh root with `sampleInputs`. -/
theorem serialize_after_cycle_fails_witness :
    ∃ (p1 p2 : BuildrootFromPackages) (pl : OsbuildPipeline),
      sampleRoot.serializeStart sampleInputs = .ok p1 ∧
      p1.serialize sampleBaseSerialize = .ok pl ∧
      p1.serializeEnd = .ok p2 ∧
      p2.serialize sampleBaseSerialize = .error "serialization not started" :=
  ⟨_, _, _, rfl, rfl, rfl,
    serialize_after_cycle_fails sampleBaseSerialize sampleRoot _ _ sampleInputs _ rfl rfl rfl⟩

/-! ## Requirement aggregation -/

theorem foldl_append_eq_flatten {α β : Type} (f : α → List β) (l : List α) :
    ∀ init : List β,
      l.foldl (fun acc x => acc ++ f x) init = init ++ (l.map f).flatten := by
  induction l with
  | nil => intro init; simp
  | cons x xs ih => intro init; simp [ih, List.append_assoc]

/-- The package set chain in closed form. -/
theorem BuildrootFromPackages.getPackageSetChain_eq (p : BuildrootFromPackages)
    (distro : Distro) :
    p.getPackageSetChain distro =
      [{ Include := ["selinux-policy-" ++ p.selinuxPolicy, "coreutils", "xz"] ++
            p.runner.GetBuildPackages ++
            (p.dependents.map (fun dep => dep.getBuildPackages distro)).flatten
         Exclude := []
         Repositories := p.repos
         InstallWeakDeps := true }] := by
  simp [BuildrootFromPackages.getPackageSetChain, foldl_append_eq_flatten]

/-- Duplicates are kept: both dependents of `duplicatesRoot` ask for `tar`, and
`tar` is in the Include list twice. -/
theorem duplicatesRoot_include :
    (duplicatesRoot.getPackageSetChain 0).map PackageSet.Include =
      [["selinux-policy-mls", "coreutils", "xz", "glibc", "tar", "rpm", "tar"]] := by
  decide

/-- C7: the package set chain is a single package set whose Include list is
`["selinux-policy-" ++ P, "coreutils", "xz"]`, then the runner packages, then
the build packages of every dependent in registration order, nothing removed;
its length is 3 + |R| + the sum of the lengths of the dependents' lists. -/
theorem getPackageSetChain_include (p : BuildrootFromPackages) (distro : Distro) :
    ∃ ps : PackageSet, p.getPackageSetChain distro = [ps] ∧
      ps.Include = ["selinux-policy-" ++ p.selinuxPolicy, "coreutils", "xz"] ++
        p.runner.GetBuildPackages ++
        (p.dependents.map (fun dep => dep.getBuildPackages distro)).flatten ∧
      ps.Include.length = 3 + p.runner.GetBuildPackages.length +
        (p.dependents.map (fun dep => (dep.getBuildPackages distro).length)).sum := by
  refine ⟨_, BuildrootFromPackages.getPackageSetChain_eq p distro, rfl, ?_⟩
  simp [List.length_flatten, Function.comp_def]
  omega

/-- C8: in every state and for every distro context the package set chain
has exactly one package set, and that package set has `InstallWeakDeps = true`. -/
theorem getPackageSetChain_single_weak_deps (p : BuildrootFromPackages) (distro : Distro) :
    (p.getPackageSetChain distro).length = 1 ∧
    ∃ ps : PackageSet, p.getPackageSetChain distro = [ps] ∧ ps.InstallWeakDeps = true := by
  rw [BuildrootFromPackages.getPackageSetChain_eq]
  exact ⟨rfl, _, rfl, rfl⟩

/-- C9: for a root built by `NewBuild` (which has no dependents) with a runner
that has no build packages, the Include list of the package set chain is exactly
`["selinux-policy-<policy>", "coreutils", "xz"]`, where `<policy>` is
`opts.SELinuxPolicy` when that is non-empty and `targeted` when it is empty or
`opts` is nil. -/
theorem NewBuild_baseline_include (fr : List RepoConfig → String → List RepoConfig)
    (m : Manifest) (runner : Runner) (repos : List RepoConfig) (opts : Option BuildOptions)
    (distro : Distro) (hrunner : runner.GetBuildPackages = []) :
    ∃ ps : PackageSet,
      (NewBuild fr m runner repos opts).1.getPackageSetChain distro = [ps] ∧
      ps.Include =
        ["selinux-policy-" ++
            (match opts with
              | none => "targeted"
              | some o => if o.SELinuxPolicy = "" then "targeted" else o.SELinuxPolicy),
          "coreutils", "xz"] := by
  refine ⟨_, BuildrootFromPackages.getPackageSetChain_eq _ distro, ?_⟩
  cases opts with
  | none => simp [NewBuild, hrunner, policyOrDefault]
  | some o =>
    by_cases ho : o.SELinuxPolicy = "" <;> simp [NewBuild, hrunner, policyOrDefault, ho]

/-- C9, evaluated for nil options and for the policy name `mls`. -/
theorem NewBuild_baseline_include_witness :
    sampleRunner.GetBuildPackages = [] ∧
    (∃ ps : PackageSet,
      (NewBuild keepAllRepos sampleManifest sampleRunner [] none).1.getPackageSetChain 0 = [ps] ∧
      ps.Include = ["selinux-policy-targeted", "coreutils", "xz"]) ∧
    (∃ ps : PackageSet,
      (NewBuild keepAllRepos sampleManifest sampleRunner []
        (some { SELinuxPolicy := "mls" })).1.getPackageSetChain 0 = [ps] ∧
      ps.Include = ["selinux-policy-mls", "coreutils", "xz"]) :=
  ⟨rfl,
    NewBuild_baseline_include keepAllRepos sampleManifest sampleRunner [] none 0 rfl,
    NewBuild_baseline_include keepAllRepos sampleManifest sampleRunner []
      (some { SELinuxPolicy := "mls" }) 0 rfl⟩

/-- C10 (the code against its tests): on a "build" root whose runner and
dependent together ask for exactly the remaining packages of the x86_64 list
that `TestImageType_BuildPackages` and `TestRhel9_ImageType_BuildPackages`
expect, the Include list of the single package set is the list below, which has
`selinux-policy-targeted` and `coreutils` on top of the eleven expected
packages and so is not the expected list as a multiset. -/
theorem x8664Root_include_not_expected :
    ∃ ps : PackageSet, x8664Root.getPackageSetChain 0 = [ps] ∧
      ps.Include = ["selinux-policy-targeted", "coreutils", "xz", "dnf", "dosfstools",
        "e2fsprogs", "grub2-efi-x64", "grub2-pc", "policycoreutils", "shim-x64", "systemd",
        "tar", "qemu-img"] ∧
      ¬ ps.Include.Perm x8664BuildPackages := by
  refine ⟨_, rfl, by decide, ?_⟩
  intro h
  have hmem : "coreutils" ∈ x8664BuildPackages := h.subset (by decide)
  revert hmem
  decide

/-- C10 (the code against its tests): for every package-based build root, the
Include list of the single package set is `selinux-policy-<policy>`,
`coreutils`, `xz`, followed by the build packages of the runner and then those
of the dependents in registration order. It therefore always contains
`coreutils` and a `selinux-policy-` package; neither expected list of the two
tests contains `coreutils`, so whatever the runner and the dependents ask for,
the Include list is never one of the expected lists as a multiset. -/
theorem include_never_test_list (p : BuildrootFromPackages) (distro : Distro) :
    ∃ ps : PackageSet, p.getPackageSetChain distro = [ps] ∧
      ps.Include = ("selinux-policy-" ++ p.selinuxPolicy) :: "coreutils" :: "xz" ::
        (p.runner.GetBuildPackages ++
          (p.dependents.map (fun dep => dep.getBuildPackages distro)).flatten) ∧
      "coreutils" ∈ ps.Include ∧
      "coreutils" ∉ x8664BuildPackages ∧
      "coreutils" ∉ aarch64BuildPackages ∧
      ¬ ps.Include.Perm x8664BuildPackages ∧
      ¬ ps.Include.Perm aarch64BuildPackages := by
  refine ⟨_, BuildrootFromPackages.getPackageSetChain_eq p distro, ?_, ?_, by decide,
    by decide, ?_, ?_⟩
  · simp
  · simp
  · intro h
    have hmem : "coreutils" ∈ x8664BuildPackages := h.subset (by simp)
    revert hmem
    decide
  · intro h
    have hmem : "coreutils" ∈ aarch64BuildPackages := h.subset (by simp)
    revert hmem
    decide

/-- C11: running the body of `getPackageSetChain` on any package-based build
root, for any distro context, returns the chain and leaves the receiver with
every field as it was; and two consecutive calls, nothing in between, return
the same chain twice (so the same Include list in the same order) and again
leave the receiver as it was. -/
theorem getPackageSetChain_repeatable (p : BuildrootFromPackages) (distro : Distro) :
    (BuildrootFromPackages.getPackageSetChainM distro).run p =
      .ok (p.getPackageSetChain distro, p) ∧
    (twice (BuildrootFromPackages.getPackageSetChainM distro)).run p =
      .ok ((p.getPackageSetChain distro, p.getPackageSetChain distro), p) ∧
    (∀ (first second : List PackageSet) (q : BuildrootFromPackages),
      (twice (BuildrootFromPackages.getPackageSetChainM distro)).run p =
        .ok ((first, second), q) →
      q = p ∧ second = first ∧
      second.map PackageSet.Include = first.map PackageSet.Include) := by
  have hrun := BuildrootFromPackages.getPackageSetChainM_run p distro
  have htwice : (twice (BuildrootFromPackages.getPackageSetChainM distro)).run p =
      .ok ((p.getPackageSetChain distro, p.getPackageSetChain distro), p) := by
    have hrun1 : BuildrootFromPackages.getPackageSetChainM distro p =
        .ok (p.getPackageSetChain distro, p) := hrun
    simp [twice, StateT.run, bind, StateT.bind, hrun1, Except.bind, pure, StateT.pure,
      Except.pure]
  refine ⟨hrun, htwice, ?_⟩
  intro first second q h
  rw [htwice] at h
  have h1 := Except.ok.inj h
  simp only [Prod.mk.injEq] at h1
  obtain ⟨⟨hf, hs⟩, hq⟩ := h1
  subst hf hs hq
  exact ⟨rfl, rfl, rfl⟩

/-! ## Repositories of the package set -/

/-- Successful lifecycle calls only ever add the repositories that the
`serializeStart` calls carry, at the end of the repository list. -/
theorem BuildrootFromPackages.callAll_repos (bs : Base → OsbuildPipeline)
    (cs : List LifecycleCall) :
    ∀ (p r : BuildrootFromPackages), p.callAll bs cs = .ok r →
      r.repos = p.repos ++ discoveredRepos cs := by
  induction cs with
  | nil =>
    intro p r h
    have : p = r := by simpa [BuildrootFromPackages.callAll] using h
    simp [this, discoveredRepos]
  | cons c cs ih =>
    intro p r h
    obtain ⟨q, hq, hr⟩ := BuildrootFromPackages.callAll_cons_inv h
    cases c with
    | serializeStart inputs =>
      obtain ⟨_, rfl⟩ := BuildrootFromPackages.serializeStart_ok_inv hq
      rw [ih _ r hr]
      simp [discoveredRepos]
    | serialize =>
      obtain ⟨_, rfl⟩ := BuildrootFromPackages.call_serialize_inv hq
      simpa [discoveredRepos] using ih q r hr
    | serializeEnd =>
      obtain ⟨_, rfl⟩ := BuildrootFromPackages.serializeEnd_ok_inv hq
      rw [ih _ r hr]
      simp [discoveredRepos]

/-- C12 (as stated, refuted): the root built by `NewBuild` with no repository
has, after a successful `serializeStart(sampleInputs)`, a package set whose
Repositories are not `filterRepos(repos, name)` (here the empty list): the
repository `baseos` of the inputs has joined them. -/
theorem repositories_grow_on_serializeStart :
    ∃ (r : BuildrootFromPackages) (ps : PackageSet),
      (NewBuild keepAllRepos sampleManifest sampleRunner [] none).1.callAll sampleBaseSerialize
        [LifecycleCall.serializeStart sampleInputs] = .ok r ∧
      r.getPackageSetChain 0 = [ps] ∧
      ps.Repositories =
        [{ Id := "baseos", Name := "baseos", BaseURLs := [], PackageSets := [] }] ∧
      ps.Repositories ≠ keepAllRepos [] "build" :=
  ⟨_, _, rfl, rfl, rfl, by decide⟩

/-- C12 (amended): in every state reached from a root built by
`NewBuild(m, runner, repos, opts)` through successful serializeStart /
serialize / serializeEnd calls, the Repositories of the package set are
`filterRepos(repos, name)` followed by the repositories carried by the
`serializeStart` calls made so far, in call order; they are exactly
`filterRepos(repos, name)` as long as those calls carried no repository. -/
theorem repositories_after_calls (fr : List RepoConfig → String → List RepoConfig)
    (bs : Base → OsbuildPipeline) (m : Manifest) (runner : Runner) (repos : List RepoConfig)
    (opts : Option BuildOptions) (cs : List LifecycleCall) (r : BuildrootFromPackages)
    (distro : Distro)
    (h : (NewBuild fr m runner repos opts).1.callAll bs cs = .ok r) :
    ∃ ps : PackageSet, r.getPackageSetChain distro = [ps] ∧
      ps.Repositories = fr repos (NewBuild fr m runner repos opts).1.name ++ discoveredRepos cs ∧
      (NewBuild fr m runner repos opts).1.name =
        (match opts with
          | none => "build"
          | some o => if o.PipelineName = "" then "build" else o.PipelineName) ∧
      (discoveredRepos cs = [] →
        ps.Repositories = fr repos (NewBuild fr m runner repos opts).1.name) := by
  have hrepos := BuildrootFromPackages.callAll_repos bs cs _ r h
  have hinit : (NewBuild fr m runner repos opts).1.repos =
      fr repos (NewBuild fr m runner repos opts).1.name :=
    NewBuild_repos fr m runner repos opts
  refine ⟨_, BuildrootFromPackages.getPackageSetChain_eq r distro, ?_, ?_, ?_⟩
  · rw [← hinit]
    exact hrepos
  · cases opts with
    | none => exact NewBuild_name fr m runner repos none
    | some o => exact NewBuild_name fr m runner repos (some o)
  · intro hnone
    show r.repos = _
    rw [hrepos, hnone, hinit]
    simp

/-- C12 (amended), evaluated on the fresh root with the calls
`serializeStart(sampleInputs)`, `serialize`, `serializeEnd`. -/
theorem repositories_after_calls_witness :
    ∃ (r : BuildrootFromPackages) (ps : PackageSet),
      (NewBuild keepAllRepos sampleManifest sampleRunner [] none).1.callAll sampleBaseSerialize
        [LifecycleCall.serializeStart sampleInputs, LifecycleCall.serialize,
          LifecycleCall.serializeEnd] = .ok r ∧
      r.getPackageSetChain 0 = [ps] ∧
      ps.Repositories = keepAllRepos [] "build" ++ sampleInputs.Depsolved.Repos := by
  obtain ⟨ps, hps, hrepos, _, _⟩ :=
    repositories_after_calls keepAllRepos sampleBaseSerialize sampleManifest sampleRunner []
      none [LifecycleCall.serializeStart sampleInputs, LifecycleCall.serialize,
        LifecycleCall.serializeEnd] _ 0 rfl
  exact ⟨_, ps, rfl, hps, hrepos⟩

/-! ## SELinux labels of the package-based build root -/

theorem Labels.set_apply (m : Labels) (k v q : String) :
    (m.set k v) q = if q = k then some v else m q := rfl

/-- The keys present after the loop of `getSELinuxLabels` has run over the
packages `specs`, starting from the table `acc`. -/
theorem BuildrootFromPackages.labels_fold_keys (c : Bool) (specs : List PackageSpec) :
    ∀ (acc : Labels) (k : String),
      ((specs.foldl
        (fun labels pkg =>
          if pkg.Name = "coreutils" then
            if c = true then
              ((Labels.set labels "/usr/bin/cp" BuildrootFromPackages.installExecLabel).set
                "/usr/bin/mount" BuildrootFromPackages.installExecLabel).set
                "/usr/bin/umount" BuildrootFromPackages.installExecLabel
            else Labels.set labels "/usr/bin/cp" BuildrootFromPackages.installExecLabel
          else if pkg.Name = "tar" then
            Labels.set labels "/usr/bin/tar" BuildrootFromPackages.installExecLabel
          else labels)
        acc) k).isSome = true ↔
      ((acc k).isSome = true ∨
        ((∃ pkg ∈ specs, pkg.Name = "coreutils") ∧
          (k = "/usr/bin/cp" ∨ (c = true ∧ (k = "/usr/bin/mount" ∨ k = "/usr/bin/umount")))) ∨
        ((∃ pkg ∈ specs, pkg.Name = "tar") ∧ k = "/usr/bin/tar")) := by
  induction specs with
  | nil => intro acc k; simp
  | cons pkg rest ih =>
    intro acc k
    rw [List.foldl_cons, ih]
    by_cases hc : pkg.Name = "coreutils"
    · have hnt : pkg.Name ≠ "tar" := by rw [hc]; decide
      by_cases hcb : c = true
      · by_cases h1 : k = "/usr/bin/umount"
        · simp [Labels.set_apply, hc, hcb, h1]
        · by_cases h2 : k = "/usr/bin/mount"
          · simp [Labels.set_apply, hc, hcb, h2]
          · by_cases h3 : k = "/usr/bin/cp"
            · simp [Labels.set_apply, hc, hcb, h3]
            · simp [Labels.set_apply, hc, hcb, h1, h2, h3, hnt]
      · by_cases h3 : k = "/usr/bin/cp"
        · simp [Labels.set_apply, hc, hcb, h3]
        · simp [Labels.set_apply, hc, hcb, h3, hnt]
    · by_cases ht : pkg.Name = "tar"
      · by_cases h4 : k = "/usr/bin/tar"
        · simp [Labels.set_apply, hc, ht, h4]
        · simp [Labels.set_apply, hc, ht, h4]
      · simp [hc, ht]

/-- The keys of the label table of a package-based build root. -/
theorem BuildrootFromPackages.getSELinuxLabels_isSome (p : BuildrootFromPackages)
    (k : String) :
    (p.getSELinuxLabels k).isSome = true ↔
      (((∃ pkg ∈ p.packageSpecs, pkg.Name = "coreutils") ∧
          (k = "/usr/bin/cp" ∨
            (p.containerBuildable = true ∧ (k = "/usr/bin/mount" ∨ k = "/usr/bin/umount")))) ∨
        ((∃ pkg ∈ p.packageSpecs, pkg.Name = "tar") ∧ k = "/usr/bin/tar")) := by
  have h := BuildrootFromPackages.labels_fold_keys p.containerBuildable p.packageSpecs
    Labels.empty k
  simpa [BuildrootFromPackages.getSELinuxLabels, BuildrootFromPackages.getPackageSpecs,
    Labels.empty] using h

/-- C13: a path is a key of `getSELinuxLabels()` exactly when it is
`/usr/bin/cp` and some resolved package is named `coreutils`, or it is
`/usr/bin/mount` or `/usr/bin/umount`, some resolved package is named
`coreutils` and the root is container-buildable, or it is `/usr/bin/tar` and
some resolved package is named `tar`. With the resolved list
`[coreutils, tar]` and container-buildable set the keys are exactly the four
paths; with `[coreutils, xz, selinux-policy-targeted]` and the flag not set the
only key is `/usr/bin/cp`. -/
theorem getSELinuxLabels_key_set :
    (∀ (p : BuildrootFromPackages) (k : String),
      (p.getSELinuxLabels k).isSome = true ↔
        (((∃ pkg ∈ p.packageSpecs, pkg.Name = "coreutils") ∧
            (k = "/usr/bin/cp" ∨
              (p.containerBuildable = true ∧
                (k = "/usr/bin/mount" ∨ k = "/usr/bin/umount")))) ∨
          ((∃ pkg ∈ p.packageSpecs, pkg.Name = "tar") ∧ k = "/usr/bin/tar"))) ∧
    (coreutilsTarRoot.packageSpecs.map PackageSpec.Name = ["coreutils", "tar"] ∧
      coreutilsTarRoot.containerBuildable = true ∧
      ∀ k : String, (coreutilsTarRoot.getSELinuxLabels k).isSome = true ↔
        k ∈ ["/usr/bin/cp", "/usr/bin/mount", "/usr/bin/umount", "/usr/bin/tar"]) ∧
    (resolvedRoot.packageSpecs.map PackageSpec.Name =
        ["coreutils", "xz", "selinux-policy-targeted"] ∧
      resolvedRoot.containerBuildable = false ∧
      ∀ k : String, (resolvedRoot.getSELinuxLabels k).isSome = true ↔ k = "/usr/bin/cp") := by
  refine ⟨BuildrootFromPackages.getSELinuxLabels_isSome, ⟨by decide, rfl, ?_⟩,
    ⟨by decide, rfl, ?_⟩⟩
  · intro k
    rw [BuildrootFromPackages.getSELinuxLabels_isSome]
    simp [coreutilsTarRoot, samplePackage]
    tauto
  · intro k
    rw [BuildrootFromPackages.getSELinuxLabels_isSome]
    simp [resolvedRoot, sampleInputs, samplePackage, sampleRoot, NewBuild]

/-! ## The pipeline of the package-based build root -/

/-- The pipeline that `serialize()` returns, in closed form. -/
theorem BuildrootFromPackages.serialize_eq (bs : Base → OsbuildPipeline)
    (p : BuildrootFromPackages) (h : p.packageSpecs ≠ []) :
    p.serialize bs = .ok
      { Name := (bs p.toBase).Name
        Build := (bs p.toBase).Build
        Runner := p.runner.runnerString
        Stages := (bs p.toBase).Stages ++
          Stage.rpm p.repos p.packageSpecs ::
            (if p.disableSelinux = true then []
             else [Stage.selinux
               { FileContexts :=
                   "etc/selinux/" ++ p.selinuxPolicy ++ "/contexts/files/file_contexts"
                 ExcludePaths := []
                 Labels := p.getSELinuxLabels }]) } := by
  by_cases hd : p.disableSelinux = true <;>
    simp [BuildrootFromPackages.serialize, OsbuildPipeline.AddStage, h, hd]

/-- C14: with a non-empty resolved package list, `serialize()` returns the base
pipeline with the Runner set to the runner's string and with these stages
added at the end: first the RPM stage over the current repository list and the
resolved package list, then, exactly when SELinux is not disabled, one SELinux
stage with FileContexts `etc/selinux/<policy>/contexts/files/file_contexts`
and the labels of `getSELinuxLabels()`; one stage is added when SELinux is
disabled and two otherwise. -/
theorem serialize_emits (bs : Base → OsbuildPipeline) (p : BuildrootFromPackages)
    (h : p.packageSpecs ≠ []) :
    ∃ pl : OsbuildPipeline, p.serialize bs = .ok pl ∧
      pl.Name = (bs p.toBase).Name ∧
      pl.Build = (bs p.toBase).Build ∧
      pl.Runner = p.runner.runnerString ∧
      pl.Stages = (bs p.toBase).Stages ++
        Stage.rpm p.repos p.packageSpecs ::
          (if p.disableSelinux = true then []
           else [Stage.selinux
             { FileContexts :=
                 "etc/selinux/" ++ p.selinuxPolicy ++ "/contexts/files/file_contexts"
               ExcludePaths := []
               Labels := p.getSELinuxLabels }]) ∧
      pl.Stages.length =
        (bs p.toBase).Stages.length + (if p.disableSelinux = true then 1 else 2) := by
  refine ⟨_, BuildrootFromPackages.serialize_eq bs p h, rfl, rfl, rfl, rfl, ?_⟩
  by_cases hd : p.disableSelinux = true <;> simp [hd]

/-- C14, evaluated on the fresh root after `serializeStart(sampleInputs)`:
SELinux is enabled and two stages are added to the empty base pipeline. -/
theorem serialize_emits_witness :
    resolvedRoot.packageSpecs ≠ [] ∧
    ∃ pl : OsbuildPipeline, resolvedRoot.serialize sampleBaseSerialize = .ok pl ∧
      pl.Runner = "org.osbuild.linux" ∧
      pl.Stages = [Stage.rpm resolvedRoot.repos resolvedRoot.packageSpecs,
        Stage.selinux
          { FileContexts := "etc/selinux/targeted/contexts/files/file_contexts"
            ExcludePaths := []
            Labels := resolvedRoot.getSELinuxLabels }] ∧
      pl.Stages.length = 2 := by
  have hne : resolvedRoot.packageSpecs ≠ [] := by decide
  obtain ⟨pl, hpl, _, _, hrunner, hstages, hlen⟩ :=
    serialize_emits sampleBaseSerialize resolvedRoot hne
  exact ⟨hne, pl, hpl, hrunner, hstages, hlen⟩

/-! ## The container-based build root -/

theorem foldl_AddStage {α : Type} (f : α → Stage) (l : List α) :
    ∀ pl : OsbuildPipeline,
      l.foldl (fun pipeline x => pipeline.AddStage (f x)) pl =
        { pl with Stages := pl.Stages ++ l.map f } := by
  induction l with
  | nil => intro pl; simp
  | cons x xs ih =>
    intro pl
    rw [List.foldl_cons, ih]
    simp [OsbuildPipeline.AddStage]

namespace BuildrootFromContainer

theorem ctr_serializeStart_of_empty (p : BuildrootFromContainer) (inputs : Inputs)
    (h : p.containerSpecs = []) :
    p.serializeStart inputs = .ok { p with containerSpecs := inputs.Containers } := by
  simp [serializeStart, h]

theorem ctr_serializeStart_of_nonempty (p : BuildrootFromContainer) (inputs : Inputs)
    (h : p.containerSpecs ≠ []) :
    p.serializeStart inputs = .error "double call to serializeStart()" := by
  have hpos : p.containerSpecs.length > 0 := List.length_pos.mpr h
  simp [serializeStart, hpos]

theorem ctr_serializeStart_ok_inv {p q : BuildrootFromContainer} {inputs : Inputs}
    (h : p.serializeStart inputs = .ok q) :
    p.containerSpecs = [] ∧ q = { p with containerSpecs := inputs.Containers } := by
  by_cases he : p.containerSpecs = []
  · rw [ctr_serializeStart_of_empty p inputs he] at h
    exact ⟨he, (Except.ok.inj h).symm⟩
  · rw [ctr_serializeStart_of_nonempty p inputs he] at h
    cases h

theorem ctr_serializeEnd_of_empty (p : BuildrootFromContainer) (h : p.containerSpecs = []) :
    p.serializeEnd = .error "serializeEnd() call when serialization not in progress" := by
  simp [serializeEnd, h]

theorem ctr_serializeEnd_of_nonempty (p : BuildrootFromContainer) (h : p.containerSpecs ≠ []) :
    p.serializeEnd = .ok { p with containerSpecs := [] } := by
  simp [serializeEnd, h]

theorem ctr_serialize_of_empty (bs : Base → OsbuildPipeline)
    (de : ContainerSpec → ContainerDeployOptions → Option String)
    (gd : List Directory → List DirectoryNodesStage) (p : BuildrootFromContainer)
    (h : p.containerSpecs = []) :
    p.serialize bs de gd = .error "serialization not started" := by
  simp [serialize, h]

theorem serialize_of_many (bs : Base → OsbuildPipeline)
    (de : ContainerSpec → ContainerDeployOptions → Option String)
    (gd : List Directory → List DirectoryNodesStage) (p : BuildrootFromContainer)
    (h : p.containerSpecs.length > 1) :
    p.serialize bs de gd =
      .error ("BuildrootFromContainer expectes exactly one container input, got: " ++
        formatSpecs p.containerSpecs) := by
  unfold serialize
  match hs : p.containerSpecs with
  | [] => simp [hs] at h
  | [x] => simp [hs] at h
  | x :: y :: rest => simp

theorem serialize_single_error (bs : Base → OsbuildPipeline)
    (de : ContainerSpec → ContainerDeployOptions → Option String)
    (gd : List Directory → List DirectoryNodesStage) (p : BuildrootFromContainer)
    (spec : ContainerSpec) (err : String) (h : p.containerSpecs = [spec])
    (herr : de spec { Exclude := [], RemoveSignatures := true } = some err) :
    p.serialize bs de gd = .error err := by
  simp [serialize, h, NewContainerDeployStage, herr]

/-- The pipeline that `serialize()` returns for a single resolved image whose
deploy stage can be built, in closed form. -/
theorem serialize_single_eq (bs : Base → OsbuildPipeline)
    (de : ContainerSpec → ContainerDeployOptions → Option String)
    (gd : List Directory → List DirectoryNodesStage) (p : BuildrootFromContainer)
    (spec : ContainerSpec) (h : p.containerSpecs = [spec])
    (hok : de spec { Exclude := [], RemoveSignatures := true } = none) :
    p.serialize bs de gd = .ok
      { Name := (bs p.toBase).Name
        Build := (bs p.toBase).Build
        Runner := p.runner.runnerString
        Stages := (bs p.toBase).Stages ++
          [Stage.containerDeploy spec { Exclude := [], RemoveSignatures := true }] ++
          (gd p.ensureDirs).map Stage.directory ++
          p.copyFilesFrom.map (fun entry => copyStage entry.1 entry.2) ++
          (if p.disableSelinux = true then []
           else [Stage.selinux
             { FileContexts :=
                 "etc/selinux/" ++ p.selinuxPolicy ++ "/contexts/files/file_contexts"
               ExcludePaths := ["/sysroot"]
               Labels := p.getSELinuxLabels }]) } := by
  have hfold1 := foldl_AddStage Stage.directory (gd p.ensureDirs)
  have hfold2 := foldl_AddStage (fun entry : String × List String => copyStage entry.1 entry.2)
    p.copyFilesFrom
  by_cases hd : p.disableSelinux = true
  · simp only [serialize, h, NewContainerDeployStage, hok, hfold1, hfold2, hd]
    simp [OsbuildPipeline.AddStage]
  · simp only [serialize, h, NewContainerDeployStage, hok, hfold1, hfold2, hd]
    simp [OsbuildPipeline.AddStage]

theorem ctr_serializeEnd_ok_inv {p q : BuildrootFromContainer} (h : p.serializeEnd = .ok q) :
    p.containerSpecs ≠ [] ∧ q = { p with containerSpecs := [] } := by
  by_cases he : p.containerSpecs = []
  · rw [ctr_serializeEnd_of_empty p he] at h
    cases h
  · rw [ctr_serializeEnd_of_nonempty p he] at h
    exact ⟨he, (Except.ok.inj h).symm⟩

/-- Running the body of `serialize()` on a receiver of the container variant:
the outcome is that of `serialize`, and at a return the receiver is as it was
before the call. -/
theorem ctr_serializeM_run (bs : Base → OsbuildPipeline)
    (de : ContainerSpec → ContainerDeployOptions → Option String)
    (gd : List Directory → List DirectoryNodesStage) (p : BuildrootFromContainer) :
    (serializeM bs de gd).run p =
      match p.serialize bs de gd with
      | .ok pl => .ok (pl, p)
      | .error e => .error e := by
  rcases hs : p.containerSpecs with _ | ⟨spec, _ | ⟨spec2, rest⟩⟩
  · simp [serializeM, serialize, hs, StateT.run, bind, StateT.bind, get, getThe,
      MonadStateOf.get, StateT.get, pure, StateT.pure, Except.pure, Except.bind, throw,
      throwThe, MonadExceptOf.throw, liftM, monadLift, MonadLift.monadLift, StateT.lift]
  · cases hde : de spec { Exclude := [], RemoveSignatures := true } with
    | some err =>
      simp [serializeM, serialize, hs, hde, NewContainerDeployStage, StateT.run, bind,
        StateT.bind, get, getThe, MonadStateOf.get, StateT.get, pure, StateT.pure,
        Except.pure, Except.bind, throw, throwThe, MonadExceptOf.throw, liftM, monadLift,
        MonadLift.monadLift, StateT.lift]
    | none =>
      cases hd : p.disableSelinux <;>
      simp [serializeM, serialize, hs, hde, hd, NewContainerDeployStage, StateT.run, bind,
        StateT.bind, get, getThe, MonadStateOf.get, StateT.get, pure, StateT.pure,
        Except.pure, Except.bind, throw, throwThe, MonadExceptOf.throw, liftM, monadLift,
        MonadLift.monadLift, StateT.lift]
  · simp [serializeM, serialize, hs, StateT.run, bind, StateT.bind, get, getThe,
      MonadStateOf.get, StateT.get, pure, StateT.pure, Except.pure, Except.bind, throw,
      throwThe, MonadExceptOf.throw, liftM, monadLift, MonadLift.monadLift, StateT.lift]

theorem ctr_call_serialize_eq (bs : Base → OsbuildPipeline)
    (de : ContainerSpec → ContainerDeployOptions → Option String)
    (gd : List Directory → List DirectoryNodesStage) (p : BuildrootFromContainer) :
    p.call bs de gd .serialize =
      match p.serialize bs de gd with
      | .error e => .error e
      | .ok _ => .ok p := by
  rw [call, ctr_serializeM_run]
  cases p.serialize bs de gd <;> rfl

theorem ctr_call_serialize_inv {bs : Base → OsbuildPipeline}
    {de : ContainerSpec → ContainerDeployOptions → Option String}
    {gd : List Directory → List DirectoryNodesStage} {p q : BuildrootFromContainer}
    (h : p.call bs de gd .serialize = .ok q) : q = p := by
  rw [ctr_call_serialize_eq] at h
  cases hs : p.serialize bs de gd with
  | error e => simp [hs] at h
  | ok pl =>
    simp only [hs] at h
    exact (Except.ok.inj h).symm

theorem ctr_callAll_cons_inv {bs : Base → OsbuildPipeline}
    {de : ContainerSpec → ContainerDeployOptions → Option String}
    {gd : List Directory → List DirectoryNodesStage} {p r : BuildrootFromContainer}
    {c : LifecycleCall} {cs : List LifecycleCall}
    (h : p.callAll bs de gd (c :: cs) = .ok r) :
    ∃ q, p.call bs de gd c = .ok q ∧ q.callAll bs de gd cs = .ok r := by
  unfold callAll at h
  cases hc : p.call bs de gd c with
  | error e => simp [hc] at h
  | ok q => exact ⟨q, rfl, by simpa [hc] using h⟩

/-- While no `serializeEnd` is called, a container-based root holding resolved
specs keeps holding them through every successful call. -/
theorem ctr_callAll_keeps_specs (bs : Base → OsbuildPipeline)
    (de : ContainerSpec → ContainerDeployOptions → Option String)
    (gd : List Directory → List DirectoryNodesStage) (cs : List LifecycleCall) :
    ∀ (p r : BuildrootFromContainer), p.containerSpecs ≠ [] →
      LifecycleCall.serializeEnd ∉ cs → p.callAll bs de gd cs = .ok r →
      r.containerSpecs ≠ [] := by
  induction cs with
  | nil =>
    intro p r hp _ h
    have : p = r := by simpa [callAll] using h
    exact this ▸ hp
  | cons c cs ih =>
    intro p r hp hno h
    obtain ⟨q, hq, hr⟩ := ctr_callAll_cons_inv h
    have hno2 : LifecycleCall.serializeEnd ∉ cs := fun hm => hno (List.mem_cons_of_mem _ hm)
    cases c with
    | serializeStart inputs =>
      rw [call, ctr_serializeStart_of_nonempty p inputs hp] at hq
      cases hq
    | serialize =>
      have hqp := ctr_call_serialize_inv hq
      subst hqp
      exact ih q r hp hno2 hr
    | serializeEnd =>
      exact absurd (List.mem_cons_self _ _) hno

/-- The keys of the label table of a container-based build root on which
SELinux is not disabled. -/
theorem ctr_getSELinuxLabels_isSome (p : BuildrootFromContainer) (k : String)
    (hd : p.disableSelinux = false) :
    (p.getSELinuxLabels k).isSome = true ↔
      (k = "/usr/bin/ostree" ∨
        (p.containerBuildable = true ∧ (k = "/usr/bin/mount" ∨ k = "/usr/bin/umount"))) := by
  by_cases hcb : p.containerBuildable = true
  · by_cases h1 : k = "/usr/bin/umount"
    · simp [getSELinuxLabels, hd, hcb, Labels.set_apply, h1]
    · by_cases h2 : k = "/usr/bin/mount"
      · simp [getSELinuxLabels, hd, hcb, Labels.set_apply, h2]
      · by_cases h3 : k = "/usr/bin/ostree"
        · simp [getSELinuxLabels, hd, hcb, Labels.set_apply, h3]
        · simp [getSELinuxLabels, hd, hcb, Labels.set_apply, h1, h2, h3, Labels.empty]
  · by_cases h3 : k = "/usr/bin/ostree"
    · simp [getSELinuxLabels, hd, hcb, Labels.set_apply, h3]
    · simp [getSELinuxLabels, hd, hcb, Labels.set_apply, h3, Labels.empty]

end BuildrootFromContainer

/-- C15: for both build-root variants, running the body of `serialize()` on
any build root gives the outcome of `serialize`, and whenever it returns a
pipeline the receiver is left with every field as it was (resolved specs,
repositories, dependents, flags, policy, copy map, directories); it does
return on a root with resolved packages, and on a root with a single resolved
container spec whose deploy stage is constructed. So a successful `serialize`
call in a call sequence gives back the same build root. -/
theorem serialize_leaves_root_unchanged :
    (∀ (bs : Base → OsbuildPipeline) (p : BuildrootFromPackages),
      ((BuildrootFromPackages.serializeM bs).run p =
        match p.serialize bs with
        | .ok pl => .ok (pl, p)
        | .error e => .error e) ∧
      (∀ (q : BuildrootFromPackages) (pl : OsbuildPipeline),
        (BuildrootFromPackages.serializeM bs).run p = .ok (pl, q) →
        q = p ∧ p.serialize bs = .ok pl) ∧
      (p.packageSpecs ≠ [] →
        ∃ pl, (BuildrootFromPackages.serializeM bs).run p = .ok (pl, p)) ∧
      (∀ q : BuildrootFromPackages, p.call bs LifecycleCall.serialize = .ok q → q = p)) ∧
    (∀ (bs : Base → OsbuildPipeline)
        (de : ContainerSpec → ContainerDeployOptions → Option String)
        (gd : List Directory → List DirectoryNodesStage) (p : BuildrootFromContainer),
      ((BuildrootFromContainer.serializeM bs de gd).run p =
        match p.serialize bs de gd with
        | .ok pl => .ok (pl, p)
        | .error e => .error e) ∧
      (∀ (q : BuildrootFromContainer) (pl : OsbuildPipeline),
        (BuildrootFromContainer.serializeM bs de gd).run p = .ok (pl, q) →
        q = p ∧ p.serialize bs de gd = .ok pl) ∧
      (∀ spec : ContainerSpec, p.containerSpecs = [spec] →
        de spec { Exclude := [], RemoveSignatures := true } = none →
        ∃ pl, (BuildrootFromContainer.serializeM bs de gd).run p = .ok (pl, p)) ∧
      (∀ q : BuildrootFromContainer,
        p.call bs de gd LifecycleCall.serialize = .ok q → q = p)) := by
  constructor
  · intro bs p
    refine ⟨BuildrootFromPackages.serializeM_run bs p, ?_, ?_, ?_⟩
    · intro q pl h
      rw [BuildrootFromPackages.serializeM_run] at h
      cases hs : p.serialize bs with
      | error e => simp [hs] at h
      | ok pl1 =>
        simp only [hs] at h
        have h1 := Except.ok.inj h
        simp only [Prod.mk.injEq] at h1
        exact ⟨h1.2.symm, by rw [h1.1]⟩
    · intro hne
      obtain ⟨pl, hpl⟩ := BuildrootFromPackages.serialize_of_nonempty bs p hne
      exact ⟨pl, by rw [BuildrootFromPackages.serializeM_run, hpl]⟩
    · intro q h
      exact (BuildrootFromPackages.call_serialize_inv h).2
  · intro bs de gd p
    refine ⟨BuildrootFromContainer.ctr_serializeM_run bs de gd p, ?_, ?_, ?_⟩
    · intro q pl h
      rw [BuildrootFromContainer.ctr_serializeM_run] at h
      cases hs : p.serialize bs de gd with
      | error e => simp [hs] at h
      | ok pl1 =>
        simp only [hs] at h
        have h1 := Except.ok.inj h
        simp only [Prod.mk.injEq] at h1
        exact ⟨h1.2.symm, by rw [h1.1]⟩
    · intro spec hspec hde
      exact ⟨_, by rw [BuildrootFromContainer.ctr_serializeM_run,
        BuildrootFromContainer.serialize_single_eq bs de gd p spec hspec hde]⟩
    · intro q h
      exact BuildrootFromContainer.ctr_call_serialize_inv h

/-- C15, evaluated on a resolved root of each variant. -/
theorem serialize_leaves_root_unchanged_witness :
    (∃ (pl : OsbuildPipeline) (q : BuildrootFromPackages),
      (BuildrootFromPackages.serializeM sampleBaseSerialize).run resolvedRoot = .ok (pl, q) ∧
      q = resolvedRoot ∧ resolvedRoot.serialize sampleBaseSerialize = .ok pl) ∧
    (∃ (pl : OsbuildPipeline) (q : BuildrootFromContainer),
      (BuildrootFromContainer.serializeM sampleBaseSerialize singleSourceDeployError
        sampleGenDirs).run resolvedContainerRoot = .ok (pl, q) ∧
      q = resolvedContainerRoot ∧
      resolvedContainerRoot.serialize sampleBaseSerialize singleSourceDeployError
        sampleGenDirs = .ok pl) :=
  ⟨⟨_, _, rfl,
      (serialize_leaves_root_unchanged.1 sampleBaseSerialize resolvedRoot).2.1 _ _ rfl⟩,
    ⟨_, _, rfl,
      (serialize_leaves_root_unchanged.2 sampleBaseSerialize singleSourceDeployError
        sampleGenDirs resolvedContainerRoot).2.1 _ _ rfl⟩⟩

/-- C16: `serialize()` of a container-based build root fails fatally when it
holds no resolved container spec ("serialization not started") and when it
holds more than one ("BuildrootFromContainer expectes exactly one container
input, got: ..."), in both cases before the stage constructor is reached; when
it holds exactly one, the deploy stage of the single image is constructed and
`serialize()` returns a pipeline. So `serialize()` returns a pipeline exactly
when the root holds one resolved container spec. -/
theorem container_serialize_outcome (bs : Base → OsbuildPipeline)
    (gd : List Directory → List DirectoryNodesStage) (p : BuildrootFromContainer) :
    (∀ de : ContainerSpec → ContainerDeployOptions → Option String,
      p.containerSpecs.length = 0 →
      p.serialize bs de gd = .error "serialization not started") ∧
    (∀ de : ContainerSpec → ContainerDeployOptions → Option String,
      p.containerSpecs.length > 1 →
      p.serialize bs de gd =
        .error ("BuildrootFromContainer expectes exactly one container input, got: " ++
          BuildrootFromContainer.formatSpecs p.containerSpecs)) ∧
    (p.containerSpecs.length = 1 →
      ∃ pl, p.serialize bs singleSourceDeployError gd = .ok pl ∧
        (BuildrootFromContainer.serializeM bs singleSourceDeployError gd).run p =
          .ok (pl, p)) ∧
    ((∃ pl, p.serialize bs singleSourceDeployError gd = .ok pl) ↔
      p.containerSpecs.length = 1) := by
  have hone : p.containerSpecs.length = 1 →
      ∃ pl, p.serialize bs singleSourceDeployError gd = .ok pl := by
    intro h
    obtain ⟨spec, hspec⟩ := List.length_eq_one.mp h
    exact ⟨_, BuildrootFromContainer.serialize_single_eq bs singleSourceDeployError gd p spec
      hspec rfl⟩
  refine ⟨?_, ?_, ?_, ?_, hone⟩
  · intro de h
    exact BuildrootFromContainer.ctr_serialize_of_empty bs de gd p (List.length_eq_zero.mp h)
  · intro de h
    exact BuildrootFromContainer.serialize_of_many bs de gd p h
  · intro h
    obtain ⟨pl, hpl⟩ := hone h
    exact ⟨pl, hpl, by rw [BuildrootFromContainer.ctr_serializeM_run, hpl]⟩
  · rintro ⟨pl, hpl⟩
    rcases Nat.lt_trichotomy p.containerSpecs.length 1 with hlt | heq | hgt
    · have h0 : p.containerSpecs.length = 0 := by omega
      rw [BuildrootFromContainer.ctr_serialize_of_empty bs singleSourceDeployError gd p
        (List.length_eq_zero.mp h0)] at hpl
      cases hpl
    · exact heq
    · rw [BuildrootFromContainer.serialize_of_many bs singleSourceDeployError gd p hgt] at hpl
      cases hpl

/-- C16, evaluated: no spec fails, two specs fail, and the single spec of
`undigestedRoot`, an image without digest, gives a pipeline. -/
theorem container_serialize_outcome_witness :
    sampleContainerRoot.serialize sampleBaseSerialize singleSourceDeployError sampleGenDirs =
      .error "serialization not started" ∧
    (∃ e, ({ sampleContainerRoot with containerSpecs := [sampleSpec, sampleSpec] } :
      BuildrootFromContainer).serialize sampleBaseSerialize singleSourceDeployError
        sampleGenDirs = .error e) ∧
    undigestedRoot.containerSpecs.length = 1 ∧
    (∃ pl, undigestedRoot.serialize sampleBaseSerialize singleSourceDeployError
      sampleGenDirs = .ok pl) :=
  ⟨(container_serialize_outcome sampleBaseSerialize sampleGenDirs sampleContainerRoot).1
      singleSourceDeployError rfl,
    ⟨_, (container_serialize_outcome sampleBaseSerialize sampleGenDirs
      { sampleContainerRoot with containerSpecs := [sampleSpec, sampleSpec] }).2.1
        singleSourceDeployError (by decide)⟩,
    rfl,
    (container_serialize_outcome sampleBaseSerialize sampleGenDirs undigestedRoot).2.2.2.mpr
      rfl⟩

/-- C18 (as stated, refuted): on the unresolved root `sampleContainerRoot`,
`serializeStart` with inputs that carry no container succeeds, and a second
`serializeStart` with no `serializeEnd` in between succeeds as well. -/
theorem container_serializeStart_twice_after_empty_inputs :
    ∃ p1 p2 : BuildrootFromContainer,
      sampleContainerRoot.serializeStart emptyInputs = .ok p1 ∧
      p1.serializeStart containerInputs = .ok p2 :=
  ⟨_, _, rfl, rfl⟩

/-- C18 (amended): if `serializeStart(i1)` succeeds on a container-based build
root with a non-empty container spec list in `i1` and the calls made afterwards
contain no `serializeEnd` and all succeed, then `serializeStart(i2)` fails
fatally with "double call to serializeStart()"; and `serializeEnd` fails
fatally, with "serializeEnd() call when serialization not in progress", exactly
when the resolved container spec list is empty. -/
theorem container_serializeStart_double_call (bs : Base → OsbuildPipeline)
    (de : ContainerSpec → ContainerDeployOptions → Option String)
    (gd : List Directory → List DirectoryNodesStage)
    (p p1 q : BuildrootFromContainer) (i1 i2 : Inputs) (cs : List LifecycleCall)
    (hstart : p.serializeStart i1 = .ok p1)
    (hcarry : i1.Containers ≠ [])
    (hnoEnd : LifecycleCall.serializeEnd ∉ cs)
    (hcalls : p1.callAll bs de gd cs = .ok q) :
    q.serializeStart i2 = .error "double call to serializeStart()" ∧
    (∀ r : BuildrootFromContainer,
      ((∃ e, r.serializeEnd = .error e) ↔ r.containerSpecs = []) ∧
      (r.serializeEnd = .error "serializeEnd() call when serialization not in progress" ↔
        r.containerSpecs = [])) := by
  obtain ⟨_, rfl⟩ := BuildrootFromContainer.ctr_serializeStart_ok_inv hstart
  refine ⟨BuildrootFromContainer.ctr_serializeStart_of_nonempty q i2
    (BuildrootFromContainer.ctr_callAll_keeps_specs bs de gd cs _ q hcarry hnoEnd hcalls), ?_⟩
  intro r
  constructor
  · constructor
    · rintro ⟨e, he⟩
      by_contra hne
      rw [BuildrootFromContainer.ctr_serializeEnd_of_nonempty r hne] at he
      cases he
    · intro h
      exact ⟨_, BuildrootFromContainer.ctr_serializeEnd_of_empty r h⟩
  · constructor
    · intro he
      by_contra hne
      rw [BuildrootFromContainer.ctr_serializeEnd_of_nonempty r hne] at he
      cases he
    · exact BuildrootFromContainer.ctr_serializeEnd_of_empty r

/-- C18 (amended), evaluated: after `serializeStart(containerInputs)` on the
unresolved root and one `serialize`, a second `serializeStart` fails with
"double call". -/
theorem container_serializeStart_double_call_witness :
    ∃ p1 : BuildrootFromContainer,
      sampleContainerRoot.serializeStart containerInputs = .ok p1 ∧
      containerInputs.Containers ≠ [] ∧
      LifecycleCall.serializeEnd ∉ [LifecycleCall.serialize] ∧
      p1.callAll sampleBaseSerialize acceptDeploy sampleGenDirs [LifecycleCall.serialize] =
        .ok p1 ∧
      p1.serializeStart emptyInputs = .error "double call to serializeStart()" :=
  ⟨_, rfl, by decide, by simp, rfl,
    (container_serializeStart_double_call sampleBaseSerialize acceptDeploy sampleGenDirs
      sampleContainerRoot _ _ containerInputs emptyInputs [LifecycleCall.serialize] rfl
      (by decide) (by simp) rfl).1⟩

/-- A successful `serialize()` on a single resolved image returns the closed
form of `serialize_single_eq`. -/
theorem BuildrootFromContainer.serialize_ok_inv {bs : Base → OsbuildPipeline}
    {de : ContainerSpec → ContainerDeployOptions → Option String}
    {gd : List Directory → List DirectoryNodesStage} {p : BuildrootFromContainer}
    {spec : ContainerSpec} {pl : OsbuildPipeline} (hone : p.containerSpecs = [spec])
    (hok : p.serialize bs de gd = .ok pl) :
    pl.Name = (bs p.toBase).Name ∧ pl.Build = (bs p.toBase).Build ∧
    pl.Runner = p.runner.runnerString ∧
    pl.Stages = (bs p.toBase).Stages ++
      [Stage.containerDeploy spec { Exclude := [], RemoveSignatures := true }] ++
      (gd p.ensureDirs).map Stage.directory ++
      p.copyFilesFrom.map (fun entry => BuildrootFromContainer.copyStage entry.1 entry.2) ++
      (if p.disableSelinux = true then []
       else [Stage.selinux
         { FileContexts :=
             "etc/selinux/" ++ p.selinuxPolicy ++ "/contexts/files/file_contexts"
           ExcludePaths := ["/sysroot"]
           Labels := p.getSELinuxLabels }]) := by
  cases hde : de spec { Exclude := [], RemoveSignatures := true } with
  | some err =>
    rw [BuildrootFromContainer.serialize_single_error bs de gd p spec err hone hde] at hok
    cases hok
  | none =>
    rw [BuildrootFromContainer.serialize_single_eq bs de gd p spec hone hde] at hok
    have hpl := Except.ok.inj hok
    subst hpl
    exact ⟨rfl, rfl, rfl, rfl⟩

theorem BuildrootFromContainer.copyStage_isSELinux (name : String) (files : List String) :
    (BuildrootFromContainer.copyStage name files).isSELinux = false := rfl

/-- C19: for a container-based build root with exactly one resolved container
spec whose `serialize()` returns a pipeline: if SELinux is disabled,
`serialize()` adds no SELinux stage, so the pipeline has none when the base
pipeline has none; otherwise the last stage is a SELinux stage with
ExcludePaths `["/sysroot"]`, FileContexts
`etc/selinux/<policy>/contexts/files/file_contexts` and the label table of
`getSELinuxLabels()`, whose keys are `/usr/bin/ostree` and, exactly when the
root is container-buildable, `/usr/bin/mount` and `/usr/bin/umount`. -/
theorem container_selinux_stage (bs : Base → OsbuildPipeline)
    (de : ContainerSpec → ContainerDeployOptions → Option String)
    (gd : List Directory → List DirectoryNodesStage) (p : BuildrootFromContainer)
    (spec : ContainerSpec) (pl : OsbuildPipeline)
    (hone : p.containerSpecs = [spec])
    (hok : p.serialize bs de gd = .ok pl) :
    (p.disableSelinux = true →
      (∀ s ∈ pl.Stages, s.isSELinux = true → s ∈ (bs p.toBase).Stages) ∧
      ((∀ s ∈ (bs p.toBase).Stages, s.isSELinux = false) →
        ∀ s ∈ pl.Stages, s.isSELinux = false)) ∧
    (p.disableSelinux = false →
      pl.Stages.getLast? = some (Stage.selinux
        { FileContexts := "etc/selinux/" ++ p.selinuxPolicy ++ "/contexts/files/file_contexts"
          ExcludePaths := ["/sysroot"]
          Labels := p.getSELinuxLabels }) ∧
      ∀ k : String, (p.getSELinuxLabels k).isSome = true ↔
        (k = "/usr/bin/ostree" ∨
          (p.containerBuildable = true ∧ (k = "/usr/bin/mount" ∨ k = "/usr/bin/umount")))) := by
  obtain ⟨_, _, _, hstages⟩ := BuildrootFromContainer.serialize_ok_inv hone hok
  constructor
  · intro hd
    have hadded : ∀ s ∈ pl.Stages, s ∈ (bs p.toBase).Stages ∨ s.isSELinux = false := by
      intro s hs
      rw [hstages] at hs
      simp only [hd, if_true, List.append_nil, List.mem_append, List.mem_singleton,
        List.mem_map] at hs
      rcases hs with ((hbase | hdeploy) | ⟨d, _, hdir⟩) | ⟨entry, _, hcopy⟩
      · exact Or.inl hbase
      · exact Or.inr (by rw [hdeploy]; rfl)
      · exact Or.inr (by rw [← hdir]; rfl)
      · exact Or.inr (by rw [← hcopy]; rfl)
    constructor
    · intro s hs hsel
      rcases hadded s hs with h | h
      · exact h
      · rw [h] at hsel
        cases hsel
    · intro hbase s hs
      rcases hadded s hs with h | h
      · exact hbase s h
      · exact h
  · intro hd
    refine ⟨?_, fun k => BuildrootFromContainer.ctr_getSELinuxLabels_isSome p k hd⟩
    rw [hstages]
    simp only [hd, Bool.false_eq_true, if_false]
    exact List.getLast?_concat _

/-- C19, evaluated on `resolvedContainerRoot` (SELinux enabled,
container-buildable) and on the same root with SELinux disabled. -/
theorem container_selinux_stage_witness :
    (∃ pl : OsbuildPipeline,
      resolvedContainerRoot.serialize sampleBaseSerialize acceptDeploy sampleGenDirs = .ok pl ∧
      pl.Stages.getLast? = some (Stage.selinux
        { FileContexts := "etc/selinux/" ++ "targeted" ++ "/contexts/files/file_contexts"
          ExcludePaths := ["/sysroot"]
          Labels := resolvedContainerRoot.getSELinuxLabels }) ∧
      ∀ k : String, (resolvedContainerRoot.getSELinuxLabels k).isSome = true ↔
        (k = "/usr/bin/ostree" ∨
          (resolvedContainerRoot.containerBuildable = true ∧
            (k = "/usr/bin/mount" ∨ k = "/usr/bin/umount")))) ∧
    (∃ pl : OsbuildPipeline,
      ({ resolvedContainerRoot with disableSelinux := true } :
        BuildrootFromContainer).serialize sampleBaseSerialize acceptDeploy sampleGenDirs =
          .ok pl ∧
      ∀ s ∈ pl.Stages, s.isSELinux = false) := by
  constructor
  · have h := (container_selinux_stage sampleBaseSerialize acceptDeploy sampleGenDirs
      resolvedContainerRoot sampleSpec _ rfl rfl).2 rfl
    exact ⟨_, rfl, h⟩
  · have h := ((container_selinux_stage sampleBaseSerialize acceptDeploy sampleGenDirs
      { resolvedContainerRoot with disableSelinux := true } sampleSpec _ rfl rfl).1 rfl).2
      (by intro s hs; cases hs)
    exact ⟨_, rfl, h⟩

/-- C20: for a container-based build root with exactly one resolved container
spec whose `serialize()` returns a pipeline, the stages after those of the base
pipeline are, in this order: the container-deploy stage of that spec with
RemoveSignatures set, the directory stages generated from the
ensure-directories list, one copy stage for each entry of the copy map, and,
only when SELinux is not disabled, the SELinux stage. -/
theorem container_stage_order (bs : Base → OsbuildPipeline)
    (de : ContainerSpec → ContainerDeployOptions → Option String)
    (gd : List Directory → List DirectoryNodesStage) (p : BuildrootFromContainer)
    (spec : ContainerSpec) (pl : OsbuildPipeline)
    (hone : p.containerSpecs = [spec])
    (hok : p.serialize bs de gd = .ok pl) :
    pl.Stages = (bs p.toBase).Stages ++
      [Stage.containerDeploy spec { Exclude := [], RemoveSignatures := true }] ++
      (gd p.ensureDirs).map Stage.directory ++
      p.copyFilesFrom.map (fun entry => BuildrootFromContainer.copyStage entry.1 entry.2) ++
      (if p.disableSelinux = true then []
       else [Stage.selinux
         { FileContexts :=
             "etc/selinux/" ++ p.selinuxPolicy ++ "/contexts/files/file_contexts"
           ExcludePaths := ["/sysroot"]
           Labels := p.getSELinuxLabels }]) ∧
    (∀ entry : String × List String, ∃ paths : List CopyStagePath,
      BuildrootFromContainer.copyStage entry.1 entry.2 = Stage.copy paths "copy-tree" entry.1) :=
  ⟨(BuildrootFromContainer.serialize_ok_inv hone hok).2.2.2, fun _ => ⟨_, rfl⟩⟩

/-- C20, evaluated on `resolvedContainerRoot`: deploy stage, one `mkdir`
stage, the copy stages of `os` and `tools`, then the SELinux stage. -/
theorem container_stage_order_witness :
    ∃ pl : OsbuildPipeline,
      resolvedContainerRoot.containerSpecs = [sampleSpec] ∧
      resolvedContainerRoot.serialize sampleBaseSerialize acceptDeploy sampleGenDirs = .ok pl ∧
      pl.Stages =
        [Stage.containerDeploy sampleSpec { Exclude := [], RemoveSignatures := true },
          Stage.directory { stageType := "org.osbuild.mkdir", paths := ["/var/tmp"] },
          BuildrootFromContainer.copyStage "os" ["/etc/a", "/etc/b"],
          BuildrootFromContainer.copyStage "tools" ["/usr/bin/t"],
          Stage.selinux
            { FileContexts := "etc/selinux/" ++ "targeted" ++ "/contexts/files/file_contexts"
              ExcludePaths := ["/sysroot"]
              Labels := resolvedContainerRoot.getSELinuxLabels }] :=
  ⟨_, rfl, rfl,
    (container_stage_order sampleBaseSerialize acceptDeploy sampleGenDirs resolvedContainerRoot
      sampleSpec _ rfl rfl).1⟩

/-! ## Copy stages of the container-based build root -/

theorem foldl_snoc_eq_map {α β : Type} (g : α → β) (l : List α) :
    ∀ init : List β, l.foldl (fun acc x => acc ++ [g x]) init = init ++ l.map g := by
  induction l with
  | nil => intro init; simp
  | cons x xs ih => intro init; simp [ih]

/-- The copy stage of one entry of the copy map: one path pair per path of the
entry, in the order of the entry. -/
theorem BuildrootFromContainer.copyStage_eq (name : String) (files : List String) :
    BuildrootFromContainer.copyStage name files =
      Stage.copy
        (files.map fun path =>
          { From := "input://" ++ "copy-tree" ++ path, To := "tree://" ++ path })
        "copy-tree" name := by
  simp [BuildrootFromContainer.copyStage, foldl_snoc_eq_map]

theorem filter_isCopy_directory (l : List DirectoryNodesStage) :
    (l.map Stage.directory).filter Stage.isCopy = [] := by
  induction l with
  | nil => rfl
  | cons x xs _ => simp [List.filter, Stage.isCopy]

theorem filter_isCopy_copyStages (l : List (String × List String)) :
    (l.map fun entry => BuildrootFromContainer.copyStage entry.1 entry.2).filter Stage.isCopy =
      l.map fun entry => BuildrootFromContainer.copyStage entry.1 entry.2 := by
  induction l with
  | nil => rfl
  | cons x xs ih =>
    simp only [List.map_cons]
    rw [List.filter_cons_of_pos (by rfl), ih]

/-- The copy stages among the stages that `serialize()` adds. -/
theorem BuildrootFromContainer.added_copy_stages {bs : Base → OsbuildPipeline}
    {de : ContainerSpec → ContainerDeployOptions → Option String}
    {gd : List Directory → List DirectoryNodesStage} {p : BuildrootFromContainer}
    {spec : ContainerSpec} {pl : OsbuildPipeline} (hone : p.containerSpecs = [spec])
    (hok : p.serialize bs de gd = .ok pl) :
    (pl.Stages.drop (bs p.toBase).Stages.length).filter Stage.isCopy =
      p.copyFilesFrom.map fun entry => BuildrootFromContainer.copyStage entry.1 entry.2 := by
  obtain ⟨_, _, _, hstages⟩ := BuildrootFromContainer.serialize_ok_inv hone hok
  rw [hstages]
  simp only [List.append_assoc, List.drop_left, List.filter_append, filter_isCopy_directory,
    filter_isCopy_copyStages, List.nil_append]
  by_cases hd : p.disableSelinux = true
  · simp [hd, List.filter, Stage.isCopy]
  · simp [hd, List.filter, Stage.isCopy]

/-- C21 (as stated, refuted): the copy map of `resolvedContainerRoot` has three
paths in two entries, and the pipeline of `serialize()` has two copy stages,
the first one copying two paths. -/
theorem copy_stages_fewer_than_paths :
    ∃ pl : OsbuildPipeline,
      resolvedContainerRoot.serialize sampleBaseSerialize acceptDeploy sampleGenDirs = .ok pl ∧
      resolvedContainerRoot.copyFilesFrom =
        [("os", ["/etc/a", "/etc/b"]), ("tools", ["/usr/bin/t"])] ∧
      (resolvedContainerRoot.copyFilesFrom.map fun entry => entry.2.length).sum = 3 ∧
      (pl.Stages.filter Stage.isCopy).length = 2 ∧
      (pl.Stages.filter Stage.isCopy).map (fun s => s.copyPaths.length) = [2, 1] :=
  ⟨_, rfl, rfl, rfl, rfl, rfl⟩

/-- C21 (amended): for a container-based build root with exactly one resolved
container spec whose `serialize()` returns a pipeline, the file-copy stages
that `serialize()` adds are one per entry of the copy map, in the order of the
entries: their number is the number of entries, and the stage of an entry
copies all the paths of that entry, one path pair per path, from the tree of
the entry's pipeline. -/
theorem copy_stage_per_entry (bs : Base → OsbuildPipeline)
    (de : ContainerSpec → ContainerDeployOptions → Option String)
    (gd : List Directory → List DirectoryNodesStage) (p : BuildrootFromContainer)
    (spec : ContainerSpec) (pl : OsbuildPipeline)
    (hone : p.containerSpecs = [spec])
    (hok : p.serialize bs de gd = .ok pl) :
    (pl.Stages.drop (bs p.toBase).Stages.length).filter Stage.isCopy =
      (p.copyFilesFrom.map fun entry =>
        Stage.copy
          (entry.2.map fun path =>
            { From := "input://" ++ "copy-tree" ++ path, To := "tree://" ++ path })
          "copy-tree" entry.1) ∧
    ((pl.Stages.drop (bs p.toBase).Stages.length).filter Stage.isCopy).length =
      p.copyFilesFrom.length ∧
    ((pl.Stages.drop (bs p.toBase).Stages.length).filter Stage.isCopy).map
        (fun s => s.copyPaths.length) =
      p.copyFilesFrom.map fun entry => entry.2.length := by
  have h := BuildrootFromContainer.added_copy_stages hone hok
  refine ⟨?_, ?_, ?_⟩
  · rw [h]
    simp [BuildrootFromContainer.copyStage_eq]
  · rw [h]
    simp
  · rw [h]
    simp [BuildrootFromContainer.copyStage_eq, Stage.copyPaths, Function.comp_def]

/-- C21 (amended), evaluated on `resolvedContainerRoot`: two entries, two copy
stages, with two paths and one path. -/
theorem copy_stage_per_entry_witness :
    ∃ pl : OsbuildPipeline,
      resolvedContainerRoot.containerSpecs = [sampleSpec] ∧
      resolvedContainerRoot.serialize sampleBaseSerialize acceptDeploy sampleGenDirs = .ok pl ∧
      ((pl.Stages.drop (sampleBaseSerialize resolvedContainerRoot.toBase).Stages.length).filter
        Stage.isCopy).length = resolvedContainerRoot.copyFilesFrom.length ∧
      ((pl.Stages.drop (sampleBaseSerialize resolvedContainerRoot.toBase).Stages.length).filter
        Stage.isCopy).map (fun s => s.copyPaths.length) =
        resolvedContainerRoot.copyFilesFrom.map fun entry => entry.2.length :=
  ⟨_, rfl, rfl,
    (copy_stage_per_entry sampleBaseSerialize acceptDeploy sampleGenDirs resolvedContainerRoot
      sampleSpec _ rfl rfl).2⟩

/-! ## The bootstrap build root -/

/-- With SELinux disabled, every stage that `serialize()` adds is not a
SELinux stage: a stage of the returned pipeline is a stage of the base
pipeline or is not a SELinux stage. -/
theorem BuildrootFromContainer.serialize_disabled_stages {bs : Base → OsbuildPipeline}
    {de : ContainerSpec → ContainerDeployOptions → Option String}
    {gd : List Directory → List DirectoryNodesStage} {p : BuildrootFromContainer}
    {spec : ContainerSpec} {pl : OsbuildPipeline} (hone : p.containerSpecs = [spec])
    (hok : p.serialize bs de gd = .ok pl) (hd : p.disableSelinux = true) :
    ∀ s ∈ pl.Stages, s ∈ (bs p.toBase).Stages ∨ s.isSELinux = false := by
  obtain ⟨_, _, _, hstages⟩ := BuildrootFromContainer.serialize_ok_inv hone hok
  intro s hs
  rw [hstages] at hs
  simp only [hd, if_true, List.append_nil, List.mem_append, List.mem_singleton,
    List.mem_map] at hs
  rcases hs with ((hbase | hdeploy) | ⟨d, _, hdir⟩) | ⟨entry, _, hcopy⟩
  · exact Or.inl hbase
  · exact Or.inr (by rw [hdeploy]; rfl)
  · exact Or.inr (by rw [← hdir]; rfl)
  · exact Or.inr (by rw [← hcopy]; rfl)

/-- C22: the build root made by `NewBootstrap` is a container-based root
named `bootstrap-buildroot`, with no upstream build, SELinux disabled,
container-buildable set and the given container sources; `NewBootstrap`
returns it exactly when the Manifest has no pipeline of that name yet, and the
returned root is registered in the Manifest; and once it holds a single
resolved container spec, the pipeline that its `serialize()` returns has no
SELinux stage besides those of the base pipeline, so none at all when the base
pipeline has none. -/
theorem NewBootstrap_root (linux : Runner) (m : Manifest)
    (sources : List ContainerSourceSpec) :
    (NewBootstrap linux m sources).1.name = "bootstrap-buildroot" ∧
    (NewBootstrap linux m sources).1.build = none ∧
    (NewBootstrap linux m sources).1.disableSelinux = true ∧
    (NewBootstrap linux m sources).1.containerBuildable = true ∧
    (NewBootstrap linux m sources).1.getContainerSources = sources ∧
    (NewBootstrap linux m sources).1.containerSpecs = [] ∧
    (∀ m1 : Manifest, (NewBootstrap linux m sources).2 = .ok m1 →
      (NewBootstrap linux m sources).1.manifest = some m.handle ∧
      m1.pipelines = m.pipelines ++ ["bootstrap-buildroot"]) ∧
    ((∃ m1 : Manifest, (NewBootstrap linux m sources).2 = .ok m1) ↔
      "bootstrap-buildroot" ∉ m.pipelines) ∧
    (∀ (bs : Base → OsbuildPipeline)
        (de : ContainerSpec → ContainerDeployOptions → Option String)
        (gd : List Directory → List DirectoryNodesStage) (inputs : Inputs)
        (spec : ContainerSpec) (b1 : BuildrootFromContainer) (pl : OsbuildPipeline),
      inputs.Containers = [spec] →
      (NewBootstrap linux m sources).1.serializeStart inputs = .ok b1 →
      b1.serialize bs de gd = .ok pl →
      (∀ s ∈ pl.Stages, s.isSELinux = true → s ∈ (bs b1.toBase).Stages) ∧
      ((∀ s ∈ (bs b1.toBase).Stages, s.isSELinux = false) →
        ∀ s ∈ pl.Stages, s.isSELinux = false)) := by
  have hreg : NewBootstrap linux m sources =
      ({ toBase := (m.addPipeline (NewBase "bootstrap-buildroot" none)).1
         runner := linux
         dependents := []
         containers := sources
         containerSpecs := []
         containerBuildable := true
         disableSelinux := true
         selinuxPolicy := ""
         copyFilesFrom := []
         ensureDirs := [] },
        (m.addPipeline (NewBase "bootstrap-buildroot" none)).2) := rfl
  refine ⟨?_, ?_, rfl, rfl, rfl, rfl, ?_, ?_, ?_⟩
  · rw [hreg]
    exact Manifest.addPipeline_name m _
  · rw [hreg]
    exact Manifest.addPipeline_build m _
  · intro m1 hm1
    rw [hreg] at hm1 ⊢
    by_cases hin : "bootstrap-buildroot" ∈ m.pipelines
    · rw [Manifest.addPipeline_of_registered m _ hin] at hm1
      cases hm1
    · rw [Manifest.addPipeline_of_new m _ hin] at hm1 ⊢
      have h1 := Except.ok.inj hm1
      subst h1
      exact ⟨rfl, rfl⟩
  · rw [hreg]
    by_cases hin : "bootstrap-buildroot" ∈ m.pipelines
    · rw [Manifest.addPipeline_of_registered m _ hin]
      simp [hin]
    · rw [Manifest.addPipeline_of_new m _ hin]
      simp [hin]
  intro bs de gd inputs spec b1 pl hin hstart hser
  obtain ⟨_, rfl⟩ := BuildrootFromContainer.ctr_serializeStart_ok_inv hstart
  have hadded := BuildrootFromContainer.serialize_disabled_stages (p := _) hin hser rfl
  constructor
  · intro s hs hsel
    rcases hadded s hs with h | h
    · exact h
    · rw [h] at hsel
      cases hsel
  · intro hbase s hs
    rcases hadded s hs with h | h
    · exact hbase s h
    · exact h

/-- C22, evaluated: the bootstrap root built from one source in an empty
Manifest is returned and, resolved with `containerInputs`, serializes to a
pipeline without SELinux stage. -/
theorem NewBootstrap_root_witness :
    ∃ (b1 : BuildrootFromContainer) (pl : OsbuildPipeline),
      (∃ m1, (NewBootstrap sampleRunner sampleManifest [sampleSource]).2 = .ok m1) ∧
      containerInputs.Containers = [sampleSpec] ∧
      (NewBootstrap sampleRunner sampleManifest [sampleSource]).1.serializeStart
        containerInputs = .ok b1 ∧
      b1.serialize sampleBaseSerialize acceptDeploy sampleGenDirs = .ok pl ∧
      ∀ s ∈ pl.Stages, s.isSELinux = false :=
  ⟨_, _, ⟨_, rfl⟩, rfl, rfl, rfl,
    ((NewBootstrap_root sampleRunner sampleManifest [sampleSource]).2.2.2.2.2.2.2.2
      sampleBaseSerialize acceptDeploy sampleGenDirs containerInputs sampleSpec _ _
      rfl rfl rfl).2 (by intro s hs; cases hs)⟩

/-! ## Dependents -/

/-- The receiver after `addDependent(dep)`, whatever the outcome of the call:
the append is the first statement of the body. -/
theorem BuildrootFromPackages.addDependent_fst (p : BuildrootFromPackages)
    (man : Manifest) (dep : Pipeline) :
    (p.addDependent man dep).1 = { p with dependents := p.dependents ++ [dep] } := by
  unfold BuildrootFromPackages.addDependent
  cases hm : p.manifest <;> simp [hm]

theorem BuildrootFromPackages.addDependent_of_manifest (p : BuildrootFromPackages)
    (man : Manifest) (dep : Pipeline) (h : Nat) (hm : p.manifest = some h)
    (hnew : dep.Name ∉ man.pipelines) :
    p.addDependent man dep =
      ({ p with dependents := p.dependents ++ [dep] },
        .ok { man with pipelines := man.pipelines ++ [dep.Name] }) := by
  simp [BuildrootFromPackages.addDependent, hm, Manifest.addPipeline, NewBase, hnew]

theorem BuildrootFromPackages.addDependent_of_registered (p : BuildrootFromPackages)
    (man : Manifest) (dep : Pipeline) (h : Nat) (hm : p.manifest = some h)
    (hreg : dep.Name ∈ man.pipelines) :
    p.addDependent man dep =
      ({ p with dependents := p.dependents ++ [dep] },
        .error "duplicate pipeline name in manifest") := by
  simp [BuildrootFromPackages.addDependent, hm, Manifest.addPipeline, NewBase, hreg]

theorem BuildrootFromPackages.addDependent_of_no_manifest (p : BuildrootFromPackages)
    (man : Manifest) (dep : Pipeline) (hm : p.manifest = none) :
    p.addDependent man dep =
      ({ p with dependents := p.dependents ++ [dep] },
        .error "cannot add build dependent without a manifest") := by
  simp [BuildrootFromPackages.addDependent, hm]

theorem BuildrootFromContainer.ctr_addDependent_fst (p : BuildrootFromContainer)
    (man : Manifest) (dep : Pipeline) :
    (p.addDependent man dep).1 = { p with dependents := p.dependents ++ [dep] } := by
  unfold BuildrootFromContainer.addDependent
  cases hm : p.manifest <;> simp [hm]

theorem BuildrootFromContainer.ctr_addDependent_of_manifest (p : BuildrootFromContainer)
    (man : Manifest) (dep : Pipeline) (h : Nat) (hm : p.manifest = some h)
    (hnew : dep.Name ∉ man.pipelines) :
    p.addDependent man dep =
      ({ p with dependents := p.dependents ++ [dep] },
        .ok { man with pipelines := man.pipelines ++ [dep.Name] }) := by
  simp [BuildrootFromContainer.addDependent, hm, Manifest.addPipeline, NewBase, hnew]

theorem BuildrootFromContainer.ctr_addDependent_of_registered (p : BuildrootFromContainer)
    (man : Manifest) (dep : Pipeline) (h : Nat) (hm : p.manifest = some h)
    (hreg : dep.Name ∈ man.pipelines) :
    p.addDependent man dep =
      ({ p with dependents := p.dependents ++ [dep] },
        .error "duplicate pipeline name in manifest") := by
  simp [BuildrootFromContainer.addDependent, hm, Manifest.addPipeline, NewBase, hreg]

theorem BuildrootFromContainer.ctr_addDependent_of_no_manifest (p : BuildrootFromContainer)
    (man : Manifest) (dep : Pipeline) (hm : p.manifest = none) :
    p.addDependent man dep =
      ({ p with dependents := p.dependents ++ [dep] },
        .error "cannot add build dependent without a manifest") := by
  simp [BuildrootFromContainer.addDependent, hm]

/-- When `addDependent(dep)` fails on a package-based root: the root has no
owning Manifest, or the Manifest already has a pipeline of the name of `dep`. -/
theorem BuildrootFromPackages.addDependent_fails_iff (p : BuildrootFromPackages)
    (man : Manifest) (dep : Pipeline) :
    (∃ e, (p.addDependent man dep).2 = .error e) ↔
      (p.manifest = none ∨ dep.Name ∈ man.pipelines) := by
  cases hm : p.manifest with
  | none => simp [BuildrootFromPackages.addDependent_of_no_manifest p man dep hm]
  | some h =>
    by_cases hreg : dep.Name ∈ man.pipelines
    · simp [BuildrootFromPackages.addDependent_of_registered p man dep h hm hreg, hreg]
    · simp [BuildrootFromPackages.addDependent_of_manifest p man dep h hm hreg, hreg]

/-- When `addDependent(dep)` fails on a container-based root. -/
theorem BuildrootFromContainer.ctr_addDependent_fails_iff (p : BuildrootFromContainer)
    (man : Manifest) (dep : Pipeline) :
    (∃ e, (p.addDependent man dep).2 = .error e) ↔
      (p.manifest = none ∨ dep.Name ∈ man.pipelines) := by
  cases hm : p.manifest with
  | none => simp [BuildrootFromContainer.ctr_addDependent_of_no_manifest p man dep hm]
  | some h =>
    by_cases hreg : dep.Name ∈ man.pipelines
    · simp [BuildrootFromContainer.ctr_addDependent_of_registered p man dep h hm hreg, hreg]
    · simp [BuildrootFromContainer.ctr_addDependent_of_manifest p man dep h hm hreg, hreg]

/-- A successful `addDependent(dep)` on a package-based root: the name of `dep`
was not registered, and is registered afterwards, behind the earlier names. -/
theorem BuildrootFromPackages.addDependent_ok_inv {p : BuildrootFromPackages}
    {man man1 : Manifest} {dep : Pipeline} (h : (p.addDependent man dep).2 = .ok man1) :
    dep.Name ∉ man.pipelines ∧
      man1 = { man with pipelines := man.pipelines ++ [dep.Name] } := by
  cases hm : p.manifest with
  | none =>
    rw [BuildrootFromPackages.addDependent_of_no_manifest p man dep hm] at h
    cases h
  | some k =>
    by_cases hreg : dep.Name ∈ man.pipelines
    · rw [BuildrootFromPackages.addDependent_of_registered p man dep k hm hreg] at h
      cases h
    · rw [BuildrootFromPackages.addDependent_of_manifest p man dep k hm hreg] at h
      exact ⟨hreg, (Except.ok.inj h).symm⟩

/-- A successful `addDependent(dep)` on a container-based root. -/
theorem BuildrootFromContainer.ctr_addDependent_ok_inv {p : BuildrootFromContainer}
    {man man1 : Manifest} {dep : Pipeline} (h : (p.addDependent man dep).2 = .ok man1) :
    dep.Name ∉ man.pipelines ∧
      man1 = { man with pipelines := man.pipelines ++ [dep.Name] } := by
  cases hm : p.manifest with
  | none =>
    rw [BuildrootFromContainer.ctr_addDependent_of_no_manifest p man dep hm] at h
    cases h
  | some k =>
    by_cases hreg : dep.Name ∈ man.pipelines
    · rw [BuildrootFromContainer.ctr_addDependent_of_registered p man dep k hm hreg] at h
      cases h
    · rw [BuildrootFromContainer.ctr_addDependent_of_manifest p man dep k hm hreg] at h
      exact ⟨hreg, (Except.ok.inj h).symm⟩

/-- C23 (as stated, refuted): after `addDependent(os)` has succeeded on
`sampleRoot`, the root still has its owning Manifest, and `addDependent` of
another pipeline that is also named `os` fails fatally. -/
theorem addDependent_fails_on_registered_name :
    ∃ (r1 : BuildrootFromPackages) (m1 : Manifest) (e : String),
      sampleRoot.addDependent registeredManifest osPipeline = (r1, .ok m1) ∧
      r1.manifest = some m1.handle ∧
      (r1.addDependent m1 otherOsPipeline).2 = .error e :=
  ⟨_, _, _, rfl, rfl, rfl⟩

/-- C23 (amended): for both build-root variants, `addDependent(dep)` fails
fatally if and only if the build root has no owning Manifest or the owning
Manifest already has a pipeline with the name of `dep`; without an owning
Manifest the message is "cannot add build dependent without a manifest". -/
theorem addDependent_fails_iff_no_manifest_or_registered :
    (∀ (p : BuildrootFromPackages) (man : Manifest) (dep : Pipeline),
      ((∃ e, (p.addDependent man dep).2 = .error e) ↔
        (p.manifest = none ∨ dep.Name ∈ man.pipelines)) ∧
      (p.manifest = none →
        (p.addDependent man dep).2 =
          .error "cannot add build dependent without a manifest") ∧
      ((∃ man1, (p.addDependent man dep).2 = .ok man1) ↔
        (p.manifest ≠ none ∧ dep.Name ∉ man.pipelines))) ∧
    (∀ (p : BuildrootFromContainer) (man : Manifest) (dep : Pipeline),
      ((∃ e, (p.addDependent man dep).2 = .error e) ↔
        (p.manifest = none ∨ dep.Name ∈ man.pipelines)) ∧
      (p.manifest = none →
        (p.addDependent man dep).2 =
          .error "cannot add build dependent without a manifest") ∧
      ((∃ man1, (p.addDependent man dep).2 = .ok man1) ↔
        (p.manifest ≠ none ∧ dep.Name ∉ man.pipelines))) := by
  constructor
  · intro p man dep
    refine ⟨BuildrootFromPackages.addDependent_fails_iff p man dep, ?_, ?_⟩
    · intro hm
      rw [BuildrootFromPackages.addDependent_of_no_manifest p man dep hm]
    · have hfail := BuildrootFromPackages.addDependent_fails_iff p man dep
      constructor
      · rintro ⟨man1, hok⟩
        constructor
        · intro hm
          exact absurd (hfail.mpr (Or.inl hm)) (by rw [hok]; rintro ⟨e, he⟩; cases he)
        · exact (BuildrootFromPackages.addDependent_ok_inv hok).1
      · rintro ⟨hm, hnew⟩
        cases hres : (p.addDependent man dep).2 with
        | ok man1 => exact ⟨man1, rfl⟩
        | error e =>
          rcases hfail.mp ⟨e, hres⟩ with h | h
          · exact absurd h hm
          · exact absurd h hnew
  · intro p man dep
    refine ⟨BuildrootFromContainer.ctr_addDependent_fails_iff p man dep, ?_, ?_⟩
    · intro hm
      rw [BuildrootFromContainer.ctr_addDependent_of_no_manifest p man dep hm]
    · have hfail := BuildrootFromContainer.ctr_addDependent_fails_iff p man dep
      constructor
      · rintro ⟨man1, hok⟩
        constructor
        · intro hm
          exact absurd (hfail.mpr (Or.inl hm)) (by rw [hok]; rintro ⟨e, he⟩; cases he)
        · exact (BuildrootFromContainer.ctr_addDependent_ok_inv hok).1
      · rintro ⟨hm, hnew⟩
        cases hres : (p.addDependent man dep).2 with
        | ok man1 => exact ⟨man1, rfl⟩
        | error e =>
          rcases hfail.mp ⟨e, hres⟩ with h | h
          · exact absurd h hm
          · exact absurd h hnew

/-- C23 (amended), evaluated: the roots without Manifest fail, the roots with a
Manifest fail for the registered name `build` and succeed for the new name
`os`. -/
theorem addDependent_fails_iff_no_manifest_or_registered_witness :
    (detachedRoot.addDependent registeredManifest osPipeline).2 =
      .error "cannot add build dependent without a manifest" ∧
    (detachedContainerRoot.addDependent registeredManifest osPipeline).2 =
      .error "cannot add build dependent without a manifest" ∧
    (∃ e, (sampleRoot.addDependent osManifest osPipeline).2 = .error e) ∧
    (∃ e, (sampleContainerRoot.addDependent osManifest osPipeline).2 = .error e) ∧
    (∃ man1, (sampleRoot.addDependent registeredManifest osPipeline).2 = .ok man1) ∧
    (∃ man1, (sampleContainerRoot.addDependent registeredManifest osPipeline).2 = .ok man1) :=
  ⟨(addDependent_fails_iff_no_manifest_or_registered.1 detachedRoot registeredManifest
      osPipeline).2.1 rfl,
    (addDependent_fails_iff_no_manifest_or_registered.2 detachedContainerRoot registeredManifest
      osPipeline).2.1 rfl,
    (addDependent_fails_iff_no_manifest_or_registered.1 sampleRoot osManifest
      osPipeline).1.mpr (Or.inr (by decide)),
    (addDependent_fails_iff_no_manifest_or_registered.2 sampleContainerRoot osManifest
      osPipeline).1.mpr (Or.inr (by decide)),
    (addDependent_fails_iff_no_manifest_or_registered.1 sampleRoot registeredManifest
      osPipeline).2.2.mpr ⟨by decide, by decide⟩,
    (addDependent_fails_iff_no_manifest_or_registered.2 sampleContainerRoot registeredManifest
      osPipeline).2.2.mpr ⟨by decide, by decide⟩⟩

/-! ## The dependents of the build roots of one Manifest -/

theorem build_addDependent_dependents (b : Build) (man : Manifest) (dep : Pipeline) :
    (b.addDependent man dep).1.dependents = b.dependents ++ [dep] := by
  cases b with
  | packages p =>
    show (p.addDependent man dep).1.dependents = _
    rw [BuildrootFromPackages.addDependent_fst]
    rfl
  | container p =>
    show (p.addDependent man dep).1.dependents = _
    rw [BuildrootFromContainer.ctr_addDependent_fst]
    rfl

theorem build_addDependent_ok_inv {b : Build} {man man1 : Manifest} {dep : Pipeline}
    (h : (b.addDependent man dep).2 = .ok man1) :
    dep.Name ∉ man.pipelines ∧
      man1 = { man with pipelines := man.pipelines ++ [dep.Name] } := by
  cases b with
  | packages p => exact BuildrootFromPackages.addDependent_ok_inv h
  | container p => exact BuildrootFromContainer.ctr_addDependent_ok_inv h

theorem build_addDependent_of_registered (b : Build) (man : Manifest) (dep : Pipeline)
    (hreg : dep.Name ∈ man.pipelines) : ∃ e, (b.addDependent man dep).2 = .error e := by
  cases b with
  | packages p =>
    exact (BuildrootFromPackages.addDependent_fails_iff p man dep).mpr (Or.inr hreg)
  | container p =>
    exact (BuildrootFromContainer.ctr_addDependent_fails_iff p man dep).mpr (Or.inr hreg)

/-- One successful `addDependent` call on one of the build roots of a
Manifest: the name was not registered; it is registered afterwards; and the
dependents recorded by all the roots are those recorded before, and the new
one. -/
theorem addDependentAt_ok_inv (dep : Pipeline) (man man1 : Manifest) :
    ∀ (roots : List Build) (i : Nat),
      (addDependentAt roots i man dep).2 = .ok man1 →
      dep.Name ∉ man.pipelines ∧
      man1 = { man with pipelines := man.pipelines ++ [dep.Name] } ∧
      (dependentNames (addDependentAt roots i man dep).1).Perm
        (dep.Name :: dependentNames roots) := by
  intro roots
  induction roots with
  | nil =>
    intro i h
    cases h
  | cons b rest ih =>
    intro i h
    cases i with
    | zero =>
      obtain ⟨hnew, hman⟩ := build_addDependent_ok_inv (b := b) h
      refine ⟨hnew, hman, ?_⟩
      show (((b.addDependent man dep).1.dependents.map Pipeline.Name) ++
        dependentNames rest).Perm (dep.Name :: (b.dependents.map Pipeline.Name ++
          dependentNames rest))
      rw [build_addDependent_dependents]
      simp only [List.map_append, List.map_cons, List.map_nil, List.append_assoc,
        List.singleton_append]
      exact List.perm_middle
    | succ i =>
      obtain ⟨hnew, hman, hperm⟩ := ih i h
      refine ⟨hnew, hman, ?_⟩
      show ((b.dependents.map Pipeline.Name) ++
        dependentNames (addDependentAt rest i man dep).1).Perm
          (dep.Name :: (b.dependents.map Pipeline.Name ++ dependentNames rest))
      exact (List.Perm.append_left _ hperm).trans List.perm_middle

/-- A sequence of successful `addDependent` calls on the build roots of one
Manifest: the names registered are those of the pipelines passed, in call
order, and the dependents recorded by all the roots are those from before and
the pipelines passed. -/
theorem addDependentCalls_ok_inv (calls : List (Nat × Pipeline)) :
    ∀ (roots roots1 : List Build) (man man1 : Manifest),
      addDependentCalls roots man calls = (roots1, .ok man1) →
      (dependentNames roots).Nodup →
      (∀ n ∈ dependentNames roots, n ∈ man.pipelines) →
      (dependentNames roots1).Nodup ∧
      (∀ n ∈ dependentNames roots1, n ∈ man1.pipelines) ∧
      (dependentNames roots1).Perm
        (dependentNames roots ++ calls.map (fun c => c.2.Name)) ∧
      man1.pipelines = man.pipelines ++ calls.map (fun c => c.2.Name) ∧
      man1.handle = man.handle := by
  induction calls with
  | nil =>
    intro roots roots1 man man1 h hnodup hreg
    simp only [addDependentCalls, Prod.mk.injEq, Except.ok.injEq] at h
    obtain ⟨rfl, rfl⟩ := h
    simp [hnodup]
    exact hreg
  | cons c cs ih =>
    intro roots roots1 man man1 h hnodup hreg
    rw [addDependentCalls] at h
    cases hres : (addDependentAt roots c.1 man c.2).2 with
    | error e =>
      have hpair : addDependentAt roots c.1 man c.2 =
          ((addDependentAt roots c.1 man c.2).1, .error e) := by
        rw [← hres]
      rw [hpair] at h
      simp at h
    | ok man2 =>
      have hpair : addDependentAt roots c.1 man c.2 =
          ((addDependentAt roots c.1 man c.2).1, .ok man2) := by
        rw [← hres]
      rw [hpair] at h
      simp only [] at h
      obtain ⟨hnew, hman2, hperm⟩ := addDependentAt_ok_inv c.2 man man2 roots c.1 hres
      have hnotin : c.2.Name ∉ dependentNames roots := fun hin => hnew (hreg _ hin)
      have hnodup2 : (dependentNames (addDependentAt roots c.1 man c.2).1).Nodup :=
        hperm.nodup_iff.mpr (List.nodup_cons.mpr ⟨hnotin, hnodup⟩)
      have hreg2 : ∀ n ∈ dependentNames (addDependentAt roots c.1 man c.2).1,
          n ∈ man2.pipelines := by
        intro n hn
        rw [hman2]
        rcases List.mem_cons.mp (hperm.subset hn) with hn1 | hn1
        · simp [hn1]
        · simp [hreg n hn1]
      obtain ⟨h1, h2, h3, h4, h5⟩ := ih _ roots1 man2 man1 h hnodup2 hreg2
      refine ⟨h1, h2, ?_, ?_, ?_⟩
      · refine h3.trans ?_
        simp only [List.map_cons]
        exact (List.Perm.append_right _ hperm).trans (by
          simp only [List.cons_append]
          exact List.perm_middle.symm)
      · rw [h4, hman2]
        simp
      · rw [h5, hman2]

/-- C24 (as stated, refuted): `sampleRoot` and `secondRoot` are build roots of
one Manifest. `addDependent(os)` succeeds on `sampleRoot`. A second
`addDependent(os)` on `sampleRoot` fails fatally, and so does
`addDependent(os)` on `secondRoot`; but each failed call has by then appended
`os` to the dependents list of its receiver: `os` is twice in the list of
`sampleRoot`, and it is in the list of `secondRoot` as well as in that of
`sampleRoot`. -/
theorem dependent_recorded_twice_at_panic :
    ∃ (r1 r2 r3 : BuildrootFromPackages) (m1 : Manifest) (e2 e3 : String),
      sampleRoot.manifest = secondRoot.manifest ∧
      sampleRoot.addDependent twoRootsManifest osPipeline = (r1, .ok m1) ∧
      r1.addDependent m1 osPipeline = (r2, .error e2) ∧
      secondRoot.addDependent m1 osPipeline = (r3, .error e3) ∧
      r1.dependents.map Pipeline.Name = ["os"] ∧
      r2.dependents.map Pipeline.Name = ["os", "os"] ∧
      r3.dependents.map Pipeline.Name = ["os"] :=
  ⟨_, _, _, _, _, _, rfl, rfl, rfl, rfl, rfl, rfl, rfl⟩

/-- C24 (amended): take the build roots of one Manifest in a state in which
no pipeline name is recorded twice among their dependents and every recorded
name is registered in the Manifest (as when the roots are fresh). After every
sequence of `addDependent` calls on these roots that all succeed, again no
name is recorded twice among the dependents of all the roots, so every
dependent is recorded by at most one build root and at most once; the
recorded names are those from before and those of the pipelines passed; and
the Manifest has registered the names passed, in call order. A further
`addDependent` of a pipeline whose name is already recorded fails fatally on
every build root, so nothing is registered a second time; but the receiver of
the failed call has by then appended the pipeline to its dependents list. -/
theorem addDependent_calls_record_once (roots roots1 : List Build) (man man1 : Manifest)
    (calls : List (Nat × Pipeline))
    (hnodup : (dependentNames roots).Nodup)
    (hreg : ∀ n ∈ dependentNames roots, n ∈ man.pipelines)
    (hok : addDependentCalls roots man calls = (roots1, .ok man1)) :
    (dependentNames roots1).Nodup ∧
    (∀ n ∈ dependentNames roots1, n ∈ man1.pipelines) ∧
    (dependentNames roots1).Perm (dependentNames roots ++ calls.map (fun c => c.2.Name)) ∧
    man1.pipelines = man.pipelines ++ calls.map (fun c => c.2.Name) ∧
    (∀ (b : Build) (dep : Pipeline), dep.Name ∈ dependentNames roots1 →
      (∃ e, (b.addDependent man1 dep).2 = .error e) ∧
      (b.addDependent man1 dep).1.dependents = b.dependents ++ [dep]) := by
  obtain ⟨h1, h2, h3, h4, _⟩ := addDependentCalls_ok_inv calls roots roots1 man man1 hok
    hnodup hreg
  refine ⟨h1, h2, h3, h4, ?_⟩
  intro b dep hdep
  exact ⟨build_addDependent_of_registered b man1 dep (h2 _ hdep),
    build_addDependent_dependents b man1 dep⟩

/-- C24 (amended), evaluated: `os` added to `sampleRoot` and `image` added to
the bootstrap root of the same Manifest. -/
theorem addDependent_calls_record_once_witness :
    ∃ (roots1 : List Build) (man1 : Manifest),
      addDependentCalls [Build.packages sampleRoot, Build.container sampleBootstrapRoot]
        bootstrapManifest [(0, osPipeline), (1, imagePipeline)] = (roots1, .ok man1) ∧
      (dependentNames roots1).Nodup ∧
      man1.pipelines = ["build", "bootstrap-buildroot", "os", "image"] ∧
      ∃ e, ((Build.packages sampleRoot).addDependent man1 imagePipeline).2 = .error e :=
  ⟨_, _, rfl,
    (addDependent_calls_record_once
      [Build.packages sampleRoot, Build.container sampleBootstrapRoot] _ bootstrapManifest _
      [(0, osPipeline), (1, imagePipeline)] (by decide) (by decide) rfl).1,
    (addDependent_calls_record_once
      [Build.packages sampleRoot, Build.container sampleBootstrapRoot] _ bootstrapManifest _
      [(0, osPipeline), (1, imagePipeline)] (by decide) (by decide) rfl).2.2.2.1,
    ((addDependent_calls_record_once
      [Build.packages sampleRoot, Build.container sampleBootstrapRoot] _ bootstrapManifest _
      [(0, osPipeline), (1, imagePipeline)] (by decide) (by decide) rfl).2.2.2.2
        (Build.packages sampleRoot) imagePipeline (by decide)).1⟩

/-- C28 (as stated, refuted): `sampleContainerRoot` has an owning Manifest.
After `addDependent(os)` has succeeded on it, a second `addDependent(os)` does
not register `os` in the Manifest: the call fails fatally. -/
theorem addDependent_registered_name_not_registered_again :
    ∃ (r1 : BuildrootFromContainer) (m1 : Manifest) (e : String),
      sampleContainerRoot.addDependent registeredManifest osPipeline = (r1, .ok m1) ∧
      r1.manifest = some m1.handle ∧
      (r1.addDependent m1 osPipeline).2 = .error e ∧
      ¬ ∃ m2, (r1.addDependent m1 osPipeline).2 = .ok m2 :=
  ⟨_, _, _, rfl, rfl, rfl, by rintro ⟨m2, h⟩; cases h⟩

/-- C28 (amended): for both build-root variants, `addDependent(dep)` leaves
the root with the previous dependents followed by `dep` and every other field
as it was (the list is one longer and the earlier dependents are at their
positions), whatever the outcome of the call. With an owning Manifest that has
no pipeline of the name of `dep` the call succeeds and registers that name in
the Manifest, behind the names registered before; with an owning Manifest that
already has a pipeline of that name the call fails fatally and registers
nothing. -/
theorem addDependent_appends :
    (∀ (p : BuildrootFromPackages) (man : Manifest) (dep : Pipeline),
      (p.addDependent man dep).1 = { p with dependents := p.dependents ++ [dep] } ∧
      (p.addDependent man dep).1.dependents.length = p.dependents.length + 1 ∧
      (∀ i : Nat, i < p.dependents.length →
        (p.addDependent man dep).1.dependents[i]? = p.dependents[i]?) ∧
      (p.addDependent man dep).1.dependents[p.dependents.length]? = some dep ∧
      (∀ h : Nat, p.manifest = some h → dep.Name ∉ man.pipelines →
        (p.addDependent man dep).2 =
          .ok { man with pipelines := man.pipelines ++ [dep.Name] }) ∧
      (∀ h : Nat, p.manifest = some h → dep.Name ∈ man.pipelines →
        ∃ e, (p.addDependent man dep).2 = .error e)) ∧
    (∀ (p : BuildrootFromContainer) (man : Manifest) (dep : Pipeline),
      (p.addDependent man dep).1 = { p with dependents := p.dependents ++ [dep] } ∧
      (p.addDependent man dep).1.dependents.length = p.dependents.length + 1 ∧
      (∀ i : Nat, i < p.dependents.length →
        (p.addDependent man dep).1.dependents[i]? = p.dependents[i]?) ∧
      (p.addDependent man dep).1.dependents[p.dependents.length]? = some dep ∧
      (∀ h : Nat, p.manifest = some h → dep.Name ∉ man.pipelines →
        (p.addDependent man dep).2 =
          .ok { man with pipelines := man.pipelines ++ [dep.Name] }) ∧
      (∀ h : Nat, p.manifest = some h → dep.Name ∈ man.pipelines →
        ∃ e, (p.addDependent man dep).2 = .error e)) := by
  constructor
  · intro p man dep
    rw [BuildrootFromPackages.addDependent_fst]
    refine ⟨rfl, by simp, ?_, by simp, ?_, ?_⟩
    · intro i hi
      exact List.getElem?_append_left hi
    · intro h hm hnew
      rw [BuildrootFromPackages.addDependent_of_manifest p man dep h hm hnew]
    · intro h hm hreg
      rw [BuildrootFromPackages.addDependent_of_registered p man dep h hm hreg]
      exact ⟨_, rfl⟩
  · intro p man dep
    rw [BuildrootFromContainer.ctr_addDependent_fst]
    refine ⟨rfl, by simp, ?_, by simp, ?_, ?_⟩
    · intro i hi
      exact List.getElem?_append_left hi
    · intro h hm hnew
      rw [BuildrootFromContainer.ctr_addDependent_of_manifest p man dep h hm hnew]
    · intro h hm hreg
      rw [BuildrootFromContainer.ctr_addDependent_of_registered p man dep h hm hreg]
      exact ⟨_, rfl⟩

/-- C28 (amended), evaluated: `image` added to a root that already has the
dependent `os`, for each variant, and registered in the Manifest. -/
theorem addDependent_appends_witness :
    ((sampleRoot.addDependent registeredManifest osPipeline).1.addDependent osManifest
      imagePipeline).1.dependents.map Pipeline.Name = ["os", "image"] ∧
    ((sampleContainerRoot.addDependent registeredManifest osPipeline).1.addDependent
      osManifest imagePipeline).1.dependents.map Pipeline.Name = ["os", "image"] ∧
    ((sampleRoot.addDependent registeredManifest osPipeline).1.addDependent osManifest
      imagePipeline).2 = .ok { handle := 0, pipelines := ["build", "os", "image"] } := by
  refine ⟨?_, ?_, ?_⟩
  · rw [(addDependent_appends.1 (sampleRoot.addDependent registeredManifest osPipeline).1
      osManifest imagePipeline).1]
    rfl
  · rw [(addDependent_appends.2 (sampleContainerRoot.addDependent registeredManifest
      osPipeline).1 osManifest imagePipeline).1]
    rfl
  · rw [(addDependent_appends.1 (sampleRoot.addDependent registeredManifest osPipeline).1
      osManifest imagePipeline).2.2.2.2.1 0 rfl (by decide)]
    rfl

/-- C29: for both build-root variants, when `addDependent(dep)` fails because
the build root has no owning Manifest, the dependent is already at the end of
the dependents list, so the root after the failed call is not the root before
it. -/
theorem addDependent_not_atomic :
    (∀ (p : BuildrootFromPackages) (man : Manifest) (dep : Pipeline),
      p.manifest = none →
      (p.addDependent man dep).2 = .error "cannot add build dependent without a manifest" ∧
      (p.addDependent man dep).1.dependents = p.dependents ++ [dep] ∧
      (p.addDependent man dep).1 ≠ p) ∧
    (∀ (p : BuildrootFromContainer) (man : Manifest) (dep : Pipeline),
      p.manifest = none →
      (p.addDependent man dep).2 = .error "cannot add build dependent without a manifest" ∧
      (p.addDependent man dep).1.dependents = p.dependents ++ [dep] ∧
      (p.addDependent man dep).1 ≠ p) := by
  constructor
  · intro p man dep hm
    rw [BuildrootFromPackages.addDependent_of_no_manifest p man dep hm]
    refine ⟨rfl, rfl, ?_⟩
    intro heq
    have hlen := congrArg (fun q : BuildrootFromPackages => q.dependents.length) heq
    simp at hlen
  · intro p man dep hm
    rw [BuildrootFromContainer.ctr_addDependent_of_no_manifest p man dep hm]
    refine ⟨rfl, rfl, ?_⟩
    intro heq
    have hlen := congrArg (fun q : BuildrootFromContainer => q.dependents.length) heq
    simp at hlen

/-- C29, evaluated on the two roots without Manifest. -/
theorem addDependent_not_atomic_witness :
    detachedRoot.manifest = none ∧
    (detachedRoot.addDependent registeredManifest osPipeline).1.dependents.map Pipeline.Name =
      ["os"] ∧
    detachedContainerRoot.manifest = none ∧
    (detachedContainerRoot.addDependent registeredManifest osPipeline).1.dependents.map
      Pipeline.Name = ["os"] := by
  refine ⟨rfl, ?_, rfl, ?_⟩
  · rw [(addDependent_not_atomic.1 detachedRoot registeredManifest osPipeline rfl).2.1]
    rfl
  · rw [(addDependent_not_atomic.2 detachedContainerRoot registeredManifest osPipeline
      rfl).2.1]
    rfl

/-! ## Container sources -/

/-- C25 (as stated, refuted): `NewBuildFromContainer` called with no container
source gives a root whose `getContainerSources()` is empty, and `NewBootstrap`
called with two sources gives a root whose `getContainerSources()` has two
elements. -/
theorem container_sources_not_single :
    (NewBuildFromContainer sampleManifest sampleRunner [] none).1.getContainerSources.length = 0 ∧
    (NewBootstrap sampleRunner sampleManifest
      [sampleSource, sampleSource]).1.getContainerSources.length = 2 :=
  ⟨rfl, rfl⟩

/-- C25 (amended): a root created by `NewBuildFromContainer` or `NewBootstrap`
holds exactly the container sources passed to the constructor:
`getContainerSources()` returns that list, so its length is one exactly when
one source was passed. -/
theorem container_sources_as_passed (linux runner : Runner) (m : Manifest)
    (sources : List ContainerSourceSpec) (opts : Option BuildOptions) :
    (NewBuildFromContainer m runner sources opts).1.getContainerSources = sources ∧
    (NewBootstrap linux m sources).1.getContainerSources = sources ∧
    ((NewBuildFromContainer m runner sources opts).1.getContainerSources.length = 1 ↔
      sources.length = 1) ∧
    ((NewBootstrap linux m sources).1.getContainerSources.length = 1 ↔
      sources.length = 1) :=
  ⟨rfl, rfl, Iff.rfl, Iff.rfl⟩

/-! ## The SELinux policy name -/

theorem BuildrootFromPackages.callAll_selinuxPolicy (bs : Base → OsbuildPipeline)
    (cs : List LifecycleCall) :
    ∀ (p r : BuildrootFromPackages), p.callAll bs cs = .ok r →
      r.selinuxPolicy = p.selinuxPolicy := by
  induction cs with
  | nil =>
    intro p r h
    have : p = r := by simpa [BuildrootFromPackages.callAll] using h
    rw [this]
  | cons c cs ih =>
    intro p r h
    obtain ⟨q, hq, hr⟩ := BuildrootFromPackages.callAll_cons_inv h
    rw [ih q r hr]
    cases c with
    | serializeStart inputs =>
      obtain ⟨_, rfl⟩ := BuildrootFromPackages.serializeStart_ok_inv hq
      rfl
    | serialize =>
      obtain ⟨_, rfl⟩ := BuildrootFromPackages.call_serialize_inv hq
      rfl
    | serializeEnd =>
      obtain ⟨_, rfl⟩ := BuildrootFromPackages.serializeEnd_ok_inv hq
      rfl

theorem BuildrootFromContainer.ctr_callAll_selinuxPolicy (bs : Base → OsbuildPipeline)
    (de : ContainerSpec → ContainerDeployOptions → Option String)
    (gd : List Directory → List DirectoryNodesStage) (cs : List LifecycleCall) :
    ∀ (p r : BuildrootFromContainer), p.callAll bs de gd cs = .ok r →
      r.selinuxPolicy = p.selinuxPolicy := by
  induction cs with
  | nil =>
    intro p r h
    have : p = r := by simpa [BuildrootFromContainer.callAll] using h
    rw [this]
  | cons c cs ih =>
    intro p r h
    obtain ⟨q, hq, hr⟩ := BuildrootFromContainer.ctr_callAll_cons_inv h
    rw [ih q r hr]
    cases c with
    | serializeStart inputs =>
      obtain ⟨_, rfl⟩ := BuildrootFromContainer.ctr_serializeStart_ok_inv hq
      rfl
    | serialize =>
      rw [BuildrootFromContainer.ctr_call_serialize_inv hq]
    | serializeEnd =>
      obtain ⟨_, rfl⟩ := BuildrootFromContainer.ctr_serializeEnd_ok_inv hq
      rfl

theorem policyOrDefault_of_ne (s : String) (h : s ≠ "") : policyOrDefault s = s := by
  simp [policyOrDefault, h]

theorem policyOrDefault_ne_empty (s : String) : policyOrDefault s ≠ "" := by
  by_cases h : s = ""
  · simp [policyOrDefault, h]
  · simp [policyOrDefault, h]

/-- C26: `policyOrDefault(s)` is `s` for a non-empty `s` and `targeted` for the
empty string, so it is never empty and applying it twice changes nothing;
`NewBuild` and `NewBuildFromContainer` store
`policyOrDefault(opts.SELinuxPolicy)` (`targeted` for nil options) as the policy
name; and no successful serializeStart / serialize / serializeEnd call and no
`addDependent` call changes it. -/
theorem selinuxPolicy_stored :
    (∀ s : String, s ≠ "" → policyOrDefault s = s) ∧
    policyOrDefault "" = "targeted" ∧
    (∀ s : String, policyOrDefault s ≠ "") ∧
    (∀ s : String, policyOrDefault (policyOrDefault s) = policyOrDefault s) ∧
    (∀ (fr : List RepoConfig → String → List RepoConfig) (m : Manifest) (runner : Runner)
        (repos : List RepoConfig),
      (NewBuild fr m runner repos none).1.selinuxPolicy = "targeted" ∧
      ∀ o : BuildOptions,
        (NewBuild fr m runner repos (some o)).1.selinuxPolicy =
          policyOrDefault o.SELinuxPolicy) ∧
    (∀ (m : Manifest) (runner : Runner) (sources : List ContainerSourceSpec),
      (NewBuildFromContainer m runner sources none).1.selinuxPolicy = "targeted" ∧
      ∀ o : BuildOptions,
        (NewBuildFromContainer m runner sources (some o)).1.selinuxPolicy =
          policyOrDefault o.SELinuxPolicy) ∧
    (∀ (bs : Base → OsbuildPipeline) (p r : BuildrootFromPackages) (cs : List LifecycleCall),
      p.callAll bs cs = .ok r → r.selinuxPolicy = p.selinuxPolicy) ∧
    (∀ (bs : Base → OsbuildPipeline)
        (de : ContainerSpec → ContainerDeployOptions → Option String)
        (gd : List Directory → List DirectoryNodesStage) (p r : BuildrootFromContainer)
        (cs : List LifecycleCall),
      p.callAll bs de gd cs = .ok r → r.selinuxPolicy = p.selinuxPolicy) ∧
    (∀ (p : BuildrootFromPackages) (man : Manifest) (dep : Pipeline),
      (p.addDependent man dep).1.selinuxPolicy = p.selinuxPolicy) ∧
    (∀ (p : BuildrootFromContainer) (man : Manifest) (dep : Pipeline),
      (p.addDependent man dep).1.selinuxPolicy = p.selinuxPolicy) := by
  refine ⟨policyOrDefault_of_ne, rfl, policyOrDefault_ne_empty, ?_, ?_, ?_, ?_, ?_, ?_, ?_⟩
  · intro s
    exact policyOrDefault_of_ne _ (policyOrDefault_ne_empty s)
  · intro fr m runner repos
    exact ⟨rfl, fun _ => rfl⟩
  · intro m runner sources
    exact ⟨rfl, fun _ => rfl⟩
  · intro bs p r cs h
    exact BuildrootFromPackages.callAll_selinuxPolicy bs cs p r h
  · intro bs de gd p r cs h
    exact BuildrootFromContainer.ctr_callAll_selinuxPolicy bs de gd cs p r h
  · intro p man dep
    rw [BuildrootFromPackages.addDependent_fst p man dep]
  · intro p man dep
    rw [BuildrootFromContainer.ctr_addDependent_fst p man dep]

/-- C26, evaluated: the policy `mls` is stored and is still there after a full
resolution cycle. -/
theorem selinuxPolicy_stored_witness :
    policyOrDefault "mls" = "mls" ∧
    ∃ r : BuildrootFromPackages,
      (NewBuild keepAllRepos sampleManifest sampleRunner []
        (some { SELinuxPolicy := "mls" })).1.callAll sampleBaseSerialize
          [LifecycleCall.serializeStart sampleInputs, LifecycleCall.serialize,
            LifecycleCall.serializeEnd] = .ok r ∧
      r.selinuxPolicy = "mls" :=
  ⟨selinuxPolicy_stored.1 "mls" (by decide), _, rfl,
    selinuxPolicy_stored.2.2.2.2.2.2.1 sampleBaseSerialize
      (NewBuild keepAllRepos sampleManifest sampleRunner [] (some { SELinuxPolicy := "mls" })).1
      _ [LifecycleCall.serializeStart sampleInputs, LifecycleCall.serialize,
        LifecycleCall.serializeEnd] rfl⟩

/-! ## Resolution cycles -/

/-- One full cycle on an unresolved root, followed by further calls: the
cycle leaves the root with the repositories of its inputs added. -/
theorem BuildrootFromPackages.callAll_cycle (bs : Base → OsbuildPipeline)
    (p : BuildrootFromPackages) (inputs : Inputs) (rest : List LifecycleCall)
    (hun : p.packageSpecs = []) (hne : inputs.Depsolved.Packages ≠ []) :
    p.callAll bs
        (LifecycleCall.serializeStart inputs :: LifecycleCall.serializeEnd :: rest) =
      BuildrootFromPackages.callAll bs
        { p with repos := p.repos ++ inputs.Depsolved.Repos } rest := by
  have hend : ({ p with
      packageSpecs := inputs.Depsolved.Packages
      repos := p.repos ++ inputs.Depsolved.Repos } : BuildrootFromPackages).serializeEnd =
      .ok { p with repos := p.repos ++ inputs.Depsolved.Repos } := by
    rw [BuildrootFromPackages.serializeEnd_of_nonempty _ hne]
    simp [hun]
  rw [BuildrootFromPackages.callAll, BuildrootFromPackages.call,
    BuildrootFromPackages.serializeStart_of_empty p inputs hun]
  simp only []
  rw [BuildrootFromPackages.callAll, BuildrootFromPackages.call, hend]

/-- Any number of full cycles on an unresolved root: the repositories of all
cycles are added, in cycle order. -/
theorem BuildrootFromPackages.callAll_cycles (bs : Base → OsbuildPipeline)
    (cycles : List Inputs) :
    ∀ p : BuildrootFromPackages, p.packageSpecs = [] →
      (∀ i ∈ cycles, i.Depsolved.Packages ≠ []) →
      p.callAll bs (cycleCalls cycles) =
        .ok { p with
          repos := p.repos ++ (cycles.map fun i => i.Depsolved.Repos).flatten } := by
  induction cycles with
  | nil =>
    intro p _ _
    simp [cycleCalls, BuildrootFromPackages.callAll]
  | cons inputs rest ih =>
    intro p hun hall
    rw [cycleCalls, BuildrootFromPackages.callAll_cycle bs p inputs _ hun
      (hall inputs (List.mem_cons_self _ _))]
    rw [ih { p with repos := p.repos ++ inputs.Depsolved.Repos } hun
      (fun i hi => hall i (List.mem_cons_of_mem _ hi))]
    simp [List.append_assoc]

/-- C30: on an unresolved package-based root, `serializeStart(inputs)` with a
non-empty package list followed by `serializeEnd()` succeeds and gives the
original root with `inputs.Depsolved.Repos` added at the end of the repository
list; the result is the original root if and only if `inputs.Depsolved.Repos`
is empty; and any number of such cycles in a row leaves the original root with
the repositories of all the cycles added, in cycle order. -/
theorem start_end_cycle (bs : Base → OsbuildPipeline) (p : BuildrootFromPackages)
    (inputs : Inputs) (hun : p.packageSpecs = [])
    (hne : inputs.Depsolved.Packages ≠ []) :
    (∃ p1 p2 : BuildrootFromPackages,
      p.serializeStart inputs = .ok p1 ∧ p1.serializeEnd = .ok p2 ∧
      p2 = { p with repos := p.repos ++ inputs.Depsolved.Repos } ∧
      (p2 = p ↔ inputs.Depsolved.Repos = [])) ∧
    (∀ cycles : List Inputs, (∀ i ∈ cycles, i.Depsolved.Packages ≠ []) →
      p.callAll bs (cycleCalls cycles) =
        .ok { p with
          repos := p.repos ++ (cycles.map fun i => i.Depsolved.Repos).flatten }) := by
  constructor
  · refine ⟨_, _, BuildrootFromPackages.serializeStart_of_empty p inputs hun,
      BuildrootFromPackages.serializeEnd_of_nonempty _ hne, ?_, ?_⟩
    · simp [hun]
    · constructor
      · intro heq
        have hrepos := congrArg (fun q : BuildrootFromPackages => q.repos) heq
        simpa using hrepos
      · intro hnone
        rcases p with ⟨b, r, d, rp, ps, cb, ds, sp⟩
        simp only at hun
        subst hun
        simp [hnone]
  · intro cycles hall
    exact BuildrootFromPackages.callAll_cycles bs cycles p hun hall

/-- C30, evaluated on the fresh root: a cycle with a repository changes the
root, a cycle without one does not, and two cycles add both repositories. -/
theorem start_end_cycle_witness :
    sampleRoot.packageSpecs = [] ∧
    sampleInputs.Depsolved.Packages ≠ [] ∧
    (∃ r : BuildrootFromPackages,
      sampleRoot.callAll sampleBaseSerialize (cycleCalls [sampleInputs, secondInputs]) = .ok r ∧
      r.repos.map RepoConfig.Id = ["baseos", "appstream"] ∧ r.packageSpecs = []) ∧
    (∃ p1 p2 : BuildrootFromPackages,
      sampleRoot.serializeStart packagesOnlyInputs = .ok p1 ∧ p1.serializeEnd = .ok p2 ∧
      p2 = sampleRoot) := by
  have hne : sampleInputs.Depsolved.Packages ≠ [] := by decide
  have hcycles := (start_end_cycle sampleBaseSerialize sampleRoot sampleInputs rfl hne).2
    [sampleInputs, secondInputs] (by decide)
  refine ⟨rfl, hne, ⟨_, hcycles, by decide, rfl⟩, ?_⟩
  obtain ⟨p1, p2, h1, h2, _, hiff⟩ :=
    (start_end_cycle sampleBaseSerialize sampleRoot packagesOnlyInputs rfl (by decide)).1
  exact ⟨p1, p2, h1, h2, hiff.mpr rfl⟩

end manifest

/-! ## Conflicting ID parsing rules -/

namespace distroidparser

/-- C27: when a parser is built from the same rule twice and the rule matches
the string, `Parse` fails fatally instead of returning a match; so it does for
the rule that matches `rhel-90`, applied to `rhel-90`. -/
theorem Parse_double_match_panics :
    (∀ (rule : ParserFunc) (idStr : String) (id : ID), rule idStr = some id →
      (New [rule, rule]).Parse idStr = .error "distro ID was matched by multiple parsers") ∧
    rhel90Rule "rhel-90" = some { Name := "rhel", MajorVersion := 9, MinorVersion := 0 } ∧
    (New [rhel90Rule, rhel90Rule]).Parse "rhel-90" =
      .error "distro ID was matched by multiple parsers" ∧
    (New [rhel90Rule]).Parse "rhel-90" =
      .ok (some { Name := "rhel", MajorVersion := 9, MinorVersion := 0 }) := by
  refine ⟨?_, by decide, rfl, rfl⟩
  intro rule idStr id h
  simp [New, Parser.Parse, h]

/-- C27, evaluated: the rule for `rhel-90`, twice, applied to `rhel-90`. -/
theorem Parse_double_match_panics_witness :
    rhel90Rule "rhel-90" = some { Name := "rhel", MajorVersion := 9, MinorVersion := 0 } ∧
    (New [rhel90Rule, rhel90Rule]).Parse "rhel-90" =
      .error "distro ID was matched by multiple parsers" :=
  ⟨by decide,
    Parse_double_match_panics.1 rhel90Rule "rhel-90"
      { Name := "rhel", MajorVersion := 9, MinorVersion := 0 } (by decide)⟩

end distroidparser

/-! ## Further properties of the build roots -/

namespace manifest

/-- C31: on an unresolved container-based root, `serializeStart(inputs)` with
a non-empty container spec list succeeds and stores exactly
`inputs.Containers` as the resolved specs, and the `serializeEnd()` that
follows succeeds and gives back the root as it was before the start, with no
resolved spec. -/
theorem container_start_end_restores (p : BuildrootFromContainer) (inputs : Inputs)
    (hun : p.containerSpecs = []) (hne : inputs.Containers ≠ []) :
    ∃ p1 p2 : BuildrootFromContainer,
      p.serializeStart inputs = .ok p1 ∧
      p1.getContainerSpecs = inputs.Containers ∧
      p1.serializeEnd = .ok p2 ∧
      p2 = p ∧ p2.containerSpecs = [] := by
  refine ⟨_, _, BuildrootFromContainer.ctr_serializeStart_of_empty p inputs hun, rfl,
    BuildrootFromContainer.ctr_serializeEnd_of_nonempty _ hne, ?_, rfl⟩
  rcases p with ⟨b, r, d, cs, specs, cb, ds, sp, cf, ed⟩
  simp only at hun
  subst hun
  rfl

/-- C31, evaluated on `sampleContainerRoot` with `containerInputs`. -/
theorem container_start_end_restores_witness :
    sampleContainerRoot.containerSpecs = [] ∧ containerInputs.Containers ≠ [] ∧
    ∃ p1 p2 : BuildrootFromContainer,
      sampleContainerRoot.serializeStart containerInputs = .ok p1 ∧
      p1.getContainerSpecs = [sampleSpec] ∧
      p1.serializeEnd = .ok p2 ∧
      p2 = sampleContainerRoot ∧ p2.containerSpecs = [] :=
  ⟨rfl, by decide,
    container_start_end_restores sampleContainerRoot containerInputs rfl (by decide)⟩

/-! ## Values and dependencies of the label tables -/

/-- Storing the value `label` in a table whose values are all `label` gives a
table whose values are all `label`. -/
theorem Labels.set_value (m : Labels) (key label : String)
    (hm : ∀ k v, m k = some v → v = label) :
    ∀ k v, (m.set key label) k = some v → v = label := by
  intro k v hkv
  rw [Labels.set_apply] at hkv
  by_cases hk : k = key
  · rw [if_pos hk] at hkv
    exact (Option.some.inj hkv).symm
  · rw [if_neg hk] at hkv
    exact hm k v hkv

/-- The loop of `getSELinuxLabels` only ever stores the install label. -/
theorem BuildrootFromPackages.labels_fold_values (c : Bool) (specs : List PackageSpec) :
    ∀ acc : Labels,
      (∀ k v, acc k = some v → v = BuildrootFromPackages.installExecLabel) →
      ∀ k v,
        (specs.foldl
          (fun labels pkg =>
            if pkg.Name = "coreutils" then
              if c = true then
                ((Labels.set labels "/usr/bin/cp" BuildrootFromPackages.installExecLabel).set
                  "/usr/bin/mount" BuildrootFromPackages.installExecLabel).set
                  "/usr/bin/umount" BuildrootFromPackages.installExecLabel
              else Labels.set labels "/usr/bin/cp" BuildrootFromPackages.installExecLabel
            else if pkg.Name = "tar" then
              Labels.set labels "/usr/bin/tar" BuildrootFromPackages.installExecLabel
            else labels)
          acc) k = some v → v = BuildrootFromPackages.installExecLabel := by
  have hset : ∀ (m : Labels) (key : String),
      (∀ k v, m k = some v → v = BuildrootFromPackages.installExecLabel) →
      ∀ k v, (m.set key BuildrootFromPackages.installExecLabel) k = some v →
        v = BuildrootFromPackages.installExecLabel := by
    intro m key hm k v hkv
    rw [Labels.set_apply] at hkv
    by_cases hk : k = key
    · rw [if_pos hk] at hkv
      exact (Option.some.inj hkv).symm
    · rw [if_neg hk] at hkv
      exact hm k v hkv
  induction specs with
  | nil => intro acc hacc k v h; exact hacc k v h
  | cons pkg rest ih =>
    intro acc hacc k v h
    rw [List.foldl_cons] at h
    refine ih _ ?_ k v h
    by_cases hc : pkg.Name = "coreutils"
    · by_cases hcb : c = true
      · simp only [hc, hcb, if_true]
        exact hset _ _ (hset _ _ (hset _ _ hacc))
      · simp only [hc, hcb, if_true, if_false]
        exact hset _ _ hacc
    · by_cases ht : pkg.Name = "tar"
      · simp only [hc, ht, if_true, if_false]
        exact hset _ _ hacc
      · simp only [hc, ht, if_false]
        exact hacc

/-- Every value of the label table of a package-based root is the install
label. -/
theorem BuildrootFromPackages.getSELinuxLabels_value (p : BuildrootFromPackages)
    (k v : String) (h : p.getSELinuxLabels k = some v) :
    v = BuildrootFromPackages.installExecLabel := by
  have hfold := BuildrootFromPackages.labels_fold_values p.containerBuildable p.packageSpecs
    Labels.empty (by intro k v hk; simp [Labels.empty] at hk) k v
  apply hfold
  simpa [BuildrootFromPackages.getSELinuxLabels, BuildrootFromPackages.getPackageSpecs] using h

/-- C32: two package-based roots with the same container-buildable flag whose
resolved lists have the same set of package names have equal label tables,
whatever the order, the repeats and the other fields of the packages and
whatever the other fields of the roots; in particular the SELinux-disabled
flag has no influence. -/
theorem getSELinuxLabels_depends_on_names (p q : BuildrootFromPackages)
    (hcb : p.containerBuildable = q.containerBuildable)
    (hnames : ∀ n : String,
      (∃ pkg ∈ p.packageSpecs, pkg.Name = n) ↔ (∃ pkg ∈ q.packageSpecs, pkg.Name = n)) :
    p.getSELinuxLabels = q.getSELinuxLabels ∧
    ∀ b : Bool,
      ({ p with disableSelinux := b } : BuildrootFromPackages).getSELinuxLabels =
        p.getSELinuxLabels := by
  refine ⟨?_, fun _ => rfl⟩
  funext k
  have hp := BuildrootFromPackages.getSELinuxLabels_isSome p k
  have hq := BuildrootFromPackages.getSELinuxLabels_isSome q k
  rw [hnames "coreutils", hnames "tar", hcb] at hp
  have hiff : (p.getSELinuxLabels k).isSome = true ↔ (q.getSELinuxLabels k).isSome = true :=
    hp.trans hq.symm
  cases hA : p.getSELinuxLabels k with
  | none =>
    cases hB : q.getSELinuxLabels k with
    | none => rfl
    | some b =>
      have : (p.getSELinuxLabels k).isSome = true := hiff.mpr (by simp [hB])
      simp [hA] at this
  | some a =>
    cases hB : q.getSELinuxLabels k with
    | none =>
      have : (q.getSELinuxLabels k).isSome = true := hiff.mp (by simp [hA])
      simp [hB] at this
    | some b =>
      rw [BuildrootFromPackages.getSELinuxLabels_value p k a hA,
        BuildrootFromPackages.getSELinuxLabels_value q k b hB]

/-- C32, evaluated: `coreutilsTarRoot` (list `[coreutils, tar]`, SELinux
enabled) and `shuffledRoot` (list `[tar, coreutils, tar]` with another version,
SELinux disabled) have the same label table. -/
theorem getSELinuxLabels_depends_on_names_witness :
    coreutilsTarRoot.packageSpecs ≠ shuffledRoot.packageSpecs ∧
    coreutilsTarRoot.disableSelinux ≠ shuffledRoot.disableSelinux ∧
    coreutilsTarRoot.getSELinuxLabels = shuffledRoot.getSELinuxLabels :=
  ⟨by decide, by decide,
    (getSELinuxLabels_depends_on_names coreutilsTarRoot shuffledRoot rfl
      (by
        intro n
        simp only [coreutilsTarRoot, shuffledRoot, samplePackage, List.mem_cons,
          List.mem_singleton, List.not_mem_nil, or_false, exists_eq_or_imp, exists_eq_left]
        tauto)).1⟩

/-- C33: for both build-root variants and every state, every value of the
label table of `getSELinuxLabels()` is `system_u:object_r:install_exec_t:s0`;
and the table of a container-based root with SELinux disabled has no entry. -/
theorem getSELinuxLabels_values :
    (∀ (p : BuildrootFromPackages) (k v : String),
      p.getSELinuxLabels k = some v → v = "system_u:object_r:install_exec_t:s0") ∧
    (∀ (p : BuildrootFromContainer) (k v : String),
      p.getSELinuxLabels k = some v → v = "system_u:object_r:install_exec_t:s0") ∧
    (∀ p : BuildrootFromContainer, p.disableSelinux = true →
      ∀ k : String, p.getSELinuxLabels k = none) := by
  refine ⟨?_, ?_, ?_⟩
  · intro p k v h
    exact BuildrootFromPackages.getSELinuxLabels_value p k v h
  · intro p k v h
    have hempty : ∀ k v, Labels.empty k = some v → v = "system_u:object_r:install_exec_t:s0" := by
      intro k v hk
      simp [Labels.empty] at hk
    unfold BuildrootFromContainer.getSELinuxLabels at h
    by_cases hd : p.disableSelinux = true
    · simp [hd, Labels.empty] at h
    · by_cases hcb : p.containerBuildable = true
      · simp only [hd, hcb, if_true, if_false] at h
        exact Labels.set_value _ _ _ (Labels.set_value _ _ _ (Labels.set_value _ _ _ hempty))
          k v h
      · simp only [hd, hcb, if_false] at h
        exact Labels.set_value _ _ _ hempty k v h
  · intro p hd k
    simp [BuildrootFromContainer.getSELinuxLabels, hd, Labels.empty]

/-- C33, evaluated: the labels of `/usr/bin/tar` on `coreutilsTarRoot` and of
`/usr/bin/ostree` on `resolvedContainerRoot`, and no label with SELinux
disabled. -/
theorem getSELinuxLabels_values_witness :
    coreutilsTarRoot.getSELinuxLabels "/usr/bin/tar" =
      some "system_u:object_r:install_exec_t:s0" ∧
    resolvedContainerRoot.getSELinuxLabels "/usr/bin/ostree" =
      some "system_u:object_r:install_exec_t:s0" ∧
    ({ resolvedContainerRoot with disableSelinux := true } :
      BuildrootFromContainer).getSELinuxLabels "/usr/bin/ostree" = none := by
  refine ⟨?_, ?_, ?_⟩
  · have h : ∃ v, coreutilsTarRoot.getSELinuxLabels "/usr/bin/tar" = some v := ⟨_, rfl⟩
    obtain ⟨v, hv⟩ := h
    rw [hv, getSELinuxLabels_values.1 coreutilsTarRoot "/usr/bin/tar" v hv]
  · have h : ∃ v, resolvedContainerRoot.getSELinuxLabels "/usr/bin/ostree" = some v :=
      ⟨_, rfl⟩
    obtain ⟨v, hv⟩ := h
    rw [hv, getSELinuxLabels_values.2.1 resolvedContainerRoot "/usr/bin/ostree" v hv]
  · exact getSELinuxLabels_values.2.2 _ rfl "/usr/bin/ostree"

/-! ## Frame of the lifecycle calls -/

/-- C34: for both build-root variants, a successful `serializeStart` changes
only the resolved specs (and, for the package variant, the repository list),
a successful `serializeEnd` changes only the resolved specs, and a failing
`serializeStart` or `serializeEnd` leaves the root as it was; every other field
(name, upstream build, Manifest, runner, dependents, container-buildable flag,
SELinux-disabled flag, policy name, container sources, copy map,
ensure-directories list) is the one of the root before the call. The steps
agree with `serializeStart` and `serializeEnd`. -/
theorem lifecycle_frame :
    (∀ (p : BuildrootFromPackages) (inputs : Inputs),
      ((p.serializeStartStep inputs).2 = .ok () →
        (p.serializeStartStep inputs).1 = { p with
          packageSpecs := inputs.Depsolved.Packages
          repos := p.repos ++ inputs.Depsolved.Repos }) ∧
      (∀ e, (p.serializeStartStep inputs).2 = .error e → (p.serializeStartStep inputs).1 = p) ∧
      (p.serializeEndStep.2 = .ok () → p.serializeEndStep.1 = { p with packageSpecs := [] }) ∧
      (∀ e, p.serializeEndStep.2 = .error e → p.serializeEndStep.1 = p) ∧
      (∀ q, p.serializeStart inputs = .ok q → p.serializeStartStep inputs = (q, .ok ())) ∧
      (∀ e, p.serializeStart inputs = .error e → p.serializeStartStep inputs = (p, .error e)) ∧
      (∀ q, p.serializeEnd = .ok q → p.serializeEndStep = (q, .ok ())) ∧
      (∀ e, p.serializeEnd = .error e → p.serializeEndStep = (p, .error e))) ∧
    (∀ (p : BuildrootFromContainer) (inputs : Inputs),
      ((p.serializeStartStep inputs).2 = .ok () →
        (p.serializeStartStep inputs).1 = { p with containerSpecs := inputs.Containers }) ∧
      (∀ e, (p.serializeStartStep inputs).2 = .error e → (p.serializeStartStep inputs).1 = p) ∧
      (p.serializeEndStep.2 = .ok () → p.serializeEndStep.1 = { p with containerSpecs := [] }) ∧
      (∀ e, p.serializeEndStep.2 = .error e → p.serializeEndStep.1 = p) ∧
      (∀ q, p.serializeStart inputs = .ok q → p.serializeStartStep inputs = (q, .ok ())) ∧
      (∀ e, p.serializeStart inputs = .error e → p.serializeStartStep inputs = (p, .error e)) ∧
      (∀ q, p.serializeEnd = .ok q → p.serializeEndStep = (q, .ok ())) ∧
      (∀ e, p.serializeEnd = .error e → p.serializeEndStep = (p, .error e))) := by
  constructor
  · intro p inputs
    by_cases hs : p.packageSpecs = []
    · have hlen : ¬ p.packageSpecs.length > 0 := by simp [hs]
      have hlen0 : p.packageSpecs.length = 0 := by simp [hs]
      simp [BuildrootFromPackages.serializeStartStep, BuildrootFromPackages.serializeEndStep,
        BuildrootFromPackages.serializeStart, BuildrootFromPackages.serializeEnd, hs]
    · have hlen : p.packageSpecs.length > 0 := List.length_pos.mpr hs
      have hlen0 : ¬ p.packageSpecs.length = 0 := by omega
      simp [BuildrootFromPackages.serializeStartStep, BuildrootFromPackages.serializeEndStep,
        BuildrootFromPackages.serializeStart, BuildrootFromPackages.serializeEnd, hs, hlen]
  · intro p inputs
    by_cases hs : p.containerSpecs = []
    · simp [BuildrootFromContainer.serializeStartStep, BuildrootFromContainer.serializeEndStep,
        BuildrootFromContainer.serializeStart, BuildrootFromContainer.serializeEnd, hs]
    · have hlen : p.containerSpecs.length > 0 := List.length_pos.mpr hs
      simp [BuildrootFromContainer.serializeStartStep, BuildrootFromContainer.serializeEndStep,
        BuildrootFromContainer.serializeStart, BuildrootFromContainer.serializeEnd, hs, hlen]

/-- C34, evaluated: a successful start on the fresh root, a failing start on
the resolved root, and a failing end on the unresolved container root. -/
theorem lifecycle_frame_witness :
    (sampleRoot.serializeStartStep sampleInputs).1 = resolvedRoot ∧
    (resolvedRoot.serializeStartStep sampleInputs).2 =
      .error "double call to serializeStart()" ∧
    (resolvedRoot.serializeStartStep sampleInputs).1 = resolvedRoot ∧
    sampleContainerRoot.serializeEndStep.2 =
      .error "serializeEnd() call when serialization not in progress" ∧
    sampleContainerRoot.serializeEndStep.1 = sampleContainerRoot :=
  ⟨(lifecycle_frame.1 sampleRoot sampleInputs).1 rfl, rfl,
    (lifecycle_frame.1 resolvedRoot sampleInputs).2.1 _ rfl, rfl,
    (lifecycle_frame.2 sampleContainerRoot sampleInputs).2.2.2.1 _ rfl⟩

/-! ## Paths of the copy stages -/

/-- The copy stage of one entry with the source prefix written out. -/
theorem BuildrootFromContainer.copyStage_paths (name : String) (files : List String) :
    BuildrootFromContainer.copyStage name files =
      Stage.copy
        (files.map fun path =>
          { From := "input://copy-tree" ++ path, To := "tree://" ++ path })
        "copy-tree" name := by
  have hlit : ("input://" ++ "copy-tree" : String) = "input://copy-tree" := by decide
  rw [BuildrootFromContainer.copyStage_eq, hlit]

/-- C35: for a container-based build root with exactly one resolved container
spec whose `serialize()` returns a pipeline, the copy stages that `serialize()`
adds are, entry by entry of the copy map, the copy stage whose input
`copy-tree` is the tree of the entry's pipeline and whose path list has one
element per path of the entry, in the same order, the i-th with From
`input://copy-tree` followed by the path and To `tree://` followed by the
path; and the stage of every entry is a stage of the pipeline. -/
theorem copy_stage_paths (bs : Base → OsbuildPipeline)
    (de : ContainerSpec → ContainerDeployOptions → Option String)
    (gd : List Directory → List DirectoryNodesStage) (p : BuildrootFromContainer)
    (spec : ContainerSpec) (pl : OsbuildPipeline)
    (hone : p.containerSpecs = [spec])
    (hok : p.serialize bs de gd = .ok pl) :
    (pl.Stages.drop (bs p.toBase).Stages.length).filter Stage.isCopy =
      (p.copyFilesFrom.map fun entry =>
        Stage.copy
          (entry.2.map fun path =>
            { From := "input://copy-tree" ++ path, To := "tree://" ++ path })
          "copy-tree" entry.1) ∧
    ∀ entry ∈ p.copyFilesFrom, ∃ paths : List CopyStagePath,
      Stage.copy paths "copy-tree" entry.1 ∈ pl.Stages ∧
      paths.length = entry.2.length ∧
      ∀ (i : Nat) (h : i < entry.2.length),
        paths[i]? = some
          { From := "input://copy-tree" ++ entry.2.get ⟨i, h⟩,
            To := "tree://" ++ entry.2.get ⟨i, h⟩ } := by
  constructor
  · rw [BuildrootFromContainer.added_copy_stages hone hok]
    simp [BuildrootFromContainer.copyStage_paths]
  · intro entry hentry
    obtain ⟨_, _, _, hstages⟩ := BuildrootFromContainer.serialize_ok_inv hone hok
    refine ⟨entry.2.map fun path =>
      { From := "input://copy-tree" ++ path, To := "tree://" ++ path }, ?_, by simp, ?_⟩
    · rw [hstages, ← BuildrootFromContainer.copyStage_paths]
      simp only [List.mem_append, List.mem_map]
      exact Or.inl (Or.inr ⟨entry, hentry, rfl⟩)
    · intro i h
      simp [List.getElem?_map, List.getElem?_eq_getElem h]

/-- C35, evaluated on `resolvedContainerRoot`: the stage of the entry `os`
copies `/etc/a` and then `/etc/b`. -/
theorem copy_stage_paths_witness :
    ∃ pl : OsbuildPipeline,
      resolvedContainerRoot.containerSpecs = [sampleSpec] ∧
      resolvedContainerRoot.serialize sampleBaseSerialize acceptDeploy sampleGenDirs = .ok pl ∧
      (pl.Stages.drop (sampleBaseSerialize resolvedContainerRoot.toBase).Stages.length).filter
          Stage.isCopy =
        [Stage.copy
            [{ From := "input://copy-tree" ++ "/etc/a", To := "tree://" ++ "/etc/a" },
              { From := "input://copy-tree" ++ "/etc/b", To := "tree://" ++ "/etc/b" }]
            "copy-tree" "os",
          Stage.copy
            [{ From := "input://copy-tree" ++ "/usr/bin/t", To := "tree://" ++ "/usr/bin/t" }]
            "copy-tree" "tools"] :=
  ⟨_, rfl, rfl,
    (copy_stage_paths sampleBaseSerialize acceptDeploy sampleGenDirs resolvedContainerRoot
      sampleSpec _ rfl rfl).1⟩

/-! ## Order of the copy stages -/

/-- C36, evaluated at a copy map with two source pipelines: the roots
`resolvedContainerRoot` and `swappedContainerRoot` hold the same Go map and
agree in every other field; they differ only in the order in which `range`
visits the two entries. Both calls of `serialize()` return a pipeline, one with
the copy stage of `os` before that of `tools`, the other with the copy stage of
`tools` before that of `os`, so the two stage sequences differ. -/
theorem copy_stage_order_follows_range_order :
    resolvedContainerRoot.copyFilesFrom.Perm swappedContainerRoot.copyFilesFrom ∧
    swappedContainerRoot =
      { resolvedContainerRoot with copyFilesFrom := swappedContainerRoot.copyFilesFrom } ∧
    ∃ pl1 pl2 : OsbuildPipeline,
      resolvedContainerRoot.serialize sampleBaseSerialize acceptDeploy sampleGenDirs = .ok pl1 ∧
      swappedContainerRoot.serialize sampleBaseSerialize acceptDeploy sampleGenDirs = .ok pl2 ∧
      copySources pl1.Stages = ["os", "tools"] ∧
      copySources pl2.Stages = ["tools", "os"] ∧
      pl1.Stages ≠ pl2.Stages := by
  refine ⟨by decide, rfl, _, _, rfl, rfl, rfl, rfl, ?_⟩
  intro h
  have hsrc := congrArg copySources h
  revert hsrc
  show ¬ (["os", "tools"] : List String) = ["tools", "os"]
  decide

/-! ## Names and defaults of the constructors -/

/-- C37: `NewBuild` and `NewBuildFromContainer` name the root `build` when the
options are nil or `PipelineName` is empty, and `opts.PipelineName` otherwise;
with nil options they return exactly what they return with an empty
`BuildOptions` value: SELinux enabled, not container-buildable, policy
`targeted`, no bootstrap build, no dependents. -/
theorem constructor_names_and_defaults :
    (∀ (fr : List RepoConfig → String → List RepoConfig) (m : Manifest) (runner : Runner)
        (repos : List RepoConfig),
      (NewBuild fr m runner repos none).1.name = "build" ∧
      (∀ o : BuildOptions, o.PipelineName = "" →
        (NewBuild fr m runner repos (some o)).1.name = "build") ∧
      (∀ o : BuildOptions, o.PipelineName ≠ "" →
        (NewBuild fr m runner repos (some o)).1.name = o.PipelineName) ∧
      NewBuild fr m runner repos none = NewBuild fr m runner repos (some {}) ∧
      (NewBuild fr m runner repos none).1.disableSelinux = false ∧
      (NewBuild fr m runner repos none).1.containerBuildable = false ∧
      (NewBuild fr m runner repos none).1.selinuxPolicy = "targeted" ∧
      (NewBuild fr m runner repos none).1.build = none ∧
      (NewBuild fr m runner repos none).1.dependents = []) ∧
    (∀ (m : Manifest) (runner : Runner) (sources : List ContainerSourceSpec),
      (NewBuildFromContainer m runner sources none).1.name = "build" ∧
      (∀ o : BuildOptions, o.PipelineName = "" →
        (NewBuildFromContainer m runner sources (some o)).1.name = "build") ∧
      (∀ o : BuildOptions, o.PipelineName ≠ "" →
        (NewBuildFromContainer m runner sources (some o)).1.name = o.PipelineName) ∧
      NewBuildFromContainer m runner sources none =
        NewBuildFromContainer m runner sources (some {}) ∧
      (NewBuildFromContainer m runner sources none).1.disableSelinux = false ∧
      (NewBuildFromContainer m runner sources none).1.containerBuildable = false ∧
      (NewBuildFromContainer m runner sources none).1.selinuxPolicy = "targeted" ∧
      (NewBuildFromContainer m runner sources none).1.build = none ∧
      (NewBuildFromContainer m runner sources none).1.dependents = []) := by
  constructor
  · intro fr m runner repos
    refine ⟨NewBuild_name fr m runner repos none, ?_, ?_, rfl, rfl, rfl, rfl, ?_, rfl⟩
    · intro o ho
      rw [NewBuild_name]
      simp [ho]
    · intro o ho
      rw [NewBuild_name]
      simp [ho]
    · show (m.addPipeline _).1.build = _
      rw [Manifest.addPipeline_build]
      rfl
  · intro m runner sources
    refine ⟨NewBuildFromContainer_name m runner sources none, ?_, ?_, rfl, rfl, rfl, rfl, ?_,
      rfl⟩
    · intro o ho
      rw [NewBuildFromContainer_name]
      simp [ho]
    · intro o ho
      rw [NewBuildFromContainer_name]
      simp [ho]
    · show (m.addPipeline _).1.build = _
      rw [Manifest.addPipeline_build]
      rfl

/-- C37, evaluated with the pipeline name `build2` and with an empty name. -/
theorem constructor_names_and_defaults_witness :
    (NewBuild keepAllRepos sampleManifest sampleRunner []
      (some { PipelineName := "build2" })).1.name = "build2" ∧
    (NewBuildFromContainer sampleManifest sampleRunner [sampleSource]
      (some { PipelineName := "build2" })).1.name = "build2" ∧
    (NewBuild keepAllRepos sampleManifest sampleRunner []
      (some { ContainerBuildable := true })).1.name = "build" :=
  ⟨(constructor_names_and_defaults.1 keepAllRepos sampleManifest sampleRunner []).2.2.1
      { PipelineName := "build2" } (by decide),
    (constructor_names_and_defaults.2 sampleManifest sampleRunner [sampleSource]).2.2.1
      { PipelineName := "build2" } (by decide),
    (constructor_names_and_defaults.1 keepAllRepos sampleManifest sampleRunner []).2.1
      { ContainerBuildable := true } rfl⟩

/-! ## One policy name for the request and for the labelling -/

/-- C38: take any package-based root, the package set it requests, and any
state reached from it by successful serializeStart / serialize / serializeEnd
calls in which `serialize()` returns a pipeline with SELinux not disabled. The
first element of Include is `selinux-policy-<policy>` and the last stage of
the pipeline is the SELinux stage with FileContexts
`etc/selinux/<policy>/contexts/files/file_contexts`, for one and the same
`<policy>`, the policy name of the root. -/
theorem policy_name_consistent (bs : Base → OsbuildPipeline)
    (p r : BuildrootFromPackages) (cs : List LifecycleCall) (pl : OsbuildPipeline)
    (distro : Distro)
    (hcalls : p.callAll bs cs = .ok r)
    (hser : r.serialize bs = .ok pl)
    (hsel : r.disableSelinux = false) :
    ∃ ps rps : PackageSet,
      p.getPackageSetChain distro = [ps] ∧
      r.getPackageSetChain distro = [rps] ∧
      ps.Include.head? = some ("selinux-policy-" ++ p.selinuxPolicy) ∧
      rps.Include.head? = some ("selinux-policy-" ++ p.selinuxPolicy) ∧
      pl.Stages.getLast? = some (Stage.selinux
        { FileContexts := "etc/selinux/" ++ p.selinuxPolicy ++ "/contexts/files/file_contexts"
          ExcludePaths := []
          Labels := r.getSELinuxLabels }) := by
  have hpol : r.selinuxPolicy = p.selinuxPolicy :=
    BuildrootFromPackages.callAll_selinuxPolicy bs cs p r hcalls
  have hne : r.packageSpecs ≠ [] := by
    intro hempty
    rw [BuildrootFromPackages.serialize_of_empty bs r hempty] at hser
    cases hser
  rw [BuildrootFromPackages.serialize_eq bs r hne] at hser
  have hpl := Except.ok.inj hser
  subst hpl
  refine ⟨_, _, BuildrootFromPackages.getPackageSetChain_eq p distro,
    BuildrootFromPackages.getPackageSetChain_eq r distro, rfl, ?_, ?_⟩
  · rw [hpol]
    rfl
  · simp only [hsel, Bool.false_eq_true, if_false, hpol]
    rw [show (bs r.toBase).Stages ++
        [Stage.rpm r.repos r.packageSpecs,
          Stage.selinux
            { FileContexts :=
                "etc/selinux/" ++ p.selinuxPolicy ++ "/contexts/files/file_contexts"
              ExcludePaths := []
              Labels := r.getSELinuxLabels }] =
      ((bs r.toBase).Stages ++ [Stage.rpm r.repos r.packageSpecs]) ++
        [Stage.selinux
          { FileContexts :=
              "etc/selinux/" ++ p.selinuxPolicy ++ "/contexts/files/file_contexts"
            ExcludePaths := []
            Labels := r.getSELinuxLabels }] by simp]
    exact List.getLast?_concat _

/-- C38, evaluated: the root with policy `mls` requests `selinux-policy-mls`
before resolution and labels from `etc/selinux/mls/...` after
`serializeStart(sampleInputs)`. -/
theorem policy_name_consistent_witness :
    ∃ (r : BuildrootFromPackages) (pl : OsbuildPipeline) (ps : PackageSet),
      (NewBuild keepAllRepos sampleManifest sampleRunner []
        (some { SELinuxPolicy := "mls" })).1.callAll sampleBaseSerialize
          [LifecycleCall.serializeStart sampleInputs] = .ok r ∧
      r.serialize sampleBaseSerialize = .ok pl ∧
      r.disableSelinux = false ∧
      (NewBuild keepAllRepos sampleManifest sampleRunner []
        (some { SELinuxPolicy := "mls" })).1.getPackageSetChain 0 = [ps] ∧
      ps.Include.head? = some ("selinux-policy-" ++ "mls") ∧
      pl.Stages.getLast? = some (Stage.selinux
        { FileContexts := "etc/selinux/" ++ "mls" ++ "/contexts/files/file_contexts"
          ExcludePaths := []
          Labels := r.getSELinuxLabels }) := by
  obtain ⟨ps, _, hps, _, hhead, _, hlast⟩ :=
    policy_name_consistent sampleBaseSerialize
      (NewBuild keepAllRepos sampleManifest sampleRunner [] (some { SELinuxPolicy := "mls" })).1
      _ [LifecycleCall.serializeStart sampleInputs] _ 0 rfl rfl rfl
  exact ⟨_, _, ps, rfl, rfl, rfl, hps, hhead, hlast⟩

end manifest
